import Mathlib

/-!
# terraform-provider-akamai: state reconciliation, identity lookup and polling

Shallow embedding of

* `populateTerraformAsAssignmentsState`
  (`pkg/providers/gtm/resource_akamai_gtm_asmap.go`), the routine that merges
  the `assignment` list held in the resource data with the assignments of the
  AS map returned by the GTM API,
* `resourceSecureEdgeHostNameCreate` and `resourceSecureEdgeHostNameRead`
  (`pkg/providers/property/resource_akamai_edge_hostname.go`): the first looks
  an edge hostname up in the fetched collection before creating it, the second
  reads it back from the collection,
* `resourceActivationsCreate`, `resourceActivationsDelete`,
  `resourceActivationsRead` and `lookupActivation`
  (`pkg/providers/appsec/resource_akamai_appsec_activations.go`), with the loop
  that polls an activation until it reaches its terminal status, and
* `resourceGTMv1ASmapCreate`, `resourceGTMv1ASmapUpdate`,
  `resourceGTMv1ASmapDelete` and `resourceGTMv1ASmapRead` with the helpers they
  call in `resource_akamai_gtm_asmap.go`.

Go values are embedded as follows.  `int` is `Int` (no arithmetic is performed
on the values, they are only compared and copied).  `string` is `String`.
A `map[string]interface{}` with a fixed key set is a structure.  A Go
`map[int]*T` is an association list with pairwise distinct keys; the order in
which a `for ... range` statement visits such a map is not fixed by the
language, so it is supplied by a `MapRange` value.  A `time.Duration` is an
`Int` of nanoseconds.  Calls to the remote services are answered by the fields
of an environment record, and a run records the calls it makes.  The passes of
a `select` are driven by a list of events, one per pass, which says whether the
timer or `ctx.Done()` was taken and what the fetch answered; a run that is
still waiting when the list ends is reported as suspended.  `fmt.Errorf` with
a format and no operands is embedded after the `doPrintf` of the Go library.
-/

namespace Gtm

/-- The fields of `gtm.AsAssignment` read by the provider. -/
structure AsAssignment where
  DatacenterId : Int
  Nickname : String
  AsNumbers : List Int
deriving DecidableEq, Repr

/-- One element of the `assignment` list of the resource data: a
`map[string]interface{}` with the keys `datacenter_id`, `nickname` and
`as_numbers`. -/
structure AssignmentState where
  datacenter_id : Int
  nickname : String
  as_numbers : List Int
deriving DecidableEq, Repr

/-- Contents of the Go map `objectInventory : map[int]*gtm.AsAssignment`. -/
abbrev Inventory := List (Int × AsAssignment)

/-- Go `m[k]` for a pointer-valued map: `none` stands for the `nil` result. -/
def mapGet (m : Inventory) (k : Int) : Option AsAssignment :=
  (m.find? (fun p => p.1 == k)).map Prod.snd

/-- Go `delete(m, k)`. -/
def mapDelete (m : Inventory) (k : Int) : Inventory :=
  m.filter (fun p => p.1 != k)

/-- Go `m[k] = v`: any previous binding of `k` is replaced. -/
def mapSet (m : Inventory) (k : Int) (v : AsAssignment) : Inventory :=
  mapDelete m k ++ [(k, v)]

/-- The order in which `for _, v := range m` visits the bindings of a map.
The language leaves it unspecified; every enumeration of the bindings is a
possible one. -/
structure MapRange where
  order : Inventory → Inventory
  perm : ∀ m, (order m).Perm m

/-- A range order that visits the bindings in the order they were inserted. -/
def MapRange.insertion : MapRange := ⟨fun m => m, fun m => List.Perm.refl m⟩

/-- A range order that visits the bindings last-inserted first. -/
def MapRange.reversed : MapRange := ⟨List.reverse, fun m => List.reverse_perm m⟩

/-- Helpers of the `gtm` package that live outside the embedded file:
`reconcileTerraformLists` and `convertInt64ToInterfaceList`. They only feed
the `as_numbers` attribute and are kept abstract. -/
structure ListHelpers where
  reconcileTerraformLists : List Int → List Int → List Int
  convertInt64ToInterfaceList : List Int → List Int

/-- Concrete helpers used when evaluating examples: the returned numbers
replace the declared ones. -/
def ListHelpers.remote : ListHelpers := ⟨fun _ o => o, fun l => l⟩

/-- Lines 384-389: `objectInventory[aObj.DatacenterId] = aObj` for every
returned assignment, in list order. -/
def buildInventory (assignments : List AsAssignment) : Inventory :=
  assignments.foldl (fun inv aObj => mapSet inv aObj.DatacenterId aObj) []

/-- The returned assignments that are not followed by another one with the same
`DatacenterId`: the objects that survive in `objectInventory`. -/
def lastOccurrences : List AsAssignment → List AsAssignment
  | [] => []
  | o :: rest =>
    if rest.any (fun x => x.DatacenterId == o.DatacenterId) then lastOccurrences rest
    else o :: lastOccurrences rest

/-- The binding under which an assignment is stored in `objectInventory`. -/
def binding (o : AsAssignment) : Int × AsAssignment := (o.DatacenterId, o)

/-- Lines 399-401: the three assignments made to a matched state element. -/
def overwrite (h : ListHelpers) (a : AssignmentState) (aObject : AsAssignment) :
    AssignmentState :=
  { datacenter_id := aObject.DatacenterId
    nickname := aObject.Nickname
    as_numbers :=
      h.reconcileTerraformLists a.as_numbers (h.convertInt64ToInterfaceList aObject.AsNumbers) }

/-- Lines 391-404: the walk over `aStateList`. An element whose key is missing
from the inventory is skipped by `continue` and stays in the list as it is; a
matched element is overwritten in place and its key is deleted from the
inventory. Returns the list after the walk and the remaining inventory. -/
def walkState (h : ListHelpers) :
    Inventory → List AssignmentState → List AssignmentState × Inventory
  | inv, [] => ([], inv)
  | inv, a :: rest =>
    match mapGet inv a.datacenter_id with
    | none =>
      let r := walkState h inv rest
      (a :: r.1, r.2)
    | some aObject =>
      let r := walkState h (mapDelete inv a.datacenter_id) rest
      (overwrite h a aObject :: r.1, r.2)

/-- Lines 409-413: the element built for an object left in the inventory. -/
def newState (maObj : AsAssignment) : AssignmentState :=
  { datacenter_id := maObj.DatacenterId
    nickname := maObj.Nickname
    as_numbers := maObj.AsNumbers }

/-- The function `populateTerraformAsAssignmentsState`: `declared` is the value of
`d.Get("assignment")`, `assignments` is `as.Assignments`, and the result is the
list handed to `d.Set("assignment", ...)`. -/
def populateTerraformAsAssignmentsState (r : MapRange) (h : ListHelpers)
    (declared : List AssignmentState) (assignments : List AsAssignment) :
    List AssignmentState :=
  let objectInventory := buildInventory assignments
  let walked := walkState h objectInventory declared
  if walked.2.length > 0 then
    walked.1 ++ (r.order walked.2).map (fun p => newState p.2)
  else
    walked.1

end Gtm

namespace strings

/-- Go `strings.HasSuffix`. -/
def HasSuffix (s suffix : String) : Bool :=
  suffix.data.isSuffixOf s.data

/-- Go `strings.TrimSuffix`: `s` without the trailing `suffix`, or `s` itself
when it does not end in `suffix`. -/
def TrimSuffix (s suffix : String) : String :=
  if HasSuffix s suffix then ⟨s.data.take (s.data.length - suffix.data.length)⟩ else s

end strings

namespace Property

/-- A Go `error` value as far as the provider tells errors apart:
`tools.ErrNotFound`, an error wrapped into `tools.ErrValueSet`, or any other
error. -/
inductive GoError where
  | ErrNotFound
  | other (msg : String)
  | ErrValueSet (cause : GoError)
deriving DecidableEq, Repr

/-- The fields of `papi.EdgeHostnameGetItem` read by the provider. -/
structure EdgeHostnameGetItem where
  ID : String
  Domain : String
  DomainPrefix : String
  DomainSuffix : String
deriving DecidableEq, Repr

/-- The request body `papi.EdgeHostnameCreate`; a fresh value has every field
at its zero value. -/
structure EdgeHostnameCreate where
  ProductID : String := ""
  DomainPrefix : String := ""
  DomainSuffix : String := ""
  SecureNetwork : String := ""
  IPVersionBehavior : String := ""
  CertEnrollmentID : Int := 0
  SlotNumber : Int := 0
deriving DecidableEq, Repr

/-- The request `papi.CreateEdgeHostnameRequest`. -/
structure CreateEdgeHostnameRequest where
  EdgeHostname : EdgeHostnameCreate
  ContractID : String
  GroupID : String
deriving DecidableEq, Repr

/-- Everything `resourceSecureEdgeHostNameCreate` obtains from its collaborators:
the results of `getGroup`, `getContract`, `getProduct`, the PAPI client and the
attribute getters of `tools` on the resource data. `GetIntValue` returns its
value together with its error, as in Go. -/
structure CreateEnv where
  getGroup : Except GoError String
  getContract : Except GoError String
  getProduct : String → Except GoError String
  GetEdgeHostnames : String → String → Except GoError (List EdgeHostnameGetItem)
  edge_hostname : Except GoError String
  ipv4 : Bool
  ipv6 : Bool
  setIpBehavior : String → Option GoError
  certificate : Int × Option GoError
  CreateEdgeHostname : CreateEdgeHostnameRequest → Except GoError String

/-- What a run of `resourceSecureEdgeHostNameCreate` leaves behind: the returned
diagnostics (`none` for `nil`), the value given to `d.SetId` if it was called,
the value stored under `ip_behavior` if it was set, and the
`CreateEdgeHostname` requests sent to the client. -/
structure CreateResult where
  diags : Option GoError := none
  id : Option String := none
  ip_behavior : Option String := none
  requests : List CreateEdgeHostnameRequest := []
deriving DecidableEq, Repr

/-- Lines 108-135: the request body derived from the product and the declared
`edge_hostname`. -/
def deriveHostname (productID edgeHostname : String) : EdgeHostnameCreate :=
  let n0 : EdgeHostnameCreate := { ProductID := productID }
  let n1 : EdgeHostnameCreate :=
    if strings.HasSuffix edgeHostname ".edgesuite.net" then
      { n0 with
        DomainPrefix := strings.TrimSuffix edgeHostname ".edgesuite.net"
        DomainSuffix := "edgesuite.net"
        SecureNetwork := "STANDARD_TLS" }
    else if strings.HasSuffix edgeHostname ".edgekey.net" then
      { n0 with
        DomainPrefix := strings.TrimSuffix edgeHostname ".edgekey.net"
        DomainSuffix := "edgekey.net"
        SecureNetwork := "ENHANCED_TLS" }
    else if strings.HasSuffix edgeHostname ".akamaized.net" then
      { n0 with
        DomainPrefix := strings.TrimSuffix edgeHostname ".akamaized.net"
        DomainSuffix := "akamaized.net"
        SecureNetwork := "SHARED_CERT" }
    else n0
  let n2 : EdgeHostnameCreate :=
    if n1.DomainSuffix = "" ∧ edgeHostname ≠ "" then
      { n1 with
        DomainSuffix :=
          if strings.HasSuffix edgeHostname "edgekey.net" then "edgekey.net" else "edgesuite.net" }
    else n1
  if n2.DomainPrefix = "" ∧ edgeHostname ≠ "" then
    { n2 with DomainPrefix := strings.TrimSuffix edgeHostname ("." ++ n2.DomainSuffix) }
  else n2

/-- Lines 137-142: the loop over the fetched items; the `ID` of the item at
which the loop returns, if it returns. -/
def lookupExisting (newHostname : EdgeHostnameCreate) : List EdgeHostnameGetItem → Option String
  | [] => none
  | h :: rest =>
    if h.DomainPrefix = newHostname.DomainPrefix ∧ h.DomainSuffix = newHostname.DomainSuffix then
      some h.ID
    else lookupExisting newHostname rest

/-- Lines 144-154: the value of `IPVersionBehavior` after the three `if`s. -/
def ipVersionBehavior (ipv4 ipv6 : Bool) (initial : String) : String :=
  let b1 := if ipv4 then "IPV4" else initial
  let b2 := if ipv6 then "IPV6" else b1
  if ipv4 && ipv6 then "IPV6_COMPLIANCE" else b2

/-- Lines 144-186: the path taken when no fetched item matches. -/
def createNew (env : CreateEnv) (contractID groupID : String)
    (newHostname : EdgeHostnameCreate) : CreateResult :=
  let newHostname := { newHostname with
    IPVersionBehavior := ipVersionBehavior env.ipv4 env.ipv6 newHostname.IPVersionBehavior }
  if !(env.ipv4 || env.ipv6) then
    { diags := some (.other "ipv4 or ipv6 must be specified to create a new Edge Hostname") }
  else
    match env.setIpBehavior newHostname.IPVersionBehavior with
    | some err => { diags := some (.ErrValueSet err) }
    | none =>
      let afterSet : CreateResult := { ip_behavior := some newHostname.IPVersionBehavior }
      let certEnrollmentID := env.certificate.1
      let certErr : Option GoError :=
        match env.certificate.2 with
        | none => none
        | some GoError.ErrNotFound =>
          if newHostname.SecureNetwork = "ENHANCED_TLS" then
            some (.other ("A certificate enrollment ID is required for Enhanced TLS " ++
              "(edgekey.net) edge hostnames"))
          else none
        | some err => some err
      match certErr with
      | some err => { afterSet with diags := some err }
      | none =>
        let newHostname := { newHostname with
          CertEnrollmentID := certEnrollmentID
          SlotNumber := certEnrollmentID }
        let request : CreateEdgeHostnameRequest :=
          { EdgeHostname := newHostname, ContractID := contractID, GroupID := groupID }
        match env.CreateEdgeHostname request with
        | .error err => { afterSet with diags := some err, requests := [request] }
        | .ok edgeHostnameID =>
          { afterSet with id := some edgeHostnameID, requests := [request] }

/-- The function `resourceSecureEdgeHostNameCreate`. -/
def resourceSecureEdgeHostNameCreate (env : CreateEnv) : CreateResult :=
  match env.getGroup with
  | .error err => { diags := some err }
  | .ok groupID =>
    match env.getContract with
    | .error err => { diags := some err }
    | .ok contractID =>
      match env.getProduct contractID with
      | .error err => { diags := some err }
      | .ok productID =>
        match env.GetEdgeHostnames contractID groupID with
        | .error err => { diags := some err }
        | .ok items =>
          match env.edge_hostname with
          | .error err => { diags := some err }
          | .ok edgeHostname =>
            let newHostname := deriveHostname productID edgeHostname
            match lookupExisting newHostname items with
            | some id => { id := some id }
            | none => createNew env contractID groupID newHostname

/-- A sample environment: every collaborator succeeds, the collection holds
`items`, and a creation is answered with the id `ehn_new`. -/
def CreateEnv.sample (edgeHostname : String) (items : List EdgeHostnameGetItem) : CreateEnv :=
  { getGroup := .ok "grp_1"
    getContract := .ok "ctr_1"
    getProduct := fun _ => .ok "prd_1"
    GetEdgeHostnames := fun _ _ => .ok items
    edge_hostname := .ok edgeHostname
    ipv4 := true
    ipv6 := false
    setIpBehavior := fun _ => none
    certificate := (0, some GoError.ErrNotFound)
    CreateEdgeHostname := fun _ => .ok "ehn_new" }

end Property

namespace time

/-- Go `time.Minute`, a `time.Duration` in nanoseconds. -/
def Minute : Int := 60000000000

end time

namespace tools

/-- Modelled from the spec: `tools.MaxDuration` of `pkg/tools` is not among the
embedded files; the poller is specified to suspend for
`max(pollInterval, minimumInterval)`, so the helper returns the larger of its
two durations. -/
def MaxDuration (x y : Int) : Int := if x > y then x else y

end tools

namespace Appsec

/-- A Go `error` value: `tools.ErrNotFound`, an error built by
`fmt.Errorf(text + "%w", cause)`, or any other error. -/
inductive GoError where
  | ErrNotFound
  | other (msg : String)
  | wrapped (text : String) (cause : GoError)
deriving DecidableEq, Repr

/-- Go `errors.Is(err, tools.ErrNotFound)`. -/
def GoError.isNotFound : GoError → Bool
  | .ErrNotFound => true
  | .other _ => false
  | .wrapped _ cause => cause.isNotFound

/-- The test `err != nil && !errors.Is(err, tools.ErrNotFound)` of lines 101, 107
and 113: the error that makes the function return, if any. -/
def fatal : Option GoError → Option GoError
  | none => none
  | some err => if err.isNotFound then none else some err

/-- Line 71: `ActivationPollMinimum = time.Minute`. -/
def ActivationPollMinimum : Int := time.Minute

/-- The fields of `v2.GetActivationsResponse` read by the provider. -/
structure GetActivationsResponse where
  ActivationID : Int
  Status : String
deriving DecidableEq, Repr

/-- The fields of the answer to `CreateActivations` and `RemoveActivations` read by
the provider. -/
structure PostResponse where
  ActivationID : Int
  Status : String
deriving DecidableEq, Repr

/-- The type `v2.ActivationConfigs`. -/
structure ActivationConfigs where
  ConfigID : Int
  ConfigVersion : Int
deriving DecidableEq, Repr

/-- The request `v2.CreateActivationsRequest`. -/
structure CreateActivationsRequest where
  Action : String
  Network : String
  NotificationEmails : List String
  ActivationConfigs : List ActivationConfigs
deriving DecidableEq, Repr

/-- The request `v2.RemoveActivationsRequest`. -/
structure RemoveActivationsRequest where
  ActivationID : Int
  Action : String
  Network : String
  NotificationEmails : List String
  ActivationConfigs : List ActivationConfigs
deriving DecidableEq, Repr

/-- What one pass through the `select` of the polling loop meets: the timer fires
and `client.GetActivations` answers with `resp`, or `ctx.Done()` fires and
`ctx.Err()` is `cause`. -/
inductive PollEvent where
  | timer (resp : Except GoError GetActivationsResponse)
  | done (cause : GoError)

/-- The calls a run makes, in order: the submission, the `GetActivations` of
`lookupActivation`, each `time.After(d)` armed by the loop, each
`GetActivations` of the loop body, and the `GetActivations` of
`resourceActivationsRead`. -/
inductive Call where
  | CreateActivations (req : CreateActivationsRequest)
  | RemoveActivations (req : RemoveActivationsRequest)
  | lookupActivation (activationID : Int)
  | After (d : Int)
  | GetActivations (activationID : Int)
  | Read (activationID : Int)
deriving DecidableEq, Repr

/-- How the polling loop is left: the loop condition became false with
`activation` as the last answer, a `return diag.FromErr(...)` inside the loop,
or the loop is still suspended in its `select` when the recorded events end. -/
inductive LoopExit where
  | finished (activation : GetActivationsResponse)
  | failed (diags : GoError)
  | suspended
deriving DecidableEq, Repr

/-- A run of the polling loop: how it was left and the calls it made. -/
structure LoopRun where
  exit : LoopExit
  calls : List Call
deriving DecidableEq, Repr

/-- Lines 133-146 and 213-226: the loop `for activation.Status != terminal`, where
`terminal` is `v2.StatusActive` in create and `v2.StatusDeactivated` in delete,
`wait` is the duration given to `time.After` and `activationID` is the id of the
request sent by each fetch. -/
def pollLoop (terminal : String) (wait : Int) (activationID : Int) :
    GetActivationsResponse → List PollEvent → LoopRun
  | activation, [] =>
    if activation.Status ≠ terminal then ⟨.suspended, [.After wait]⟩
    else ⟨.finished activation, []⟩
  | activation, event :: rest =>
    if activation.Status ≠ terminal then
      match event with
      | .timer (.error err) => ⟨.failed err, [.After wait, .GetActivations activationID]⟩
      | .timer (.ok act) =>
        let r := pollLoop terminal wait activationID act rest
        ⟨r.exit, .After wait :: .GetActivations activationID :: r.calls⟩
      | .done cause =>
        ⟨.failed (.wrapped "activation context terminated: " cause), [.After wait]⟩
    else ⟨.finished activation, []⟩

/-- How a resource function ends: it returns diagnostics (`none` for `nil`), it
stops with a nil pointer dereference, or it is still suspended in the polling
loop when the recorded events end. -/
inductive Outcome where
  | returned (diags : Option GoError)
  | panicked
  | suspended
deriving DecidableEq, Repr

/-- A run of a resource function: how it ended, the calls it made, and the last
values given to `d.SetId` and `d.Set("status", ...)` (`none` when not called). -/
structure Run where
  outcome : Outcome
  calls : List Call := []
  id : Option String := none
  status : Option String := none
deriving DecidableEq, Repr

/-- Everything `resourceActivationsCreate` and `resourceActivationsDelete` obtain
from outside: the attribute getters of `tools` (value and error, as in Go),
`d.Id()`, `strconv.Atoi` (its error is discarded by the callers), the status
constants of the client library, the package variable `ActivationPollInterval`,
and the answers of the client: to the submission, to the `GetActivations` of
`lookupActivation`, to the passes of the polling loop, and to the
`GetActivations` of `resourceActivationsRead`. -/
structure ActivationsEnv where
  activate : Except GoError Bool
  config_id : Int × Option GoError
  version : Int × Option GoError
  network : String × Option GoError
  notification_emails : List String
  Id : String
  Atoi : String → Int
  StatusActive : String
  StatusDeactivated : String
  ActivationPollInterval : Int
  CreateActivations : CreateActivationsRequest → Except GoError PostResponse
  RemoveActivations : RemoveActivationsRequest → Except GoError PostResponse
  lookup : Int → Except GoError GetActivationsResponse
  events : List PollEvent
  read : Int → Except GoError GetActivationsResponse

/-- The function `resourceActivationsRead`, run with `id` as `d.Id()` after the
calls `calls`. -/
def resourceActivationsRead (env : ActivationsEnv) (calls : List Call) (id : String)
    (status : Option String) : Run :=
  let activationID := env.Atoi id
  match env.read activationID with
  | .error err =>
    { outcome := .returned (some err), calls := calls ++ [.Read activationID]
      id := some id, status := status }
  | .ok activations =>
    { outcome := .returned none, calls := calls ++ [.Read activationID]
      id := some (toString activations.ActivationID), status := some activations.Status }

/-- Lines 128-148: what `resourceActivationsCreate` does once the submission is
answered with `postresp`. The error of `lookupActivation` is not looked at; when
the lookup fails `activation` is `nil` and the loop condition dereferences
it. -/
def createAfterSubmit (env : ActivationsEnv) (req : CreateActivationsRequest)
    (postresp : PostResponse) : Run :=
  let id := toString postresp.ActivationID
  let submitted : List Call := [.CreateActivations req, .lookupActivation postresp.ActivationID]
  match env.lookup postresp.ActivationID with
  | .error _ =>
    { outcome := .panicked, calls := submitted, id := some id, status := some postresp.Status }
  | .ok activation =>
    let loop := pollLoop env.StatusActive
      (tools.MaxDuration env.ActivationPollInterval ActivationPollMinimum)
      postresp.ActivationID activation env.events
    match loop.exit with
    | .failed err =>
      { outcome := .returned (some err), calls := submitted ++ loop.calls
        id := some id, status := some postresp.Status }
    | .suspended =>
      { outcome := .suspended, calls := submitted ++ loop.calls
        id := some id, status := some postresp.Status }
    | .finished _ =>
      resourceActivationsRead env (submitted ++ loop.calls) id (some postresp.Status)

/-- The function `resourceActivationsCreate`. -/
def resourceActivationsCreate (env : ActivationsEnv) : Run :=
  match env.activate with
  | .error err => { outcome := .returned (some err) }
  | .ok false => { outcome := .returned none, id := some "none" }
  | .ok true =>
    match fatal env.config_id.2 with
    | some err => { outcome := .returned (some err) }
    | none =>
      match fatal env.version.2 with
      | some err => { outcome := .returned (some err) }
      | none =>
        match fatal env.network.2 with
        | some err => { outcome := .returned (some err) }
        | none =>
          let req : CreateActivationsRequest :=
            { Action := "ACTIVATE"
              Network := env.network.1
              NotificationEmails := env.notification_emails
              ActivationConfigs := [⟨env.config_id.1, env.version.1⟩] }
          match env.CreateActivations req with
          | .error err => { outcome := .returned (some err), calls := [.CreateActivations req] }
          | .ok postresp => createAfterSubmit env req postresp

/-- Lines 208-232: what `resourceActivationsDelete` does once the submission is
answered with `postresp`. -/
def deleteAfterSubmit (env : ActivationsEnv) (req : RemoveActivationsRequest)
    (postresp : PostResponse) : Run :=
  let id := toString postresp.ActivationID
  let submitted : List Call := [.RemoveActivations req, .lookupActivation postresp.ActivationID]
  match env.lookup postresp.ActivationID with
  | .error _ =>
    { outcome := .panicked, calls := submitted, id := some id, status := some postresp.Status }
  | .ok activation =>
    let loop := pollLoop env.StatusDeactivated
      (tools.MaxDuration env.ActivationPollInterval ActivationPollMinimum)
      postresp.ActivationID activation env.events
    match loop.exit with
    | .failed err =>
      { outcome := .returned (some err), calls := submitted ++ loop.calls
        id := some id, status := some postresp.Status }
    | .suspended =>
      { outcome := .suspended, calls := submitted ++ loop.calls
        id := some id, status := some postresp.Status }
    | .finished last =>
      { outcome := .returned none, calls := submitted ++ loop.calls
        id := some "", status := some last.Status }

/-- The function `resourceActivationsDelete`. -/
def resourceActivationsDelete (env : ActivationsEnv) : Run :=
  match env.activate with
  | .error err => { outcome := .returned (some err) }
  | .ok false => { outcome := .returned none, id := some "none" }
  | .ok true =>
    if env.Id = "" then { outcome := .returned none }
    else
      match fatal env.config_id.2 with
      | some err => { outcome := .returned (some err) }
      | none =>
        match fatal env.version.2 with
        | some err => { outcome := .returned (some err) }
        | none =>
          match fatal env.network.2 with
          | some err => { outcome := .returned (some err) }
          | none =>
            let req : RemoveActivationsRequest :=
              { ActivationID := env.Atoi env.Id
                Action := "DEACTIVATE"
                Network := env.network.1
                NotificationEmails := env.notification_emails
                ActivationConfigs := [⟨env.config_id.1, env.version.1⟩] }
            match env.RemoveActivations req with
            | .error err =>
              { outcome := .returned (some err), calls := [.RemoveActivations req] }
            | .ok postresp => deleteAfterSubmit env req postresp

/-- The calls of `n` full passes of the polling loop: a wait followed by a fetch,
`n` times. -/
def passes (wait : Int) (activationID : Int) : Nat → List Call
  | 0 => []
  | n + 1 => .After wait :: .GetActivations activationID :: passes wait activationID n

/-- Every wait among `calls` lasts `wait`, and every polling fetch comes directly
after such a wait. -/
def WaitsBeforeFetches (wait : Int) (calls : List Call) : Prop :=
  (∀ d, Call.After d ∈ calls → d = wait)
    ∧ ∀ i id, calls[i]? = some (Call.GetActivations id) →
        ∃ j, i = j + 1 ∧ calls[j]? = some (Call.After wait)

/-- The number of `GetActivations` calls of the polling loop among `calls`. -/
def pollFetches (calls : List Call) : Nat :=
  (calls.filter (fun c => match c with
    | .GetActivations _ => true
    | _ => false)).length

/-- A sample environment: activation 7 of configuration 1, version 2 on STAGING is
accepted with status `submitted`; the lookup answers `lookup`, the loop meets
`events`, and the final read answers status `ACTIVE`. The status constants are
taken to be `ACTIVE` and `DEACTIVATED`, and `strconv.Atoi` reads the only id in
use, `7`. -/
def ActivationsEnv.sample (submitted : String) (lookup : Except GoError GetActivationsResponse)
    (events : List PollEvent) : ActivationsEnv :=
  { activate := .ok true
    config_id := (1, none)
    version := (2, none)
    network := ("STAGING", none)
    notification_emails := ["ops@example.com"]
    Id := "7"
    Atoi := fun _ => 7
    StatusActive := "ACTIVE"
    StatusDeactivated := "DEACTIVATED"
    ActivationPollInterval := 1000
    CreateActivations := fun _ => .ok ⟨7, submitted⟩
    RemoveActivations := fun _ => .ok ⟨7, submitted⟩
    lookup := fun _ => lookup
    events := events
    read := fun id => .ok ⟨id, "ACTIVE"⟩ }

end Appsec

namespace fmt

/-- The function `tooLarge` of Go's `fmt`: the bound on widths, precisions and argument
indexes. -/
def tooLarge (x : Int) : Bool := x > 1000000 || x < -1000000

/-- The loop of `parsenum`: reads decimal digits; the result is the number, whether
a digit was read, and the text left. An over-long number gives up with nothing
left, as `parsenum` returns its `end`. -/
def parsenumFrom : Int → Bool → List Char → Int × Bool × List Char
  | num, isnum, [] => (num, isnum, [])
  | num, isnum, c :: cs =>
    if '0' ≤ c ∧ c ≤ '9' then
      if tooLarge num then (0, false, [])
      else parsenumFrom (num * 10 + ((c.toNat - '0'.toNat : Nat) : Int)) true cs
    else (num, isnum, c :: cs)

/-- The function `parsenum` on the text from `start` to `end`. -/
def parsenum (s : List Char) : Int × Bool × List Char := parsenumFrom 0 false s

/-- The function `parseArgNumber` on a text that starts with `[`: the index, the
number of characters to skip, and whether the index is well formed. -/
def parseArgNumber (format : List Char) : Int × Nat × Bool :=
  if format.length < 3 then (0, 1, false)
  else
    let inside := (format.drop 1).takeWhile (fun c => c ≠ ']')
    if inside.length + 1 < format.length then
      let r := parsenum inside
      if !r.2.1 || r.2.2 ≠ [] then (0, inside.length + 2, false)
      else (r.1 - 1, inside.length + 2, true)
    else (0, 1, false)

/-- The method `argNumber` when the call has no operands: no index is in range, so
a bracket always clears `goodArgNum`. Returns the text left, `found`, and
`goodArgNum`. -/
def argNumber (format : List Char) (goodArgNum : Bool) : List Char × Bool × Bool :=
  match format with
  | '[' :: _ =>
    let r := parseArgNumber format
    (format.drop r.2.1, r.2.2, false)
  | _ => (format, false, goodArgNum)

/-- The flag loop of `doPrintf`. Without operands its fast path for simple verbs is
never taken. -/
def skipFlags : List Char → List Char
  | [] => []
  | c :: cs =>
    if c = '#' ∨ c = '0' ∨ c = '+' ∨ c = '-' ∨ c = ' ' then skipFlags cs else c :: cs

/-- The width step of `doPrintf` without operands: the text written, the text
left, `afterIndex` and `goodArgNum`. -/
def widthStep (s : List Char) (afterIndex goodArgNum : Bool) :
    List Char × List Char × Bool × Bool :=
  match s with
  | '*' :: rest => ("%!(BADWIDTH)".data, rest, false, goodArgNum)
  | _ =>
    let r := parsenum s
    ([], r.2.2, afterIndex, if afterIndex && r.2.1 then false else goodArgNum)

/-- The precision step of `doPrintf` without operands. The test is
`i+1 < end && format[i] == '.'`: a dot starts a precision only when a character
follows it, and a dot that ends the format is left to be read as the verb. -/
def precisionStep (s : List Char) (afterIndex goodArgNum : Bool) :
    List Char × List Char × Bool × Bool :=
  match s with
  | '.' :: c :: more =>
    let a := argNumber (c :: more) (if afterIndex then false else goodArgNum)
    match a.1 with
    | '*' :: rest2 => ("%!(BADPREC)".data, rest2, false, a.2.2)
    | _ => ([], (parsenum a.1).2.2, a.2.1, a.2.2)
  | _ => ([], s, afterIndex, goodArgNum)

/-- One verb of `doPrintf` without operands, on the text after its `%`: the text
written and the format left. -/
def doVerb (afterPercent : List Char) : List Char × List Char :=
  let a := argNumber (skipFlags afterPercent) true
  let w := widthStep a.1 a.2.1 a.2.2
  let p := precisionStep w.2.1 w.2.2.1 w.2.2.2
  let b := if !p.2.2.1 then argNumber p.2.1 p.2.2.2 else (p.2.1, p.2.2.1, p.2.2.2)
  match b.1 with
  | [] => (w.1 ++ p.1 ++ "%!(NOVERB)".data, [])
  | verb :: rest =>
    if verb = '%' then (w.1 ++ p.1 ++ ['%'], rest)
    else if !b.2.2 then (w.1 ++ p.1 ++ "%!".data ++ [verb] ++ "(BADINDEX)".data, rest)
    else (w.1 ++ p.1 ++ "%!".data ++ [verb] ++ "(MISSING)".data, rest)

/-- The method `doPrintf` for a call without operands. Each pass copies the text up
to the next `%` and handles one verb; `fuel` bounds the number of passes. -/
def doPrintf : Nat → List Char → List Char
  | 0, _ => []
  | fuel + 1, format =>
    match format.dropWhile (fun c => c ≠ '%') with
    | [] => format.takeWhile (fun c => c ≠ '%')
    | _ :: afterPercent =>
      format.takeWhile (fun c => c ≠ '%') ++ (doVerb afterPercent).1
        ++ doPrintf fuel (doVerb afterPercent).2

/-- The text of the error built by `fmt.Errorf(format)`, a call without operands:
every pass of `doPrintf` uses up at least the `%`, so `length + 1` passes are
enough. -/
def Errorf (format : String) : String :=
  ⟨doPrintf (format.data.length + 1) format.data⟩

end fmt

namespace Gtm

/-- The type `gtm.DatacenterBase`. -/
structure DatacenterBase where
  DatacenterId : Int
  Nickname : String
deriving DecidableEq, Repr

/-- The fields of `gtm.AsMap` used by the provider; `DefaultDatacenter` is a
pointer. -/
structure AsMap where
  Name : String
  DefaultDatacenter : Option DatacenterBase
  Assignments : List AsAssignment
deriving DecidableEq, Repr

/-- The fields of `gtm.ResponseStatus` read by the provider. -/
structure ResponseStatus where
  PropagationStatus : String
  Message : String
deriving DecidableEq, Repr

/-- The answer `gtm.AsMapResponse` of `Create`. -/
structure AsMapResponse where
  Resource : AsMap
  Status : ResponseStatus
deriving DecidableEq, Repr

/-- One element of the `default_datacenter` list of the resource data. -/
structure DefaultDatacenterState where
  datacenter_id : Int
  nickname : String
deriving DecidableEq, Repr

/-- The attributes of the resource data read by the AS map resource, and
`d.Id()`. -/
structure ResourceData where
  domain : String
  wait_on_complete : Bool
  name : String
  default_datacenter : List DefaultDatacenterState
  assignment : List AssignmentState
  Id : String
deriving DecidableEq, Repr

/-- The collaborators of the AS map resource: the calls of the `gtm` client library
(errors are given by their text; for `GetDatacenter` with whether the datacenter
pointer is non-nil and whether the error is a `gtm.CommonError`), the constant
`gtm.MapDefaultDC`, and the helpers `waitForCompletion` and
`parseResourceStringId` of the package, which are outside the embedded file.
`GetAsMapRead` answers the `GetAsMap` issued by the read that ends create and
update. -/
structure GtmApi where
  GetDatacenter : Int → String → Bool × Option (Bool × String)
  MapDefaultDC : Int
  CreateMapsDefaultDatacenter : String → Option String
  Create : AsMap → String → Except String AsMapResponse
  Update : AsMap → String → Except String ResponseStatus
  Delete : AsMap → String → Except String ResponseStatus
  GetAsMap : String → String → Except String AsMap
  GetAsMapRead : String → String → Except String AsMap
  waitForCompletion : String → Bool × Option String
  parseResourceStringId : String → Except String (String × String)
  range : MapRange
  lists : ListHelpers

/-- How an operation of the resource ends: it returns an error (`none` for `nil`,
otherwise the text of the error), or it stops with a nil pointer
dereference. -/
inductive OpOutcome where
  | returned (err : Option String)
  | panicked
deriving DecidableEq, Repr

/-- A run of an operation: how it ended, the domains `waitForCompletion` was called
with, the last value given to `d.SetId`, and the `assignment` list written by
the read. -/
structure OpRun where
  outcome : OpOutcome
  waited : List String := []
  id : Option String := none
  assignment : Option (List AssignmentState) := none
deriving DecidableEq, Repr

/-- The function `validateDefaultDC`: the returned error text, `none` for `nil`. -/
def validateDefaultDC (api : GtmApi) (ddcField : List DefaultDatacenterState)
    (domain : String) : Option String :=
  match ddcField with
  | [] => some "default Datacenter invalid"
  | ddc :: _ =>
    if ddc.datacenter_id = 0 then some "default Datacenter ID invalid"
    else
      let r := api.GetDatacenter ddc.datacenter_id domain
      if r.1 then none
      else
        let unexpected : Option String :=
          match r.2 with
          | some (false, text) =>
            some ("[ERROR] MapCreate Unexpected error verifying Default Datacenter exists: "
              ++ text)
          | _ => none
        match unexpected with
        | some err => some err
        | none =>
          if ddc.datacenter_id ≠ api.MapDefaultDC then
            some (fmt.Errorf
              ("Default Datacenter " ++ toString ddc.datacenter_id ++ " does not exist"))
          else
            match api.CreateMapsDefaultDatacenter domain with
            | some text =>
              some ("[ERROR] MapCreate failed on Default Datacenter check: " ++ text)
            | none => none

/-- The function `populateAsAssignmentsObject`. -/
def populateAsAssignmentsObject (d : ResourceData) (as : AsMap) : AsMap :=
  { as with
    Assignments := d.assignment.map (fun a =>
      { DatacenterId := a.datacenter_id, Nickname := a.nickname, AsNumbers := a.as_numbers }) }

/-- The function `populateAsDefaultDCObject`. -/
def populateAsDefaultDCObject (d : ResourceData) (as : AsMap) : AsMap :=
  match d.default_datacenter with
  | [] => as
  | ddc :: _ =>
    if ddc.datacenter_id ≠ 0 then
      { as with DefaultDatacenter := some ⟨ddc.datacenter_id, ddc.nickname⟩ }
    else { as with DefaultDatacenter := some ⟨0, ""⟩ }

/-- The function `populateASmapObject`; `d.GetOk("name")` is not ok for the empty
string. -/
def populateASmapObject (d : ResourceData) (as : AsMap) : AsMap :=
  let named := if d.name ≠ "" then { as with Name := d.name } else as
  populateAsDefaultDCObject d (populateAsAssignmentsObject d named)

/-- The function `populateNewASmapObject`. -/
def populateNewASmapObject (d : ResourceData) : AsMap :=
  populateASmapObject d { Name := d.name, DefaultDatacenter := some ⟨0, ""⟩, Assignments := [] }

/-- The function `resourceGTMv1ASmapRead`, run with `id` as `d.Id()` after the
waits `waited`. `populateTerraformAsDefaultDCState` dereferences
`as.DefaultDatacenter`. -/
def resourceGTMv1ASmapRead (api : GtmApi) (d : ResourceData) (waited : List String)
    (id : String) : OpRun :=
  match api.parseResourceStringId id with
  | .error _ =>
    { outcome := .returned (some "invalid asMap asMap Id"), waited := waited, id := some id }
  | .ok (domain, asMap) =>
    match api.GetAsMapRead asMap domain with
    | .error text => { outcome := .returned (some text), waited := waited, id := some id }
    | .ok as =>
      let written := populateTerraformAsAssignmentsState api.range api.lists d.assignment
        as.Assignments
      match as.DefaultDatacenter with
      | none =>
        { outcome := .panicked, waited := waited, id := some id, assignment := some written }
      | some _ =>
        { outcome := .returned none, waited := waited, id := some id
          assignment := some written }

/-- The function `resourceGTMv1ASmapCreate`. -/
def resourceGTMv1ASmapCreate (api : GtmApi) (d : ResourceData) : OpRun :=
  match validateDefaultDC api d.default_datacenter d.domain with
  | some err => { outcome := .returned (some err) }
  | none =>
    match api.Create (populateNewASmapObject d) d.domain with
    | .error text => { outcome := .returned (some text) }
    | .ok cStatus =>
      if cStatus.Status.PropagationStatus = "DENIED" then
        { outcome := .returned (some (fmt.Errorf cStatus.Status.Message)) }
      else
        let asMapId := d.domain ++ ":" ++ cStatus.Resource.Name
        if d.wait_on_complete then
          match api.waitForCompletion d.domain with
          | (false, some text) => { outcome := .returned (some text), waited := [d.domain] }
          | _ => resourceGTMv1ASmapRead api d [d.domain] asMapId
        else resourceGTMv1ASmapRead api d [] asMapId

/-- The function `resourceGTMv1ASmapUpdate`. -/
def resourceGTMv1ASmapUpdate (api : GtmApi) (d : ResourceData) : OpRun :=
  match api.parseResourceStringId d.Id with
  | .error _ => { outcome := .returned (some "invalid asMap Id") }
  | .ok (domain, asMap) =>
    match api.GetAsMap asMap domain with
    | .error text => { outcome := .returned (some text) }
    | .ok existAs =>
      match api.Update (populateASmapObject d existAs) domain with
      | .error text => { outcome := .returned (some text) }
      | .ok uStat =>
        if uStat.PropagationStatus = "DENIED" then
          { outcome := .returned (some (fmt.Errorf uStat.Message)) }
        else if d.wait_on_complete then
          match api.waitForCompletion domain with
          | (false, some text) => { outcome := .returned (some text), waited := [domain] }
          | _ => resourceGTMv1ASmapRead api d [domain] d.Id
        else resourceGTMv1ASmapRead api d [] d.Id

/-- The function `resourceGTMv1ASmapDelete`. -/
def resourceGTMv1ASmapDelete (api : GtmApi) (d : ResourceData) : OpRun :=
  match api.parseResourceStringId d.Id with
  | .error _ => { outcome := .returned (some "invalid asMap Id") }
  | .ok (domain, asMap) =>
    match api.GetAsMap asMap domain with
    | .error text => { outcome := .returned (some text) }
    | .ok existAs =>
      match api.Delete existAs domain with
      | .error text => { outcome := .returned (some text) }
      | .ok uStat =>
        if uStat.PropagationStatus = "DENIED" then
          { outcome := .returned (some (fmt.Errorf uStat.Message)) }
        else if d.wait_on_complete then
          match api.waitForCompletion domain with
          | (false, some text) => { outcome := .returned (some text), waited := [domain] }
          | _ => { outcome := .returned none, waited := [domain], id := some "" }
        else { outcome := .returned none, id := some "" }

/-- A sample resource: the AS map `map1` of `example.akadns.net` with default
datacenter 5400 and one assignment. -/
def ResourceData.sample (wait : Bool) : ResourceData :=
  { domain := "example.akadns.net"
    wait_on_complete := wait
    name := "map1"
    default_datacenter := [⟨5400, "default"⟩]
    assignment := [⟨3131, "dc1", [100]⟩]
    Id := "example.akadns.net:map1" }

/-- A sample client: the default datacenter exists, every submission is answered
with `status`, the AS map is returned as declared, and `waitForCompletion`
answers `wait`. -/
def GtmApi.sample (status : ResponseStatus) (wait : Bool × Option String) : GtmApi :=
  { GetDatacenter := fun _ _ => (true, none)
    MapDefaultDC := 5400
    CreateMapsDefaultDatacenter := fun _ => none
    Create := fun as _ => .ok ⟨as, status⟩
    Update := fun _ _ => .ok status
    Delete := fun _ _ => .ok status
    GetAsMap := fun name _ => .ok ⟨name, some ⟨5400, "default"⟩, [⟨3131, "dc1", [100]⟩]⟩
    GetAsMapRead := fun name _ => .ok ⟨name, some ⟨5400, "default"⟩, [⟨3131, "dc1", [100]⟩]⟩
    waitForCompletion := fun _ => wait
    parseResourceStringId := fun _ => .ok ("example.akadns.net", "map1")
    range := MapRange.insertion
    lists := ListHelpers.remote }

end Gtm

namespace Property

/-- Everything `resourceSecureEdgeHostNameRead` obtains from outside: the results of
`getGroup`, `getContract`, the PAPI client and `tools.GetStringValue`, the
errors of the three `d.Set` calls, and `findEdgeHostname`, a helper of the
package outside the embedded file, called with the fetched items and the
declared hostname as its `domain` argument. -/
structure ReadEnv where
  getGroup : Except GoError String
  getContract : Except GoError String
  GetEdgeHostnames : String → String → Except GoError (List EdgeHostnameGetItem)
  edge_hostname : Except GoError String
  findEdgeHostname : List EdgeHostnameGetItem → String → Except GoError EdgeHostnameGetItem
  setContract : String → Option GoError
  setGroup : String → Option GoError
  setEdgeHostname : String → Option GoError

/-- How `resourceSecureEdgeHostNameRead` ends: it returns diagnostics (`none` for
`nil`), or it stops with an index out of range. -/
inductive ReadOutcome where
  | returned (diags : Option GoError)
  | indexOutOfRange
deriving DecidableEq, Repr

/-- A run of `resourceSecureEdgeHostNameRead`: how it ended, and the values given to
`d.SetId` and stored under `edge_hostname` (`none` when not reached). -/
structure ReadResult where
  outcome : ReadOutcome
  id : Option String := none
  edge_hostname : Option String := none
deriving DecidableEq, Repr

/-- Lines 286-309: what `resourceSecureEdgeHostNameRead` does once
`defaultEdgeHostname` points at the first fetched item. -/
def readFrom (env : ReadEnv) (groupID contractID : String) (items : List EdgeHostnameGetItem)
    (first : EdgeHostnameGetItem) : ReadResult :=
  match env.edge_hostname with
  | .error err => { outcome := .returned (some err) }
  | .ok edgeHostname =>
    let found : Except GoError EdgeHostnameGetItem :=
      if edgeHostname ≠ "" then env.findEdgeHostname items edgeHostname else .ok first
    match found with
    | .error err => { outcome := .returned (some err) }
    | .ok defaultEdgeHostname =>
      match env.setContract contractID with
      | some err => { outcome := .returned (some (.ErrValueSet err)) }
      | none =>
        match env.setGroup groupID with
        | some err => { outcome := .returned (some (.ErrValueSet err)) }
        | none =>
          match env.setEdgeHostname defaultEdgeHostname.Domain with
          | some err => { outcome := .returned (some (.ErrValueSet err)) }
          | none =>
            { outcome := .returned none
              id := some defaultEdgeHostname.ID
              edge_hostname := some defaultEdgeHostname.Domain }

/-- The function `resourceSecureEdgeHostNameRead`. Line 284 takes the address of
`Items[0]` before anything is known about the length of `Items`. -/
def resourceSecureEdgeHostNameRead (env : ReadEnv) : ReadResult :=
  match env.getGroup with
  | .error err => { outcome := .returned (some err) }
  | .ok groupID =>
    match env.getContract with
    | .error err => { outcome := .returned (some err) }
    | .ok contractID =>
      match env.GetEdgeHostnames contractID groupID with
      | .error err => { outcome := .returned (some err) }
      | .ok items =>
        match items with
        | [] => { outcome := .indexOutOfRange }
        | first :: _ => readFrom env groupID contractID items first

/-- A sample environment for the read: every collaborator succeeds, the collection
holds `items`, and `findEdgeHostname` returns the first item whose `Domain` is
the declared hostname. -/
def ReadEnv.sample (edgeHostname : String) (items : List EdgeHostnameGetItem) : ReadEnv :=
  { getGroup := .ok "grp_1"
    getContract := .ok "ctr_1"
    GetEdgeHostnames := fun _ _ => .ok items
    edge_hostname := .ok edgeHostname
    findEdgeHostname := fun l domain =>
      match l.find? (fun x => x.Domain == domain) with
      | some x => .ok x
      | none => .error (.other "edge hostname not found")
    setContract := fun _ => none
    setGroup := fun _ => none
    setEdgeHostname := fun _ => none }

end Property

/-! ## Lemmas on the map model -/

namespace Gtm

theorem mapGet_nil (k : Int) : mapGet [] k = none := rfl

theorem mapGet_cons (p : Int × AsAssignment) (m : Inventory) (k : Int) :
    mapGet (p :: m) k = if p.1 = k then some p.2 else mapGet m k := by
  by_cases hp : p.1 = k <;> simp [mapGet, List.find?_cons, hp]

theorem mapDelete_nil (k : Int) : mapDelete [] k = [] := rfl

theorem mapDelete_cons (p : Int × AsAssignment) (m : Inventory) (k : Int) :
    mapDelete (p :: m) k = if p.1 = k then mapDelete m k else p :: mapDelete m k := by
  by_cases hp : p.1 = k <;> simp [mapDelete, List.filter_cons, hp]

theorem mem_mapDelete {m : Inventory} {k : Int} {p : Int × AsAssignment} :
    p ∈ mapDelete m k ↔ p ∈ m ∧ p.1 ≠ k := by
  simp [mapDelete, List.mem_filter]

theorem mapGet_eq_none_iff (m : Inventory) (k : Int) :
    mapGet m k = none ↔ ∀ p ∈ m, p.1 ≠ k := by
  induction m with
  | nil => simp [mapGet_nil]
  | cons p m ih =>
    rw [mapGet_cons]
    by_cases hp : p.1 = k
    · simp [hp]
    · simp [hp, ih]

theorem mapGet_eq_some_mem {m : Inventory} {k : Int} {v : AsAssignment}
    (hv : mapGet m k = some v) : (k, v) ∈ m := by
  induction m with
  | nil => simp [mapGet_nil] at hv
  | cons p m ih =>
    rw [mapGet_cons] at hv
    by_cases hp : p.1 = k
    · rw [if_pos hp] at hv
      have hpe : p = (k, v) := Prod.ext hp (Option.some.inj hv)
      simp [hpe]
    · rw [if_neg hp] at hv
      exact List.mem_cons_of_mem _ (ih hv)

theorem mapDelete_of_get_none {m : Inventory} {k : Int} (hk : mapGet m k = none) :
    mapDelete m k = m := by
  rw [mapGet_eq_none_iff] at hk
  simp only [mapDelete]
  rw [List.filter_eq_self]
  intro p hp
  simpa using hk p hp

theorem mapGet_mapDelete_same (m : Inventory) (k : Int) : mapGet (mapDelete m k) k = none := by
  rw [mapGet_eq_none_iff]
  intro p hp
  exact (mem_mapDelete.1 hp).2

theorem mapGet_mapDelete_other (m : Inventory) {k k2 : Int} (hk : k ≠ k2) :
    mapGet (mapDelete m k) k2 = mapGet m k2 := by
  induction m with
  | nil => rfl
  | cons p m ih =>
    rw [mapDelete_cons, mapGet_cons]
    by_cases hp : p.1 = k
    · have hp2 : ¬ p.1 = k2 := fun h2 => hk (hp.symm.trans h2)
      rw [if_pos hp, if_neg hp2, ih]
    · rw [if_neg hp, mapGet_cons, ih]

theorem mapGet_append_single (m : Inventory) (k k2 : Int) (v : AsAssignment) :
    mapGet (m ++ [(k, v)]) k2 = (mapGet m k2).or (if k = k2 then some v else none) := by
  induction m with
  | nil => by_cases hk : k = k2 <;> simp [mapGet_cons, mapGet_nil, hk]
  | cons p m ih =>
    rw [List.cons_append, mapGet_cons, mapGet_cons, ih]
    by_cases hp : p.1 = k2
    · simp [hp]
    · simp [hp]

theorem mapGet_mapSet (m : Inventory) (k k2 : Int) (v : AsAssignment) :
    mapGet (mapSet m k v) k2 = if k = k2 then some v else mapGet m k2 := by
  rw [mapSet, mapGet_append_single]
  by_cases hk : k = k2
  · subst hk
    simp [mapGet_mapDelete_same]
  · simp [hk, mapGet_mapDelete_other m hk]


/-! ## Lemmas on `buildInventory` -/

theorem buildInventory_snoc (l : List AsAssignment) (o : AsAssignment) :
    buildInventory (l ++ [o]) = mapSet (buildInventory l) o.DatacenterId o := by
  simp [buildInventory, List.foldl_append]

theorem mapGet_buildInventory (l : List AsAssignment) (k : Int) :
    mapGet (buildInventory l) k = l.reverse.find? (fun o => o.DatacenterId == k) := by
  induction l using List.reverseRecOn with
  | nil => rfl
  | append_singleton l o ih =>
    rw [buildInventory_snoc, mapGet_mapSet, List.reverse_append, List.reverse_singleton,
      List.singleton_append, List.find?_cons, ih]
    by_cases ho : o.DatacenterId = k
    · have hb : (o.DatacenterId == k) = true := by simpa using ho
      rw [if_pos ho, hb]
    · have hb : (o.DatacenterId == k) = false := by simpa using ho
      rw [if_neg ho, hb]

theorem mapDelete_map_binding (l : List AsAssignment) (k : Int) :
    mapDelete (l.map binding) k = (l.filter (fun x => x.DatacenterId != k)).map binding := by
  induction l with
  | nil => rfl
  | cons a l ih =>
    rw [List.map_cons, mapDelete_cons, ih, List.filter_cons]
    by_cases ha : a.DatacenterId = k <;> simp [binding, ha]

theorem lastOccurrences_snoc (l : List AsAssignment) (o : AsAssignment) :
    lastOccurrences (l ++ [o])
      = (lastOccurrences l).filter (fun x => x.DatacenterId != o.DatacenterId) ++ [o] := by
  induction l with
  | nil => simp [lastOccurrences]
  | cons a l ih =>
    rw [List.cons_append, lastOccurrences, lastOccurrences, ih]
    by_cases hany : l.any (fun x => x.DatacenterId == a.DatacenterId) = true
    · simp [hany]
    · by_cases hao : o.DatacenterId = a.DatacenterId
      · simp [hany, hao]
      · have hoa : ¬ a.DatacenterId = o.DatacenterId := fun h => hao h.symm
        simp [hany, hao, hoa, List.filter_cons]

theorem buildInventory_eq (l : List AsAssignment) :
    buildInventory l = (lastOccurrences l).map binding := by
  induction l using List.reverseRecOn with
  | nil => rfl
  | append_singleton l o ih =>
    rw [buildInventory_snoc, ih, mapSet, mapDelete_map_binding, lastOccurrences_snoc]
    simp [binding]

theorem lastOccurrences_sublist (l : List AsAssignment) : (lastOccurrences l).Sublist l := by
  induction l with
  | nil => exact List.Sublist.slnil
  | cons a l ih =>
    rw [lastOccurrences]
    split
    · exact ih.cons a
    · exact ih.cons₂ a

theorem lastOccurrences_nodup (l : List AsAssignment) :
    ((lastOccurrences l).map (fun o => o.DatacenterId)).Nodup := by
  induction l with
  | nil => simp [lastOccurrences]
  | cons a l ih =>
    rw [lastOccurrences]
    split
    · exact ih
    · rename_i hany
      rw [List.map_cons, List.nodup_cons]
      refine ⟨?_, ih⟩
      intro hmem
      rw [List.mem_map] at hmem
      obtain ⟨x, hx, hxa⟩ := hmem
      apply hany
      rw [List.any_eq_true]
      exact ⟨x, (lastOccurrences_sublist l).subset hx, by simpa using hxa⟩

theorem lastOccurrences_of_nodup {l : List AsAssignment}
    (hl : (l.map (fun o => o.DatacenterId)).Nodup) : lastOccurrences l = l := by
  induction l with
  | nil => rfl
  | cons a l ih =>
    rw [List.map_cons, List.nodup_cons] at hl
    rw [lastOccurrences, ih hl.2]
    have hany : ¬ l.any (fun x => x.DatacenterId == a.DatacenterId) = true := by
      rw [List.any_eq_true]
      rintro ⟨x, hx, hxa⟩
      exact hl.1 (List.mem_map.2 ⟨x, hx, by simpa using hxa⟩)
    simp [hany]

theorem buildInventory_length_le (l : List AsAssignment) :
    (buildInventory l).length ≤ l.length := by
  rw [buildInventory_eq, List.length_map]
  exact (lastOccurrences_sublist l).length_le

theorem buildInventory_key {l : List AsAssignment} {p : Int × AsAssignment}
    (hp : p ∈ buildInventory l) : p.2.DatacenterId = p.1 ∧ p.2 ∈ l := by
  rw [buildInventory_eq, List.mem_map] at hp
  obtain ⟨o, ho, rfl⟩ := hp
  exact ⟨rfl, (lastOccurrences_sublist l).subset ho⟩


theorem mapGet_eq_some_iff {m : Inventory} (hm : (m.map Prod.fst).Nodup) (k : Int)
    (v : AsAssignment) : mapGet m k = some v ↔ (k, v) ∈ m := by
  refine ⟨mapGet_eq_some_mem, ?_⟩
  induction m with
  | nil => simp
  | cons p m ih =>
    rw [List.map_cons, List.nodup_cons] at hm
    intro hmem
    rw [mapGet_cons]
    rcases List.mem_cons.1 hmem with hp | hp
    · subst hp
      simp
    · have hne : ¬ p.1 = k := by
        intro hpk
        exact hm.1 (List.mem_map.2 ⟨(k, v), hp, hpk.symm⟩)
      rw [if_neg hne]
      exact ih hm.2 hp

theorem buildInventory_nodup (l : List AsAssignment) :
    ((buildInventory l).map Prod.fst).Nodup := by
  rw [buildInventory_eq, List.map_map]
  exact lastOccurrences_nodup l

theorem mapGet_buildInventory_perm {l l2 : List AsAssignment}
    (hl : (l.map (fun o => o.DatacenterId)).Nodup) (hp : l2.Perm l) (k : Int) :
    mapGet (buildInventory l2) k = mapGet (buildInventory l) k := by
  have hl2 : (l2.map (fun o => o.DatacenterId)).Nodup := ((hp.map _).nodup_iff).2 hl
  apply Option.ext
  intro v
  simp only [Option.mem_def]
  rw [mapGet_eq_some_iff (buildInventory_nodup l2), mapGet_eq_some_iff (buildInventory_nodup l),
    buildInventory_eq, buildInventory_eq, lastOccurrences_of_nodup hl,
    lastOccurrences_of_nodup hl2, List.mem_map, List.mem_map]
  constructor
  · rintro ⟨o, ho, hov⟩
    exact ⟨o, hp.subset ho, hov⟩
  · rintro ⟨o, ho, hov⟩
    exact ⟨o, hp.symm.subset ho, hov⟩

/-! ## Lemmas on the walk over the declared list -/

theorem walkState_cons_none {h : ListHelpers} {inv : Inventory} {a : AssignmentState}
    (rest : List AssignmentState) (hk : mapGet inv a.datacenter_id = none) :
    walkState h inv (a :: rest) = (a :: (walkState h inv rest).1, (walkState h inv rest).2) := by
  simp [walkState, hk]

theorem walkState_cons_some {h : ListHelpers} {inv : Inventory} {a : AssignmentState}
    {o : AsAssignment} (rest : List AssignmentState)
    (hk : mapGet inv a.datacenter_id = some o) :
    walkState h inv (a :: rest)
      = (overwrite h a o :: (walkState h (mapDelete inv a.datacenter_id) rest).1,
          (walkState h (mapDelete inv a.datacenter_id) rest).2) := by
  simp [walkState, hk]

theorem walkState_fst_length (h : ListHelpers) (inv : Inventory) (d : List AssignmentState) :
    (walkState h inv d).1.length = d.length := by
  induction d generalizing inv with
  | nil => rfl
  | cons a rest ih =>
    cases hk : mapGet inv a.datacenter_id with
    | none => rw [walkState_cons_none rest hk]; simp [ih]
    | some o => rw [walkState_cons_some rest hk]; simp [ih]

theorem walkState_snd (h : ListHelpers) (inv : Inventory) (d : List AssignmentState) :
    (walkState h inv d).2
      = inv.filter (fun p => decide (p.1 ∉ d.map (fun a => a.datacenter_id))) := by
  induction d generalizing inv with
  | nil => simp [walkState]
  | cons a rest ih =>
    have hstep : (walkState h inv (a :: rest)).2
        = (walkState h (mapDelete inv a.datacenter_id) rest).2 := by
      cases hk : mapGet inv a.datacenter_id with
      | none => rw [walkState_cons_none rest hk, mapDelete_of_get_none hk]
      | some o => rw [walkState_cons_some rest hk]
    rw [hstep, ih, mapDelete, List.filter_filter]
    apply List.filter_congr
    intro p _
    by_cases hpa : p.1 = a.datacenter_id <;> simp [hpa]

theorem walkState_fst_ids (h : ListHelpers) (inv : Inventory) (d : List AssignmentState)
    (hinv : ∀ p ∈ inv, p.2.DatacenterId = p.1) :
    (walkState h inv d).1.map (fun a => a.datacenter_id) = d.map (fun a => a.datacenter_id) := by
  induction d generalizing inv with
  | nil => rfl
  | cons a rest ih =>
    cases hk : mapGet inv a.datacenter_id with
    | none =>
      rw [walkState_cons_none rest hk]
      simp [ih inv hinv]
    | some o =>
      rw [walkState_cons_some rest hk]
      have ho : o.DatacenterId = a.datacenter_id := hinv _ (mapGet_eq_some_mem hk)
      have hinv2 : ∀ p ∈ mapDelete inv a.datacenter_id, p.2.DatacenterId = p.1 :=
        fun p hp => hinv p (mem_mapDelete.1 hp).1
      simp [ih _ hinv2, overwrite, ho]

theorem walkState_unmatched (h : ListHelpers) (inv : Inventory) (d : List AssignmentState)
    (i : Nat) (a : AssignmentState) (ha : d[i]? = some a)
    (hk : mapGet inv a.datacenter_id = none) : (walkState h inv d).1[i]? = some a := by
  induction d generalizing inv i with
  | nil => simp at ha
  | cons b rest ih =>
    cases i with
    | zero =>
      have hba : b = a := by simpa using ha
      subst hba
      rw [walkState_cons_none rest hk]
      simp
    | succ i =>
      have ha2 : rest[i]? = some a := by simpa using ha
      cases hb : mapGet inv b.datacenter_id with
      | none =>
        rw [walkState_cons_none rest hb]
        simpa using ih inv i ha2 hk
      | some o =>
        rw [walkState_cons_some rest hb]
        have hk2 : mapGet (mapDelete inv b.datacenter_id) a.datacenter_id = none := by
          rw [mapGet_eq_none_iff] at hk ⊢
          exact fun p hp => hk p (mem_mapDelete.1 hp).1
        simpa using ih _ i ha2 hk2

theorem walkState_first_match (h : ListHelpers) (inv : Inventory)
    (pre : List AssignmentState) (a : AssignmentState) (post : List AssignmentState)
    (o : AsAssignment) (hpre : ∀ x ∈ pre, x.datacenter_id ≠ a.datacenter_id)
    (hk : mapGet inv a.datacenter_id = some o) :
    (walkState h inv (pre ++ a :: post)).1[pre.length]? = some (overwrite h a o) := by
  induction pre generalizing inv with
  | nil =>
    rw [List.nil_append, walkState_cons_some post hk]
    simp
  | cons b pre ih =>
    have hba : b.datacenter_id ≠ a.datacenter_id := hpre b (List.mem_cons_self _ _)
    have hpre2 : ∀ x ∈ pre, x.datacenter_id ≠ a.datacenter_id :=
      fun x hx => hpre x (List.mem_cons_of_mem _ hx)
    rw [List.cons_append]
    cases hb : mapGet inv b.datacenter_id with
    | none =>
      rw [walkState_cons_none _ hb]
      simpa using ih inv hpre2 hk
    | some ob =>
      rw [walkState_cons_some _ hb]
      have hk2 : mapGet (mapDelete inv b.datacenter_id) a.datacenter_id = some o := by
        rw [mapGet_mapDelete_other inv hba, hk]
      simpa using ih _ hpre2 hk2

theorem walkState_fst_congr (h : ListHelpers) (inv inv2 : Inventory)
    (d : List AssignmentState) (hget : ∀ k, mapGet inv k = mapGet inv2 k) :
    (walkState h inv d).1 = (walkState h inv2 d).1 := by
  induction d generalizing inv inv2 with
  | nil => rfl
  | cons a rest ih =>
    have hdel : ∀ k, mapGet (mapDelete inv a.datacenter_id) k
        = mapGet (mapDelete inv2 a.datacenter_id) k := by
      intro k
      by_cases hak : a.datacenter_id = k
      · subst hak
        rw [mapGet_mapDelete_same, mapGet_mapDelete_same]
      · rw [mapGet_mapDelete_other inv hak, mapGet_mapDelete_other inv2 hak, hget k]
    cases hk : mapGet inv a.datacenter_id with
    | none =>
      have hk2 : mapGet inv2 a.datacenter_id = none := by rw [← hget, hk]
      rw [walkState_cons_none rest hk, walkState_cons_none rest hk2, ih inv inv2 hget]
    | some o =>
      have hk2 : mapGet inv2 a.datacenter_id = some o := by rw [← hget, hk]
      rw [walkState_cons_some rest hk, walkState_cons_some rest hk2, ih _ _ hdel]

/-! ## Shape of the written list -/

/-- The part of the written list that comes from the walk over the declared
elements. -/
theorem populate_eq (r : MapRange) (h : ListHelpers) (declared : List AssignmentState)
    (assignments : List AsAssignment) :
    populateTerraformAsAssignmentsState r h declared assignments
      = (walkState h (buildInventory assignments) declared).1
        ++ (r.order (walkState h (buildInventory assignments) declared).2).map
            (fun p => newState p.2) := by
  unfold populateTerraformAsAssignmentsState
  simp only
  split
  · rfl
  · rename_i hlen
    have hnil : (walkState h (buildInventory assignments) declared).2 = [] := by
      apply List.eq_nil_of_length_eq_zero
      omega
    have hord : r.order [] = [] := List.Perm.eq_nil (r.perm [])
    rw [hnil, hord]
    simp

theorem leftover_eq (h : ListHelpers) (declared : List AssignmentState)
    (assignments : List AsAssignment) :
    (walkState h (buildInventory assignments) declared).2
      = ((lastOccurrences assignments).filter (fun o =>
          decide (o.DatacenterId ∉ declared.map (fun a => a.datacenter_id)))).map binding := by
  rw [walkState_snd, buildInventory_eq, List.filter_map]
  rfl

theorem tail_perm (r : MapRange) (h : ListHelpers) (declared : List AssignmentState)
    (assignments : List AsAssignment) :
    ((r.order (walkState h (buildInventory assignments) declared).2).map
        (fun p => newState p.2)).Perm
      (((lastOccurrences assignments).filter (fun o =>
          decide (o.DatacenterId ∉ declared.map (fun a => a.datacenter_id)))).map newState) := by
  have hp := (r.perm (walkState h (buildInventory assignments) declared).2).map
    (fun p => newState p.2)
  have hmap : ((walkState h (buildInventory assignments) declared).2).map
      (fun p => newState p.2)
      = ((lastOccurrences assignments).filter (fun o =>
          decide (o.DatacenterId ∉ declared.map (fun a => a.datacenter_id)))).map newState := by
    rw [leftover_eq, List.map_map]
    rfl
  rw [hmap] at hp
  exact hp

theorem newState_injective : Function.Injective newState := by
  intro a b hab
  cases a
  cases b
  simp only [newState, AssignmentState.mk.injEq] at hab
  obtain ⟨h1, h2, h3⟩ := hab
  subst h1 h2 h3
  rfl


theorem populate_take (r : MapRange) (h : ListHelpers) (declared : List AssignmentState)
    (assignments : List AsAssignment) :
    (populateTerraformAsAssignmentsState r h declared assignments).take declared.length
      = (walkState h (buildInventory assignments) declared).1 := by
  rw [populate_eq]
  exact List.take_left' (walkState_fst_length h _ declared)

theorem populate_drop (r : MapRange) (h : ListHelpers) (declared : List AssignmentState)
    (assignments : List AsAssignment) :
    (populateTerraformAsAssignmentsState r h declared assignments).drop declared.length
      = (r.order (walkState h (buildInventory assignments) declared).2).map
          (fun p => newState p.2) := by
  rw [populate_eq]
  exact List.drop_left' (walkState_fst_length h _ declared)

theorem populate_getElem_walk (r : MapRange) (h : ListHelpers)
    (declared : List AssignmentState) (assignments : List AsAssignment) (i : Nat)
    (hi : i < declared.length) :
    (populateTerraformAsAssignmentsState r h declared assignments)[i]?
      = (walkState h (buildInventory assignments) declared).1[i]? := by
  rw [populate_eq]
  apply List.getElem?_append_left
  rw [walkState_fst_length]
  exact hi

theorem buildInventory_get_none {assignments : List AsAssignment} {k : Int}
    (hk : k ∉ assignments.map (fun o => o.DatacenterId)) :
    mapGet (buildInventory assignments) k = none := by
  rw [mapGet_eq_none_iff]
  intro p hp hpk
  obtain ⟨hkey, hmem⟩ := buildInventory_key hp
  exact hk (List.mem_map.2 ⟨p.2, hmem, hkey.trans hpk⟩)

theorem walkState_empty (h : ListHelpers) (d : List AssignmentState) :
    walkState h [] d = (d, []) := by
  induction d with
  | nil => rfl
  | cons a rest ih => rw [walkState_cons_none rest (mapGet_nil _), ih]

end Gtm

/-! ## The assignment list written back by `populateTerraformAsAssignmentsState` -/

/-- C1, as stated, fails: with one declared element of datacenter 1 and an empty
returned list, the written list still holds the declared element and is not
empty. -/
theorem populate_unmatched_not_dropped :
    (⟨1, "a", [10]⟩ : Gtm.AssignmentState) ∈
        Gtm.populateTerraformAsAssignmentsState Gtm.MapRange.insertion Gtm.ListHelpers.remote
          [⟨1, "a", [10]⟩] []
      ∧ Gtm.populateTerraformAsAssignmentsState Gtm.MapRange.insertion Gtm.ListHelpers.remote
          [⟨1, "a", [10]⟩] [] ≠ [] := by
  decide

/-- C1, amended: a declared element whose `datacenter_id` has no counterpart among
the returned assignments stays, unchanged, at its own position of the written
list; with an empty returned list the written list is the declared list. -/
theorem populate_unmatched_kept (r : Gtm.MapRange) (h : Gtm.ListHelpers)
    (declared : List Gtm.AssignmentState) (observed : List Gtm.AsAssignment) :
    (∀ (i : Nat) (a : Gtm.AssignmentState), declared[i]? = some a →
        a.datacenter_id ∉ observed.map (fun o => o.DatacenterId) →
        (Gtm.populateTerraformAsAssignmentsState r h declared observed)[i]? = some a)
      ∧ Gtm.populateTerraformAsAssignmentsState r h declared [] = declared := by
  constructor
  · intro i a ha hk
    have hi : i < declared.length := (List.getElem?_eq_some_iff.1 ha).1
    rw [Gtm.populate_getElem_walk r h declared observed i hi]
    exact Gtm.walkState_unmatched h _ declared i a ha (Gtm.buildInventory_get_none hk)
  · rw [Gtm.populate_eq]
    have hb : Gtm.buildInventory [] = [] := rfl
    rw [hb, Gtm.walkState_empty]
    have hord : r.order [] = [] := List.Perm.eq_nil (r.perm [])
    simp [hord]

/-- Witness for C1 (amended): the declared element of datacenter 2 is unknown to the
returned list and stays at position 1. -/
theorem populate_unmatched_kept_witness :
    (Gtm.populateTerraformAsAssignmentsState Gtm.MapRange.insertion Gtm.ListHelpers.remote
        [⟨1, "a", []⟩, ⟨2, "b", [7]⟩] [⟨1, "X", [5]⟩])[1]? = some ⟨2, "b", [7]⟩ :=
  (populate_unmatched_kept Gtm.MapRange.insertion Gtm.ListHelpers.remote
      [⟨1, "a", []⟩, ⟨2, "b", [7]⟩] [⟨1, "X", [5]⟩]).1 1 ⟨2, "b", [7]⟩ (by decide) (by decide)

/-- C2: the first `declared.length` positions of the written list stand for the
declared elements one by one (position `i` keeps the `datacenter_id` of declared
element `i`), so the elements with a matching returned `datacenter_id` come in the
order the declared list gave them; and the match is by `datacenter_id`, not by
index: reordering a returned list with distinct ids leaves these positions
untouched. -/
theorem populate_declared_order (r : Gtm.MapRange) (h : Gtm.ListHelpers)
    (declared : List Gtm.AssignmentState) (observed : List Gtm.AsAssignment) :
    (∀ (i : Nat) (a : Gtm.AssignmentState), declared[i]? = some a →
        ∃ e, (Gtm.populateTerraformAsAssignmentsState r h declared observed)[i]? = some e
          ∧ e.datacenter_id = a.datacenter_id)
      ∧ ((((Gtm.populateTerraformAsAssignmentsState r h declared observed).take
              declared.length).filter
            (fun e => decide (e.datacenter_id ∈ observed.map (fun o => o.DatacenterId)))).map
            (fun e => e.datacenter_id)
          = (declared.filter
              (fun a => decide (a.datacenter_id ∈ observed.map (fun o => o.DatacenterId)))).map
              (fun a => a.datacenter_id))
      ∧ (∀ observed2 : List Gtm.AsAssignment,
          (observed.map (fun o => o.DatacenterId)).Nodup → observed2.Perm observed →
          (Gtm.populateTerraformAsAssignmentsState r h declared observed2).take declared.length
            = (Gtm.populateTerraformAsAssignmentsState r h declared observed).take
                declared.length) := by
  have hids := Gtm.walkState_fst_ids h (Gtm.buildInventory observed) declared
    (fun p hp => (Gtm.buildInventory_key hp).1)
  refine ⟨?_, ?_, ?_⟩
  · intro i a ha
    have hi : i < declared.length := (List.getElem?_eq_some_iff.1 ha).1
    rw [Gtm.populate_getElem_walk r h declared observed i hi]
    have hmap := congrArg (fun l => l[i]?) hids
    simp only [List.getElem?_map, ha, Option.map_some'] at hmap
    cases hw : (Gtm.walkState h (Gtm.buildInventory observed) declared).1[i]? with
    | none => rw [hw] at hmap; simp at hmap
    | some e =>
      rw [hw] at hmap
      exact ⟨e, rfl, by simpa using hmap⟩
  · rw [Gtm.populate_take]
    have hf : ∀ l : List Gtm.AssignmentState,
        (l.filter (fun e => decide (e.datacenter_id ∈ observed.map (fun o => o.DatacenterId)))).map
            (fun e => e.datacenter_id)
          = (l.map (fun e => e.datacenter_id)).filter
              (fun k => decide (k ∈ observed.map (fun o => o.DatacenterId))) := by
      intro l
      rw [List.filter_map]
      rfl
    rw [hf, hf, hids]
  · intro observed2 hnd hperm
    rw [Gtm.populate_take, Gtm.populate_take]
    exact Gtm.walkState_fst_congr h _ _ declared
      (fun k => Gtm.mapGet_buildInventory_perm hnd hperm k)

/-- Witness for C2: with the returned list given in the opposite order the two
declared positions are the same. -/
theorem populate_declared_order_witness :
    (Gtm.populateTerraformAsAssignmentsState Gtm.MapRange.insertion Gtm.ListHelpers.remote
        [⟨2, "b", []⟩, ⟨1, "a", []⟩] [⟨2, "Y", [4]⟩, ⟨1, "X", [5]⟩]).take 2
      = (Gtm.populateTerraformAsAssignmentsState Gtm.MapRange.insertion Gtm.ListHelpers.remote
          [⟨2, "b", []⟩, ⟨1, "a", []⟩] [⟨1, "X", [5]⟩, ⟨2, "Y", [4]⟩]).take 2 :=
  (populate_declared_order Gtm.MapRange.insertion Gtm.ListHelpers.remote
      [⟨2, "b", []⟩, ⟨1, "a", []⟩] [⟨1, "X", [5]⟩, ⟨2, "Y", [4]⟩]).2.2
    [⟨2, "Y", [4]⟩, ⟨1, "X", [5]⟩] (by decide) (List.Perm.swap _ _ _)

/-- C3, as stated, fails: two declared elements share datacenter 1, which the
returned list knows under the nickname `X`; the second declared element keeps
its own nickname `b`. -/
theorem populate_repeated_declared_stale :
    ((Gtm.populateTerraformAsAssignmentsState Gtm.MapRange.insertion Gtm.ListHelpers.remote
        [⟨1, "a", []⟩, ⟨1, "b", []⟩] [⟨1, "X", []⟩])[1]?).map (fun e => e.nickname)
      = some "b"
    ∧ ((Gtm.populateTerraformAsAssignmentsState Gtm.MapRange.insertion Gtm.ListHelpers.remote
        [⟨1, "a", []⟩, ⟨1, "b", []⟩] [⟨1, "X", []⟩])[1]?).map (fun e => e.nickname)
      ≠ some "X" := by
  decide

/-- C3, amended: the first declared element with a given `datacenter_id`, when that id
is present in the returned list, is replaced at its position by an element that
carries the `DatacenterId` and `Nickname` of a returned object with that id,
whatever the declared element held. -/
theorem populate_matched_overwritten (r : Gtm.MapRange) (h : Gtm.ListHelpers)
    (pre : List Gtm.AssignmentState) (a : Gtm.AssignmentState)
    (post : List Gtm.AssignmentState) (observed : List Gtm.AsAssignment)
    (hfirst : ∀ x ∈ pre, x.datacenter_id ≠ a.datacenter_id)
    (hpresent : a.datacenter_id ∈ observed.map (fun o => o.DatacenterId)) :
    ∃ o ∈ observed, o.DatacenterId = a.datacenter_id ∧
      (Gtm.populateTerraformAsAssignmentsState r h (pre ++ a :: post) observed)[pre.length]?
        = some
            { datacenter_id := o.DatacenterId
              nickname := o.Nickname
              as_numbers := h.reconcileTerraformLists a.as_numbers
                (h.convertInt64ToInterfaceList o.AsNumbers) } := by
  cases hget : Gtm.mapGet (Gtm.buildInventory observed) a.datacenter_id with
  | none =>
    exfalso
    rw [Gtm.mapGet_buildInventory, List.find?_eq_none] at hget
    obtain ⟨o, ho, hoa⟩ := List.mem_map.1 hpresent
    exact hget o (List.mem_reverse.2 ho) (by simpa using hoa)
  | some o =>
    have hmem := Gtm.buildInventory_key (Gtm.mapGet_eq_some_mem hget)
    refine ⟨o, hmem.2, hmem.1, ?_⟩
    rw [Gtm.populate_getElem_walk r h _ observed pre.length (by simp)]
    exact Gtm.walkState_first_match h _ pre a post o hfirst hget

/-- Witness for C3 (amended): the declared nickname `a` is replaced by the returned
nickname `X`. -/
theorem populate_matched_overwritten_witness :
    ∃ o ∈ ([⟨2, "Y", []⟩, ⟨1, "X", [5]⟩] : List Gtm.AsAssignment),
      o.DatacenterId = 1 ∧
      (Gtm.populateTerraformAsAssignmentsState Gtm.MapRange.insertion Gtm.ListHelpers.remote
          ([⟨3, "c", []⟩] ++ ⟨1, "a", [9]⟩ :: [⟨1, "b", []⟩])
          [⟨2, "Y", []⟩, ⟨1, "X", [5]⟩])[([⟨3, "c", []⟩] : List Gtm.AssignmentState).length]?
        = some
            { datacenter_id := o.DatacenterId
              nickname := o.Nickname
              as_numbers := Gtm.ListHelpers.remote.reconcileTerraformLists [9]
                (Gtm.ListHelpers.remote.convertInt64ToInterfaceList o.AsNumbers) } :=
  populate_matched_overwritten Gtm.MapRange.insertion Gtm.ListHelpers.remote
    [⟨3, "c", []⟩] ⟨1, "a", [9]⟩ [⟨1, "b", []⟩] [⟨2, "Y", []⟩, ⟨1, "X", [5]⟩]
    (by decide) (by decide)

/-- C4: for a returned list with pairwise distinct datacenter ids, a returned
assignment whose id matches no declared element occurs exactly once in the
written list, and it does so at a position past the `declared.length` positions
that come from the declared list. -/
theorem populate_unmatched_observed_once (r : Gtm.MapRange) (h : Gtm.ListHelpers)
    (declared : List Gtm.AssignmentState) (observed : List Gtm.AsAssignment)
    (o : Gtm.AsAssignment)
    (hdistinct : (observed.map (fun x => x.DatacenterId)).Nodup)
    (hmem : o ∈ observed)
    (hnew : o.DatacenterId ∉ declared.map (fun a => a.datacenter_id)) :
    (Gtm.populateTerraformAsAssignmentsState r h declared observed).count (Gtm.newState o) = 1
      ∧ ∃ i, declared.length ≤ i ∧
          (Gtm.populateTerraformAsAssignmentsState r h declared observed)[i]?
            = some (Gtm.newState o) := by
  have hids := Gtm.walkState_fst_ids h (Gtm.buildInventory observed) declared
    (fun p hp => (Gtm.buildInventory_key hp).1)
  have hlen := Gtm.walkState_fst_length h (Gtm.buildInventory observed) declared
  have htail := Gtm.tail_perm r h declared observed
  rw [Gtm.lastOccurrences_of_nodup hdistinct] at htail
  have hin : Gtm.newState o ∈ (observed.filter (fun x =>
      decide (x.DatacenterId ∉ declared.map (fun a => a.datacenter_id)))).map Gtm.newState := by
    apply List.mem_map_of_mem
    rw [List.mem_filter]
    exact ⟨hmem, by simpa using hnew⟩
  have hnd : ((observed.filter (fun x =>
      decide (x.DatacenterId ∉ declared.map (fun a => a.datacenter_id)))).map
        Gtm.newState).Nodup :=
    ((List.Nodup.of_map _ hdistinct).filter _).map Gtm.newState_injective
  have hnot : Gtm.newState o ∉ (Gtm.walkState h (Gtm.buildInventory observed) declared).1 := by
    intro hw
    apply hnew
    rw [← hids]
    exact List.mem_map.2 ⟨Gtm.newState o, hw, rfl⟩
  constructor
  · rw [Gtm.populate_eq, List.count_append, List.count_eq_zero_of_not_mem hnot, htail.count_eq,
      List.count_eq_one_of_mem hnd hin]
  · have hin2 := htail.symm.subset hin
    obtain ⟨j, hj⟩ := List.mem_iff_getElem?.1 hin2
    refine ⟨declared.length + j, Nat.le_add_right _ _, ?_⟩
    rw [Gtm.populate_eq, List.getElem?_append_right (by rw [hlen]; exact Nat.le_add_right _ _),
      hlen, Nat.add_sub_cancel_left]
    exact hj

/-- Witness for C4: datacenter 3 is returned but not declared; it is written once,
after the two declared positions. -/
theorem populate_unmatched_observed_once_witness :
    (Gtm.populateTerraformAsAssignmentsState Gtm.MapRange.reversed Gtm.ListHelpers.remote
        [⟨1, "a", []⟩, ⟨2, "b", []⟩] [⟨3, "Z", [8]⟩, ⟨1, "X", []⟩]).count
        (Gtm.newState ⟨3, "Z", [8]⟩) = 1
      ∧ ∃ i, ([⟨1, "a", []⟩, ⟨2, "b", []⟩] : List Gtm.AssignmentState).length ≤ i ∧
          (Gtm.populateTerraformAsAssignmentsState Gtm.MapRange.reversed Gtm.ListHelpers.remote
            [⟨1, "a", []⟩, ⟨2, "b", []⟩] [⟨3, "Z", [8]⟩, ⟨1, "X", []⟩])[i]?
            = some (Gtm.newState ⟨3, "Z", [8]⟩) :=
  populate_unmatched_observed_once Gtm.MapRange.reversed Gtm.ListHelpers.remote
    [⟨1, "a", []⟩, ⟨2, "b", []⟩] [⟨3, "Z", [8]⟩, ⟨1, "X", []⟩] ⟨3, "Z", [8]⟩
    (by decide) (by decide) (by decide)

/-- C5, as stated, fails: the leftover objects are visited by a `range` over a map,
whose order is open. With nothing declared and datacenters 1, 2 returned in that
order, a run that visits the map last-inserted first writes 2 before 1. -/
theorem populate_tail_order_not_kept :
    Gtm.populateTerraformAsAssignmentsState Gtm.MapRange.reversed Gtm.ListHelpers.remote
        [] [⟨1, "X", []⟩, ⟨2, "Y", []⟩]
      = [⟨2, "Y", []⟩, ⟨1, "X", []⟩]
    ∧ Gtm.populateTerraformAsAssignmentsState Gtm.MapRange.reversed Gtm.ListHelpers.remote
        [] [⟨1, "X", []⟩, ⟨2, "Y", []⟩]
      ≠ List.map Gtm.newState [⟨1, "X", []⟩, ⟨2, "Y", []⟩] := by
  decide

/-- C5, amended: what is written past the declared positions is, in some order, the
returned assignments that match no declared element (of several returned
assignments with one id, the last); for a returned list with distinct ids these
are all unmatched returned assignments, and with nothing declared the written
list is a rearrangement of the returned list. -/
theorem populate_tail_perm (r : Gtm.MapRange) (h : Gtm.ListHelpers)
    (declared : List Gtm.AssignmentState) (observed : List Gtm.AsAssignment) :
    ((Gtm.populateTerraformAsAssignmentsState r h declared observed).drop declared.length).Perm
        (((Gtm.lastOccurrences observed).filter (fun o =>
            decide (o.DatacenterId ∉ declared.map (fun a => a.datacenter_id)))).map
          Gtm.newState)
      ∧ ((observed.map (fun o => o.DatacenterId)).Nodup →
          ((Gtm.populateTerraformAsAssignmentsState r h declared observed).drop
              declared.length).Perm
            ((observed.filter (fun o =>
              decide (o.DatacenterId ∉ declared.map (fun a => a.datacenter_id)))).map
              Gtm.newState))
      ∧ ((observed.map (fun o => o.DatacenterId)).Nodup →
          (Gtm.populateTerraformAsAssignmentsState r h [] observed).Perm
            (observed.map Gtm.newState)) := by
  refine ⟨?_, ?_, ?_⟩
  · rw [Gtm.populate_drop]
    exact Gtm.tail_perm r h declared observed
  · intro hnd
    rw [Gtm.populate_drop]
    have ht := Gtm.tail_perm r h declared observed
    rw [Gtm.lastOccurrences_of_nodup hnd] at ht
    exact ht
  · intro hnd
    have ht := Gtm.tail_perm r h [] observed
    rw [Gtm.lastOccurrences_of_nodup hnd] at ht
    rw [Gtm.populate_eq]
    simpa [Gtm.walkState] using ht

/-- Witness for C5 (amended): nothing declared, datacenters 1 and 2 returned. -/
theorem populate_tail_perm_witness :
    (Gtm.populateTerraformAsAssignmentsState Gtm.MapRange.reversed Gtm.ListHelpers.remote
        [] [⟨1, "X", []⟩, ⟨2, "Y", []⟩]).Perm
      (List.map Gtm.newState [⟨1, "X", []⟩, ⟨2, "Y", []⟩]) :=
  (populate_tail_perm Gtm.MapRange.reversed Gtm.ListHelpers.remote
      [] [⟨1, "X", []⟩, ⟨2, "Y", []⟩]).2.2 (by decide)

/-- C7: the written list is never longer than the declared list and the returned
list together. -/
theorem populate_length_le (r : Gtm.MapRange) (h : Gtm.ListHelpers)
    (declared : List Gtm.AssignmentState) (observed : List Gtm.AsAssignment) :
    (Gtm.populateTerraformAsAssignmentsState r h declared observed).length
      ≤ declared.length + observed.length := by
  rw [Gtm.populate_eq, List.length_append, Gtm.walkState_fst_length, List.length_map,
    (r.perm _).length_eq, Gtm.walkState_snd]
  have h1 := List.length_filter_le
    (fun p : Int × Gtm.AsAssignment =>
      decide (p.1 ∉ declared.map (fun a => a.datacenter_id))) (Gtm.buildInventory observed)
  have h2 := Gtm.buildInventory_length_le observed
  omega

/-- C8, as stated, fails: datacenter 1 is returned twice, as `old` and then as `new`,
and declared twice, as `a` and then as `b`. The inventory holds `new` and the
first declared element receives it, but the second declared element finds the
key deleted and keeps its nickname `b`. -/
theorem inventory_repeated_declared_keeps_nickname :
    Gtm.mapGet (Gtm.buildInventory [⟨1, "old", []⟩, ⟨1, "new", []⟩]) 1 = some ⟨1, "new", []⟩
    ∧ ((Gtm.populateTerraformAsAssignmentsState Gtm.MapRange.insertion Gtm.ListHelpers.remote
        [⟨1, "a", []⟩, ⟨1, "b", []⟩] [⟨1, "old", []⟩, ⟨1, "new", []⟩])[0]?).map
          (fun e => e.nickname)
      = some "new"
    ∧ ((Gtm.populateTerraformAsAssignmentsState Gtm.MapRange.insertion Gtm.ListHelpers.remote
        [⟨1, "a", []⟩, ⟨1, "b", []⟩] [⟨1, "old", []⟩, ⟨1, "new", []⟩])[1]?).map
          (fun e => e.nickname)
      = some "b"
    ∧ ((Gtm.populateTerraformAsAssignmentsState Gtm.MapRange.insertion Gtm.ListHelpers.remote
        [⟨1, "a", []⟩, ⟨1, "b", []⟩] [⟨1, "old", []⟩, ⟨1, "new", []⟩])[1]?).map
          (fun e => e.nickname)
      ≠ some "new" := by
  decide

/-- C8, amended: when two returned assignments share a datacenter id, the inventory
holds the one that comes last in the returned list, and the first declared
element with that id receives the later object's nickname. -/
theorem inventory_last_write_wins (r : Gtm.MapRange) (h : Gtm.ListHelpers)
    (pre : List Gtm.AsAssignment) (o1 : Gtm.AsAssignment) (mid : List Gtm.AsAssignment)
    (o2 : Gtm.AsAssignment) (post : List Gtm.AsAssignment)
    (dpre : List Gtm.AssignmentState) (a : Gtm.AssignmentState)
    (dpost : List Gtm.AssignmentState)
    (hshare : o1.DatacenterId = o2.DatacenterId)
    (hlast : ∀ x ∈ post, x.DatacenterId ≠ o2.DatacenterId)
    (hkey : a.datacenter_id = o2.DatacenterId)
    (hfirst : ∀ x ∈ dpre, x.datacenter_id ≠ a.datacenter_id) :
    Gtm.mapGet (Gtm.buildInventory (pre ++ o1 :: (mid ++ o2 :: post))) o1.DatacenterId = some o2
      ∧ ((Gtm.populateTerraformAsAssignmentsState r h (dpre ++ a :: dpost)
            (pre ++ o1 :: (mid ++ o2 :: post)))[dpre.length]?).map (fun e => e.nickname)
          = some o2.Nickname := by
  have hget : Gtm.mapGet (Gtm.buildInventory (pre ++ o1 :: (mid ++ o2 :: post)))
      o2.DatacenterId = some o2 := by
    rw [Gtm.mapGet_buildInventory]
    have hrev : (pre ++ o1 :: (mid ++ o2 :: post)).reverse
        = post.reverse ++ o2 :: (mid.reverse ++ o1 :: pre.reverse) := by
      simp
    have hnone : post.reverse.find? (fun o => o.DatacenterId == o2.DatacenterId) = none := by
      rw [List.find?_eq_none]
      intro x hx
      simpa using hlast x (List.mem_reverse.1 hx)
    rw [hrev, List.find?_append, hnone]
    simp
  refine ⟨by rw [hshare]; exact hget, ?_⟩
  rw [← hkey] at hget
  rw [Gtm.populate_getElem_walk r h _ _ dpre.length (by simp),
    Gtm.walkState_first_match h _ dpre a dpost o2 hfirst hget]
  rfl

/-- Witness for C8 (amended): datacenter 1 is returned twice, as `old` and then as
`new`, and declared twice after an element of datacenter 3; the first declared
element of datacenter 1, at position 1, ends with the nickname `new`. -/
theorem inventory_last_write_wins_witness :
    Gtm.mapGet (Gtm.buildInventory ([] ++ ⟨1, "old", []⟩ :: ([⟨2, "Y", []⟩] ++ ⟨1, "new", []⟩ :: [])))
        (1 : Int) = some ⟨1, "new", []⟩
      ∧ ((Gtm.populateTerraformAsAssignmentsState Gtm.MapRange.insertion Gtm.ListHelpers.remote
            ([⟨3, "c", []⟩] ++ ⟨1, "a", []⟩ :: [⟨1, "b", []⟩])
            ([] ++ ⟨1, "old", []⟩ :: ([⟨2, "Y", []⟩] ++ ⟨1, "new", []⟩ :: [])))[
              ([⟨3, "c", []⟩] : List Gtm.AssignmentState).length]?).map
            (fun e => e.nickname)
          = some "new" :=
  inventory_last_write_wins Gtm.MapRange.insertion Gtm.ListHelpers.remote
    [] ⟨1, "old", []⟩ [⟨2, "Y", []⟩] ⟨1, "new", []⟩ [] [⟨3, "c", []⟩] ⟨1, "a", []⟩
    [⟨1, "b", []⟩] rfl (by decide) rfl (by decide)

/-! ## Lookup of an existing edge hostname in `resourceSecureEdgeHostNameCreate` -/

namespace Property

theorem lookupExisting_eq_some {n : EdgeHostnameCreate} {items : List EdgeHostnameGetItem}
    {id : String} (hid : lookupExisting n items = some id) :
    ∃ x ∈ items, x.DomainPrefix = n.DomainPrefix ∧ x.DomainSuffix = n.DomainSuffix
      ∧ x.ID = id := by
  induction items with
  | nil => simp [lookupExisting] at hid
  | cons y rest ih =>
    rw [lookupExisting] at hid
    split at hid
    · rename_i hy
      exact ⟨y, List.mem_cons_self _ _, hy.1, hy.2, Option.some.inj hid⟩
    · obtain ⟨x, hx, hrest⟩ := ih hid
      exact ⟨x, List.mem_cons_of_mem _ hx, hrest⟩

theorem lookupExisting_eq_none_iff (n : EdgeHostnameCreate) (items : List EdgeHostnameGetItem) :
    lookupExisting n items = none
      ↔ ∀ x ∈ items, ¬ (x.DomainPrefix = n.DomainPrefix ∧ x.DomainSuffix = n.DomainSuffix) := by
  induction items with
  | nil => simp [lookupExisting]
  | cons y rest ih =>
    rw [lookupExisting]
    by_cases hy : y.DomainPrefix = n.DomainPrefix ∧ y.DomainSuffix = n.DomainSuffix
    · rw [if_pos hy]
      constructor
      · intro hsome
        cases hsome
      · intro hall
        exact absurd hy (hall y (List.mem_cons_self _ _))
    · rw [if_neg hy, ih]
      constructor
      · intro hrest x hx
        rcases List.mem_cons.1 hx with hxy | hx2
        · rw [hxy]
          exact hy
        · exact hrest x hx2
      · exact fun hall x hx => hall x (List.mem_cons_of_mem _ hx)

theorem lookupExisting_first (n : EdgeHostnameCreate) (pre : List EdgeHostnameGetItem)
    (x : EdgeHostnameGetItem) (post : List EdgeHostnameGetItem)
    (hpre : ∀ y ∈ pre, ¬ (y.DomainPrefix = n.DomainPrefix ∧ y.DomainSuffix = n.DomainSuffix))
    (hx : x.DomainPrefix = n.DomainPrefix ∧ x.DomainSuffix = n.DomainSuffix) :
    lookupExisting n (pre ++ x :: post) = some x.ID := by
  induction pre with
  | nil => rw [List.nil_append, lookupExisting, if_pos hx]
  | cons y pre ih =>
    rw [List.cons_append, lookupExisting, if_neg (hpre y (List.mem_cons_self _ _))]
    exact ih (fun z hz => hpre z (List.mem_cons_of_mem _ hz))

theorem createNew_id (env : CreateEnv) (contractID groupID : String) (n : EdgeHostnameCreate) :
    (createNew env contractID groupID n).id = none
      ∨ ∃ request id, (createNew env contractID groupID n).requests = [request]
          ∧ env.CreateEdgeHostname request = .ok id
          ∧ (createNew env contractID groupID n).id = some id := by
  unfold createNew
  simp only
  split
  · exact Or.inl rfl
  · split
    · exact Or.inl rfl
    · split
      · exact Or.inl rfl
      · split
        · exact Or.inl rfl
        · rename_i id hid
          exact Or.inr ⟨_, id, rfl, hid, rfl⟩

theorem create_unfold (env : CreateEnv) (groupID contractID productID edgeHostname : String)
    (items : List EdgeHostnameGetItem)
    (hg : env.getGroup = .ok groupID) (hc : env.getContract = .ok contractID)
    (hp : env.getProduct contractID = .ok productID)
    (hi : env.GetEdgeHostnames contractID groupID = .ok items)
    (he : env.edge_hostname = .ok edgeHostname) :
    resourceSecureEdgeHostNameCreate env
      = match lookupExisting (deriveHostname productID edgeHostname) items with
        | some id => { id := some id }
        | none => createNew env contractID groupID (deriveHostname productID edgeHostname) := by
  simp only [resourceSecureEdgeHostNameCreate, hg, hc, hp, hi, he]

end Property

/-- C9: when the group, contract, product, collection and `edge_hostname` are
obtained, (1) if a fetched item has the derived `DomainPrefix` and
`DomainSuffix`, the resource id is the `ID` of a fetched item with that pair, no
`CreateEdgeHostname` request is sent and `nil` is returned; (2) if no fetched
item has that pair, the resource id is either not set or is the id answered to
the single `CreateEdgeHostname` request that was sent. -/
theorem create_reuses_existing (env : Property.CreateEnv)
    (groupID contractID productID edgeHostname : String)
    (items : List Property.EdgeHostnameGetItem)
    (hg : env.getGroup = .ok groupID) (hc : env.getContract = .ok contractID)
    (hp : env.getProduct contractID = .ok productID)
    (hi : env.GetEdgeHostnames contractID groupID = .ok items)
    (he : env.edge_hostname = .ok edgeHostname) :
    ((∃ x ∈ items,
          x.DomainPrefix = (Property.deriveHostname productID edgeHostname).DomainPrefix
            ∧ x.DomainSuffix = (Property.deriveHostname productID edgeHostname).DomainSuffix) →
        (∃ x ∈ items,
          x.DomainPrefix = (Property.deriveHostname productID edgeHostname).DomainPrefix
            ∧ x.DomainSuffix = (Property.deriveHostname productID edgeHostname).DomainSuffix
            ∧ (Property.resourceSecureEdgeHostNameCreate env).id = some x.ID)
          ∧ (Property.resourceSecureEdgeHostNameCreate env).requests = []
          ∧ (Property.resourceSecureEdgeHostNameCreate env).diags = none)
      ∧ ((¬ ∃ x ∈ items,
          x.DomainPrefix = (Property.deriveHostname productID edgeHostname).DomainPrefix
            ∧ x.DomainSuffix = (Property.deriveHostname productID edgeHostname).DomainSuffix) →
        ((Property.resourceSecureEdgeHostNameCreate env).id = none
          ∨ ∃ request id,
              (Property.resourceSecureEdgeHostNameCreate env).requests = [request]
                ∧ env.CreateEdgeHostname request = .ok id
                ∧ (Property.resourceSecureEdgeHostNameCreate env).id = some id)) := by
  rw [Property.create_unfold env groupID contractID productID edgeHostname items hg hc hp hi he]
  constructor
  · rintro ⟨x, hx, hkey⟩
    cases hl : Property.lookupExisting (Property.deriveHostname productID edgeHostname) items with
    | none =>
      exact absurd hkey ((Property.lookupExisting_eq_none_iff _ _).1 hl x hx)
    | some id =>
      obtain ⟨y, hy, hyp, hys, hyid⟩ := Property.lookupExisting_eq_some hl
      exact ⟨⟨y, hy, hyp, hys, by rw [hyid]⟩, rfl, rfl⟩
  · intro hno
    have hl : Property.lookupExisting (Property.deriveHostname productID edgeHostname) items
        = none := by
      rw [Property.lookupExisting_eq_none_iff]
      exact fun x hx hkey => hno ⟨x, hx, hkey⟩
    rw [hl]
    exact Property.createNew_id env contractID groupID _

/-- Witness for C9: the collection already holds `www.example.com` under
`edgesuite.net`; its id is taken and nothing is created. -/
theorem create_reuses_existing_witness :
    (∃ x ∈ ([⟨"ehn_1", "a.edgesuite.net", "a", "edgesuite.net"⟩,
          ⟨"ehn_2", "www.example.com.edgesuite.net", "www.example.com", "edgesuite.net"⟩] :
          List Property.EdgeHostnameGetItem),
        x.DomainPrefix
            = (Property.deriveHostname "prd_1" "www.example.com.edgesuite.net").DomainPrefix
          ∧ x.DomainSuffix
            = (Property.deriveHostname "prd_1" "www.example.com.edgesuite.net").DomainSuffix
          ∧ (Property.resourceSecureEdgeHostNameCreate
              (Property.CreateEnv.sample "www.example.com.edgesuite.net"
                [⟨"ehn_1", "a.edgesuite.net", "a", "edgesuite.net"⟩,
                  ⟨"ehn_2", "www.example.com.edgesuite.net", "www.example.com",
                    "edgesuite.net"⟩])).id = some x.ID)
      ∧ (Property.resourceSecureEdgeHostNameCreate
          (Property.CreateEnv.sample "www.example.com.edgesuite.net"
            [⟨"ehn_1", "a.edgesuite.net", "a", "edgesuite.net"⟩,
              ⟨"ehn_2", "www.example.com.edgesuite.net", "www.example.com",
                "edgesuite.net"⟩])).requests = []
      ∧ (Property.resourceSecureEdgeHostNameCreate
          (Property.CreateEnv.sample "www.example.com.edgesuite.net"
            [⟨"ehn_1", "a.edgesuite.net", "a", "edgesuite.net"⟩,
              ⟨"ehn_2", "www.example.com.edgesuite.net", "www.example.com",
                "edgesuite.net"⟩])).diags = none :=
  (create_reuses_existing
      (Property.CreateEnv.sample "www.example.com.edgesuite.net"
        [⟨"ehn_1", "a.edgesuite.net", "a", "edgesuite.net"⟩,
          ⟨"ehn_2", "www.example.com.edgesuite.net", "www.example.com", "edgesuite.net"⟩])
      "grp_1" "ctr_1" "prd_1" "www.example.com.edgesuite.net"
      [⟨"ehn_1", "a.edgesuite.net", "a", "edgesuite.net"⟩,
        ⟨"ehn_2", "www.example.com.edgesuite.net", "www.example.com", "edgesuite.net"⟩]
      rfl rfl rfl rfl rfl).1
    ⟨⟨"ehn_2", "www.example.com.edgesuite.net", "www.example.com", "edgesuite.net"⟩,
      by decide, by decide, by decide⟩

/-- C10: when the item at which the loop first finds the derived `DomainPrefix` and
`DomainSuffix` is followed by further items (with the same pair or not), the
lookup stops at that first item: the resource id is its `ID`. -/
theorem create_lookup_first_match (env : Property.CreateEnv)
    (groupID contractID productID edgeHostname : String)
    (pre : List Property.EdgeHostnameGetItem) (x : Property.EdgeHostnameGetItem)
    (post : List Property.EdgeHostnameGetItem)
    (hg : env.getGroup = .ok groupID) (hc : env.getContract = .ok contractID)
    (hp : env.getProduct contractID = .ok productID)
    (hi : env.GetEdgeHostnames contractID groupID = .ok (pre ++ x :: post))
    (he : env.edge_hostname = .ok edgeHostname)
    (hpre : ∀ y ∈ pre,
      ¬ (y.DomainPrefix = (Property.deriveHostname productID edgeHostname).DomainPrefix
          ∧ y.DomainSuffix = (Property.deriveHostname productID edgeHostname).DomainSuffix))
    (hx : x.DomainPrefix = (Property.deriveHostname productID edgeHostname).DomainPrefix
      ∧ x.DomainSuffix = (Property.deriveHostname productID edgeHostname).DomainSuffix) :
    Property.lookupExisting (Property.deriveHostname productID edgeHostname) (pre ++ x :: post)
        = some x.ID
      ∧ (Property.resourceSecureEdgeHostNameCreate env).id = some x.ID := by
  have hl := Property.lookupExisting_first _ pre x post hpre hx
  refine ⟨hl, ?_⟩
  rw [Property.create_unfold env groupID contractID productID edgeHostname _ hg hc hp hi he, hl]

/-- Witness for C10: `ehn_2` and `ehn_3` both carry the declared pair; the id of
`ehn_2`, the first of them, is taken. -/
theorem create_lookup_first_match_witness :
    Property.lookupExisting (Property.deriveHostname "prd_1" "www.example.com.edgesuite.net")
        ([⟨"ehn_1", "a.edgesuite.net", "a", "edgesuite.net"⟩]
          ++ ⟨"ehn_2", "www.example.com.edgesuite.net", "www.example.com", "edgesuite.net"⟩
            :: [⟨"ehn_3", "www.example.com.edgesuite.net", "www.example.com",
                  "edgesuite.net"⟩])
        = some "ehn_2"
      ∧ (Property.resourceSecureEdgeHostNameCreate
          (Property.CreateEnv.sample "www.example.com.edgesuite.net"
            ([⟨"ehn_1", "a.edgesuite.net", "a", "edgesuite.net"⟩]
              ++ ⟨"ehn_2", "www.example.com.edgesuite.net", "www.example.com", "edgesuite.net"⟩
                :: [⟨"ehn_3", "www.example.com.edgesuite.net", "www.example.com",
                      "edgesuite.net"⟩]))).id = some "ehn_2" :=
  create_lookup_first_match
    (Property.CreateEnv.sample "www.example.com.edgesuite.net"
      (([⟨"ehn_1", "a.edgesuite.net", "a", "edgesuite.net"⟩] : List Property.EdgeHostnameGetItem)
        ++ ⟨"ehn_2", "www.example.com.edgesuite.net", "www.example.com", "edgesuite.net"⟩
          :: [⟨"ehn_3", "www.example.com.edgesuite.net", "www.example.com",
                "edgesuite.net"⟩]))
    "grp_1" "ctr_1" "prd_1" "www.example.com.edgesuite.net"
    [⟨"ehn_1", "a.edgesuite.net", "a", "edgesuite.net"⟩]
    ⟨"ehn_2", "www.example.com.edgesuite.net", "www.example.com", "edgesuite.net"⟩
    [⟨"ehn_3", "www.example.com.edgesuite.net", "www.example.com", "edgesuite.net"⟩]
    (by rfl) (by rfl) (by rfl) (by rfl) (by rfl) (by decide) (by decide)

/-! ## Lemmas on the activation polling loop -/

namespace Appsec

theorem pollLoop_terminal (t : String) (w id : Int) (a : GetActivationsResponse)
    (events : List PollEvent) (ha : a.Status = t) :
    pollLoop t w id a events = ⟨.finished a, []⟩ := by
  cases events <;> simp [pollLoop, ha]

theorem pollLoop_nil (t : String) (w id : Int) (a : GetActivationsResponse)
    (ha : a.Status ≠ t) : pollLoop t w id a [] = ⟨.suspended, [.After w]⟩ := by
  simp [pollLoop, ha]

theorem pollLoop_timer_ok (t : String) (w id : Int) (a act : GetActivationsResponse)
    (rest : List PollEvent) (ha : a.Status ≠ t) :
    pollLoop t w id a (.timer (.ok act) :: rest)
      = ⟨(pollLoop t w id act rest).exit,
          .After w :: .GetActivations id :: (pollLoop t w id act rest).calls⟩ := by
  simp [pollLoop, ha]

theorem pollLoop_timer_error (t : String) (w id : Int) (a : GetActivationsResponse)
    (err : GoError) (rest : List PollEvent) (ha : a.Status ≠ t) :
    pollLoop t w id a (.timer (.error err) :: rest)
      = ⟨.failed err, [.After w, .GetActivations id]⟩ := by
  simp [pollLoop, ha]

theorem pollLoop_done (t : String) (w id : Int) (a : GetActivationsResponse)
    (cause : GoError) (rest : List PollEvent) (ha : a.Status ≠ t) :
    pollLoop t w id a (.done cause :: rest)
      = ⟨.failed (.wrapped "activation context terminated: " cause), [.After w]⟩ := by
  simp [pollLoop, ha]

/-- While the answers are not terminal the loop goes through one full pass per
answer. -/
theorem pollLoop_skip (t : String) (w id : Int) (a0 : GetActivationsResponse)
    (answers : List GetActivationsResponse) (tail : List PollEvent)
    (h0 : a0.Status ≠ t) (hall : ∀ a ∈ answers, a.Status ≠ t) :
    pollLoop t w id a0 (answers.map (fun a => PollEvent.timer (.ok a)) ++ tail)
      = ⟨(pollLoop t w id (answers.getLastD a0) tail).exit,
          passes w id answers.length ++ (pollLoop t w id (answers.getLastD a0) tail).calls⟩ := by
  induction answers generalizing a0 with
  | nil => simp [passes]
  | cons b bs ih =>
    have hb : b.Status ≠ t := hall b (List.mem_cons_self _ _)
    have hbs : ∀ a ∈ bs, a.Status ≠ t := fun a ha => hall a (List.mem_cons_of_mem _ ha)
    rw [List.map_cons, List.cons_append, pollLoop_timer_ok t w id a0 b _ h0, ih b hb hbs,
      List.getLastD_cons]
    simp [passes]

theorem getLastD_ne (t : String) (a0 : GetActivationsResponse)
    (answers : List GetActivationsResponse) (h0 : a0.Status ≠ t)
    (hall : ∀ a ∈ answers, a.Status ≠ t) : (answers.getLastD a0).Status ≠ t := by
  induction answers generalizing a0 with
  | nil => simpa using h0
  | cons b bs ih =>
    rw [List.getLastD_cons]
    exact ih b (hall b (List.mem_cons_self _ _))
      (fun a ha => hall a (List.mem_cons_of_mem _ ha))

theorem pollFetches_append (l1 l2 : List Call) :
    pollFetches (l1 ++ l2) = pollFetches l1 + pollFetches l2 := by
  simp [pollFetches, List.filter_append]

theorem pollFetches_passes (w id : Int) (n : Nat) : pollFetches (passes w id n) = n := by
  induction n with
  | zero => rfl
  | succ n ih =>
    have hstep : pollFetches (passes w id (n + 1)) = pollFetches (passes w id n) + 1 := by
      simp [pollFetches, passes, List.filter_cons]
    rw [hstep, ih]

/-- The loop run by a sequence of answers of which the last is the first terminal
one. -/
theorem pollLoop_until_terminal (t : String) (w id : Int) (a0 : GetActivationsResponse)
    (seq : List GetActivationsResponse) (final : GetActivationsResponse)
    (rest : List PollEvent)
    (hlast : (a0 :: seq).getLast? = some final)
    (hfirst : ∀ a ∈ (a0 :: seq).dropLast, a.Status ≠ t)
    (hfinal : final.Status = t) :
    pollLoop t w id a0 (seq.map (fun a => PollEvent.timer (.ok a)) ++ rest)
      = ⟨.finished final, passes w id seq.length⟩ := by
  rcases List.eq_nil_or_concat seq with hnil | ⟨init, b, hcat⟩
  · subst hnil
    have ha : a0 = final := by simpa using hlast
    subst ha
    simpa [passes] using pollLoop_terminal t w id a0 rest hfinal
  · rw [List.concat_eq_append] at hcat
    subst hcat
    have hb : b = final := by
      have hl : (a0 :: (init ++ [b])).getLast? = some b := by
        rw [← List.cons_append, List.getLast?_append]
        simp
      rw [hl] at hlast
      exact Option.some.inj hlast
    subst hb
    have hdrop : (a0 :: (init ++ [b])).dropLast = a0 :: init := by
      rw [← List.cons_append, List.dropLast_concat]
    rw [hdrop] at hfirst
    have h0 : a0.Status ≠ t := hfirst a0 (List.mem_cons_self _ _)
    have hinit : ∀ a ∈ init, a.Status ≠ t := fun a ha => hfirst a (List.mem_cons_of_mem _ ha)
    have hmap : (init ++ [b]).map (fun a => PollEvent.timer (.ok a)) ++ rest
        = init.map (fun a => PollEvent.timer (.ok a)) ++ (PollEvent.timer (.ok b) :: rest) := by
      simp
    rw [hmap, pollLoop_skip t w id a0 init _ h0 hinit,
      pollLoop_timer_ok t w id _ b rest (getLastD_ne t a0 init h0 hinit),
      pollLoop_terminal t w id b rest hfinal]
    have hp : ∀ n, passes w id n ++ [Call.After w, Call.GetActivations id]
        = passes w id (n + 1) := by
      intro n
      induction n with
      | zero => rfl
      | succ n ih => simp only [passes, List.cons_append, ih]
    simp [hp]

end Appsec

namespace Appsec

theorem createAfterSubmit_of_loop (env : ActivationsEnv) (req : CreateActivationsRequest)
    (postresp : PostResponse) (a0 : GetActivationsResponse) (loop : LoopRun)
    (hlookup : env.lookup postresp.ActivationID = .ok a0)
    (hloop : pollLoop env.StatusActive
      (tools.MaxDuration env.ActivationPollInterval ActivationPollMinimum)
      postresp.ActivationID a0 env.events = loop) :
    createAfterSubmit env req postresp
      = match loop.exit with
        | .failed err =>
          { outcome := .returned (some err)
            calls := [.CreateActivations req, .lookupActivation postresp.ActivationID]
              ++ loop.calls
            id := some (toString postresp.ActivationID), status := some postresp.Status }
        | .suspended =>
          { outcome := .suspended
            calls := [.CreateActivations req, .lookupActivation postresp.ActivationID]
              ++ loop.calls
            id := some (toString postresp.ActivationID), status := some postresp.Status }
        | .finished _ =>
          resourceActivationsRead env
            ([.CreateActivations req, .lookupActivation postresp.ActivationID] ++ loop.calls)
            (toString postresp.ActivationID) (some postresp.Status) := by
  simp only [createAfterSubmit, hlookup, hloop]

theorem deleteAfterSubmit_of_loop (env : ActivationsEnv) (req : RemoveActivationsRequest)
    (postresp : PostResponse) (a0 : GetActivationsResponse) (loop : LoopRun)
    (hlookup : env.lookup postresp.ActivationID = .ok a0)
    (hloop : pollLoop env.StatusDeactivated
      (tools.MaxDuration env.ActivationPollInterval ActivationPollMinimum)
      postresp.ActivationID a0 env.events = loop) :
    deleteAfterSubmit env req postresp
      = match loop.exit with
        | .failed err =>
          { outcome := .returned (some err)
            calls := [.RemoveActivations req, .lookupActivation postresp.ActivationID]
              ++ loop.calls
            id := some (toString postresp.ActivationID), status := some postresp.Status }
        | .suspended =>
          { outcome := .suspended
            calls := [.RemoveActivations req, .lookupActivation postresp.ActivationID]
              ++ loop.calls
            id := some (toString postresp.ActivationID), status := some postresp.Status }
        | .finished last =>
          { outcome := .returned none
            calls := [.RemoveActivations req, .lookupActivation postresp.ActivationID]
              ++ loop.calls
            id := some "", status := some last.Status } := by
  simp only [deleteAfterSubmit, hlookup, hloop]

theorem read_calls (env : ActivationsEnv) (calls : List Call) (id : String)
    (status : Option String) :
    (resourceActivationsRead env calls id status).calls = calls ++ [.Read (env.Atoi id)] := by
  unfold resourceActivationsRead
  simp only
  split <;> rfl

theorem pollFetches_submitted_read (first second : Call) (loopCalls : List Call) (x : Int)
    (h1 : pollFetches [first] = 0) (h2 : pollFetches [second] = 0) :
    pollFetches ([first, second] ++ loopCalls ++ [.Read x]) = pollFetches loopCalls := by
  have hsplit : [first, second] ++ loopCalls ++ [Call.Read x]
      = [first] ++ ([second] ++ (loopCalls ++ [Call.Read x])) := by simp
  rw [hsplit, pollFetches_append, pollFetches_append, pollFetches_append, h1, h2]
  simp [pollFetches]

end Appsec

/-! ## The activation poller of `resourceActivationsCreate` and `resourceActivationsDelete` -/

/-- C12: let `a0` be the answer the loop starts from and `seq` the answers of the
successive fetches, the last of `a0 :: seq` being the first with the terminal
status. With no cancellation among these passes the loop is left through its
condition after exactly `seq.length` fetches, each after a wait; after it create
goes on to its final read and delete returns `nil`. -/
theorem poll_fetches_until_terminal (env : Appsec.ActivationsEnv)
    (creq : Appsec.CreateActivationsRequest) (rreq : Appsec.RemoveActivationsRequest)
    (postresp : Appsec.PostResponse) (a0 : Appsec.GetActivationsResponse)
    (seq : List Appsec.GetActivationsResponse) (final : Appsec.GetActivationsResponse)
    (rest : List Appsec.PollEvent)
    (hlookup : env.lookup postresp.ActivationID = .ok a0)
    (hevents : env.events = seq.map (fun a => Appsec.PollEvent.timer (.ok a)) ++ rest)
    (hlast : (a0 :: seq).getLast? = some final) :
    (∀ (t : String) (w id : Int), (∀ a ∈ (a0 :: seq).dropLast, a.Status ≠ t) →
        final.Status = t →
        Appsec.pollLoop t w id a0 env.events
          = ⟨.finished final, Appsec.passes w id seq.length⟩)
      ∧ ((∀ a ∈ (a0 :: seq).dropLast, a.Status ≠ env.StatusActive) →
          final.Status = env.StatusActive →
          Appsec.createAfterSubmit env creq postresp
              = Appsec.resourceActivationsRead env
                  ([.CreateActivations creq, .lookupActivation postresp.ActivationID]
                    ++ Appsec.passes
                        (tools.MaxDuration env.ActivationPollInterval
                          Appsec.ActivationPollMinimum)
                        postresp.ActivationID seq.length)
                  (toString postresp.ActivationID) (some postresp.Status)
            ∧ Appsec.pollFetches (Appsec.createAfterSubmit env creq postresp).calls
                = seq.length)
      ∧ ((∀ a ∈ (a0 :: seq).dropLast, a.Status ≠ env.StatusDeactivated) →
          final.Status = env.StatusDeactivated →
          Appsec.deleteAfterSubmit env rreq postresp
              = { outcome := .returned none
                  calls := [.RemoveActivations rreq, .lookupActivation postresp.ActivationID]
                    ++ Appsec.passes
                        (tools.MaxDuration env.ActivationPollInterval
                          Appsec.ActivationPollMinimum)
                        postresp.ActivationID seq.length
                  id := some "", status := some final.Status }
            ∧ Appsec.pollFetches (Appsec.deleteAfterSubmit env rreq postresp).calls
                = seq.length) := by
  refine ⟨?_, ?_, ?_⟩
  · intro t w id hfirst hfinal
    rw [hevents]
    exact Appsec.pollLoop_until_terminal t w id a0 seq final rest hlast hfirst hfinal
  · intro hfirst hfinal
    have hloop := Appsec.pollLoop_until_terminal env.StatusActive
      (tools.MaxDuration env.ActivationPollInterval Appsec.ActivationPollMinimum)
      postresp.ActivationID a0 seq final rest hlast hfirst hfinal
    rw [← hevents] at hloop
    have hrun := Appsec.createAfterSubmit_of_loop env creq postresp a0 _ hlookup hloop
    simp only at hrun
    refine ⟨hrun, ?_⟩
    rw [hrun, Appsec.read_calls,
      Appsec.pollFetches_submitted_read (Appsec.Call.CreateActivations creq)
        (Appsec.Call.lookupActivation postresp.ActivationID) _ _ rfl rfl,
      Appsec.pollFetches_passes]
  · intro hfirst hfinal
    have hloop := Appsec.pollLoop_until_terminal env.StatusDeactivated
      (tools.MaxDuration env.ActivationPollInterval Appsec.ActivationPollMinimum)
      postresp.ActivationID a0 seq final rest hlast hfirst hfinal
    rw [← hevents] at hloop
    have hrun := Appsec.deleteAfterSubmit_of_loop env rreq postresp a0 _ hlookup hloop
    simp only at hrun
    refine ⟨hrun, ?_⟩
    rw [hrun]
    have hsplit : [Appsec.Call.RemoveActivations rreq,
          Appsec.Call.lookupActivation postresp.ActivationID]
        ++ Appsec.passes (tools.MaxDuration env.ActivationPollInterval
            Appsec.ActivationPollMinimum) postresp.ActivationID seq.length
        = [Appsec.Call.RemoveActivations rreq]
          ++ ([Appsec.Call.lookupActivation postresp.ActivationID]
            ++ Appsec.passes (tools.MaxDuration env.ActivationPollInterval
                Appsec.ActivationPollMinimum) postresp.ActivationID seq.length) := by simp
    simp only [hsplit]
    rw [Appsec.pollFetches_append, Appsec.pollFetches_append, Appsec.pollFetches_passes]
    simp [Appsec.pollFetches]

/-- Witness for C12: the loop starts from `IN_PROGRESS` and the fetches answer
`IN_PROGRESS`, then `ACTIVE`: two fetches. -/
theorem poll_fetches_until_terminal_witness :
    Appsec.pollFetches
        (Appsec.createAfterSubmit
          (Appsec.ActivationsEnv.sample "PENDING" (.ok ⟨7, "IN_PROGRESS"⟩)
            [.timer (.ok ⟨7, "IN_PROGRESS"⟩), .timer (.ok ⟨7, "ACTIVE"⟩)])
          ⟨"ACTIVATE", "STAGING", ["ops@example.com"], [⟨1, 2⟩]⟩ ⟨7, "PENDING"⟩).calls
      = 2 :=
  ((poll_fetches_until_terminal
      (Appsec.ActivationsEnv.sample "PENDING" (.ok ⟨7, "IN_PROGRESS"⟩)
        [.timer (.ok ⟨7, "IN_PROGRESS"⟩), .timer (.ok ⟨7, "ACTIVE"⟩)])
      ⟨"ACTIVATE", "STAGING", ["ops@example.com"], [⟨1, 2⟩]⟩
      ⟨7, "DEACTIVATE", "STAGING", ["ops@example.com"], [⟨1, 2⟩]⟩
      ⟨7, "PENDING"⟩ ⟨7, "IN_PROGRESS"⟩ [⟨7, "IN_PROGRESS"⟩, ⟨7, "ACTIVE"⟩] ⟨7, "ACTIVE"⟩ []
      (by rfl) (by rfl) (by rfl)).2.1 (by decide) (by rfl)).2

/-- C13, as stated, fails: the status of the submission answer is not what the loop
tests. With a submission answered `ACTIVE`, create still sends the
`GetActivations` of `lookupActivation` (and the one of the final read); and if
that lookup answers `IN_PROGRESS`, the loop waits and fetches. -/
theorem create_terminal_submission_still_fetches :
    (Appsec.resourceActivationsCreate
        (Appsec.ActivationsEnv.sample "ACTIVE" (.ok ⟨7, "ACTIVE"⟩) [])).calls
      = [.CreateActivations ⟨"ACTIVATE", "STAGING", ["ops@example.com"], [⟨1, 2⟩]⟩,
          .lookupActivation 7, .Read 7]
    ∧ (Appsec.resourceActivationsCreate
        (Appsec.ActivationsEnv.sample "ACTIVE" (.ok ⟨7, "IN_PROGRESS"⟩)
          [.timer (.ok ⟨7, "ACTIVE"⟩)])).calls
      = [.CreateActivations ⟨"ACTIVATE", "STAGING", ["ops@example.com"], [⟨1, 2⟩]⟩,
          .lookupActivation 7, .After 60000000000, .GetActivations 7, .Read 7] := by
  decide

/-- C13, amended: if the answer of the lookup issued right after the accepted
submission already has the terminal status, the loop body is never entered: no
wait is armed and no polling fetch is sent, whatever the submission answered and
whatever events are pending. Create goes on to its final read and delete
returns `nil`. -/
theorem poll_terminal_lookup_no_pass (env : Appsec.ActivationsEnv)
    (creq : Appsec.CreateActivationsRequest) (rreq : Appsec.RemoveActivationsRequest)
    (postresp : Appsec.PostResponse) (a0 : Appsec.GetActivationsResponse)
    (hlookup : env.lookup postresp.ActivationID = .ok a0) :
    (a0.Status = env.StatusActive →
        Appsec.createAfterSubmit env creq postresp
          = Appsec.resourceActivationsRead env
              [.CreateActivations creq, .lookupActivation postresp.ActivationID]
              (toString postresp.ActivationID) (some postresp.Status))
      ∧ (a0.Status = env.StatusDeactivated →
        Appsec.deleteAfterSubmit env rreq postresp
          = { outcome := .returned none
              calls := [.RemoveActivations rreq, .lookupActivation postresp.ActivationID]
              id := some "", status := some a0.Status }) := by
  constructor
  · intro ha
    have hrun := Appsec.createAfterSubmit_of_loop env creq postresp a0 _ hlookup
      (Appsec.pollLoop_terminal _ _ _ a0 env.events ha)
    simpa using hrun
  · intro ha
    have hrun := Appsec.deleteAfterSubmit_of_loop env rreq postresp a0 _ hlookup
      (Appsec.pollLoop_terminal _ _ _ a0 env.events ha)
    simpa using hrun

/-- Witness for C13 (amended): the lookup answers `DEACTIVATED`; delete returns
`nil` after the submission and the lookup alone, although a timer event is
pending. -/
theorem poll_terminal_lookup_no_pass_witness :
    Appsec.deleteAfterSubmit
        (Appsec.ActivationsEnv.sample "PENDING" (.ok ⟨7, "DEACTIVATED"⟩)
          [.timer (.ok ⟨7, "DEACTIVATED"⟩)])
        ⟨7, "DEACTIVATE", "STAGING", ["ops@example.com"], [⟨1, 2⟩]⟩ ⟨7, "PENDING"⟩
      = { outcome := .returned none
          calls := [.RemoveActivations ⟨7, "DEACTIVATE", "STAGING", ["ops@example.com"], [⟨1, 2⟩]⟩,
            .lookupActivation 7]
          id := some "", status := some "DEACTIVATED" } :=
  (poll_terminal_lookup_no_pass
      (Appsec.ActivationsEnv.sample "PENDING" (.ok ⟨7, "DEACTIVATED"⟩)
        [.timer (.ok ⟨7, "DEACTIVATED"⟩)])
      ⟨"ACTIVATE", "STAGING", ["ops@example.com"], [⟨1, 2⟩]⟩
      ⟨7, "DEACTIVATE", "STAGING", ["ops@example.com"], [⟨1, 2⟩]⟩
      ⟨7, "PENDING"⟩ ⟨7, "DEACTIVATED"⟩ (by rfl)).2 (by rfl)

/-- C14, as stated, fails: the loop tests the status against `StatusActive` only.
A fetch answered `FAILED` is followed by another wait and another fetch, and
when that one answers `ACTIVE` create ends without any error. -/
theorem poll_continues_after_failure_status :
    Appsec.resourceActivationsCreate
        (Appsec.ActivationsEnv.sample "PENDING" (.ok ⟨7, "IN_PROGRESS"⟩)
          [.timer (.ok ⟨7, "FAILED"⟩), .timer (.ok ⟨7, "ACTIVE"⟩)])
      = { outcome := .returned none
          calls := [.CreateActivations ⟨"ACTIVATE", "STAGING", ["ops@example.com"], [⟨1, 2⟩]⟩,
            .lookupActivation 7, .After 60000000000, .GetActivations 7,
            .After 60000000000, .GetActivations 7, .Read 7]
          id := some "7", status := some "ACTIVE" } := by
  decide

namespace Appsec

theorem createAfterSubmit_calls (env : ActivationsEnv) (req : CreateActivationsRequest)
    (postresp : PostResponse) (a0 : GetActivationsResponse)
    (hlookup : env.lookup postresp.ActivationID = .ok a0) :
    ∃ more, (more = [] ∨ ∃ x, more = [Call.Read x]) ∧
      (createAfterSubmit env req postresp).calls
        = [.CreateActivations req, .lookupActivation postresp.ActivationID]
          ++ (pollLoop env.StatusActive
              (tools.MaxDuration env.ActivationPollInterval ActivationPollMinimum)
              postresp.ActivationID a0 env.events).calls ++ more := by
  rw [createAfterSubmit_of_loop env req postresp a0 _ hlookup rfl]
  cases (pollLoop env.StatusActive
      (tools.MaxDuration env.ActivationPollInterval ActivationPollMinimum)
      postresp.ActivationID a0 env.events).exit with
  | finished last =>
    exact ⟨[Call.Read (env.Atoi (toString postresp.ActivationID))], Or.inr ⟨_, rfl⟩,
      by simp only [read_calls]⟩
  | failed err => exact ⟨[], Or.inl rfl, by simp⟩
  | suspended => exact ⟨[], Or.inl rfl, by simp⟩

theorem deleteAfterSubmit_calls (env : ActivationsEnv) (req : RemoveActivationsRequest)
    (postresp : PostResponse) (a0 : GetActivationsResponse)
    (hlookup : env.lookup postresp.ActivationID = .ok a0) :
    (deleteAfterSubmit env req postresp).calls
      = [.RemoveActivations req, .lookupActivation postresp.ActivationID]
        ++ (pollLoop env.StatusDeactivated
            (tools.MaxDuration env.ActivationPollInterval ActivationPollMinimum)
            postresp.ActivationID a0 env.events).calls := by
  rw [deleteAfterSubmit_of_loop env req postresp a0 _ hlookup rfl]
  cases (pollLoop env.StatusDeactivated
      (tools.MaxDuration env.ActivationPollInterval ActivationPollMinimum)
      postresp.ActivationID a0 env.events).exit <;> rfl

theorem pollLoop_calls_head (t : String) (w id : Int) (a : GetActivationsResponse)
    (events : List PollEvent) (ha : a.Status ≠ t) :
    ∃ more, (pollLoop t w id a events).calls = .After w :: more := by
  cases events with
  | nil => exact ⟨[], by rw [pollLoop_nil t w id a ha]⟩
  | cons e rest =>
    cases e with
    | timer resp =>
      cases resp with
      | error err => exact ⟨_, by rw [pollLoop_timer_error t w id a err rest ha]⟩
      | ok act => exact ⟨_, by rw [pollLoop_timer_ok t w id a act rest ha]⟩
    | done cause => exact ⟨[], by rw [pollLoop_done t w id a cause rest ha]⟩

/-- The loop is only left with an error through a failed fetch or through
`ctx.Done()`, and only left through its condition on the terminal status. -/
theorem pollLoop_exit_origin (t : String) (w id : Int) (a : GetActivationsResponse)
    (events : List PollEvent) :
    (∀ err, (pollLoop t w id a events).exit = .failed err →
        PollEvent.timer (.error err) ∈ events
          ∨ ∃ cause, PollEvent.done cause ∈ events
              ∧ err = .wrapped "activation context terminated: " cause)
      ∧ ∀ last, (pollLoop t w id a events).exit = .finished last → last.Status = t := by
  induction events generalizing a with
  | nil =>
    by_cases ha : a.Status = t
    · rw [pollLoop_terminal t w id a [] ha]
      exact ⟨fun err h => (by cases h), fun last h => (by cases h; exact ha)⟩
    · rw [pollLoop_nil t w id a ha]
      exact ⟨fun err h => (by cases h), fun last h => (by cases h)⟩
  | cons e rest ih =>
    by_cases ha : a.Status = t
    · rw [pollLoop_terminal t w id a _ ha]
      exact ⟨fun err h => (by cases h), fun last h => (by cases h; exact ha)⟩
    · cases e with
      | timer resp =>
        cases resp with
        | error err0 =>
          rw [pollLoop_timer_error t w id a err0 rest ha]
          refine ⟨fun err h => ?_, fun last h => (by cases h)⟩
          cases h
          exact Or.inl (List.mem_cons_self _ _)
        | ok act =>
          rw [pollLoop_timer_ok t w id a act rest ha]
          refine ⟨fun err h => ?_, fun last h => (ih act).2 last h⟩
          rcases (ih act).1 err h with hm | ⟨cause, hm, hc⟩
          · exact Or.inl (List.mem_cons_of_mem _ hm)
          · exact Or.inr ⟨cause, List.mem_cons_of_mem _ hm, hc⟩
      | done cause =>
        rw [pollLoop_done t w id a cause rest ha]
        refine ⟨fun err h => ?_, fun last h => (by cases h)⟩
        cases h
        exact Or.inr ⟨cause, List.mem_cons_self _ _, rfl⟩

end Appsec

/-- C14, amended: a fetch that answers a status other than the terminal-success one
— a failure status included — does not stop the poller: the next pass arms its
wait. The loop is left with an error only through a failed fetch or through
cancellation, and through its condition only on the terminal-success status; no
error is ever built from a returned status. -/
theorem poll_only_terminal_status_stops (env : Appsec.ActivationsEnv)
    (creq : Appsec.CreateActivationsRequest) (rreq : Appsec.RemoveActivationsRequest)
    (postresp : Appsec.PostResponse) (a0 act : Appsec.GetActivationsResponse)
    (rest : List Appsec.PollEvent)
    (hlookup : env.lookup postresp.ActivationID = .ok a0)
    (hevents : env.events = .timer (.ok act) :: rest) :
    (a0.Status ≠ env.StatusActive → act.Status ≠ env.StatusActive →
        ∃ more, (Appsec.createAfterSubmit env creq postresp).calls
          = [.CreateActivations creq, .lookupActivation postresp.ActivationID,
              .After (tools.MaxDuration env.ActivationPollInterval Appsec.ActivationPollMinimum),
              .GetActivations postresp.ActivationID,
              .After (tools.MaxDuration env.ActivationPollInterval Appsec.ActivationPollMinimum)]
            ++ more)
      ∧ (a0.Status ≠ env.StatusDeactivated → act.Status ≠ env.StatusDeactivated →
        ∃ more, (Appsec.deleteAfterSubmit env rreq postresp).calls
          = [.RemoveActivations rreq, .lookupActivation postresp.ActivationID,
              .After (tools.MaxDuration env.ActivationPollInterval Appsec.ActivationPollMinimum),
              .GetActivations postresp.ActivationID,
              .After (tools.MaxDuration env.ActivationPollInterval Appsec.ActivationPollMinimum)]
            ++ more)
      ∧ (∀ (t : String) (w id : Int) (err : Appsec.GoError),
          (Appsec.pollLoop t w id a0 env.events).exit = .failed err →
          Appsec.PollEvent.timer (.error err) ∈ env.events
            ∨ ∃ cause, Appsec.PollEvent.done cause ∈ env.events
                ∧ err = .wrapped "activation context terminated: " cause)
      ∧ (∀ (t : String) (w id : Int) (last : Appsec.GetActivationsResponse),
          (Appsec.pollLoop t w id a0 env.events).exit = .finished last → last.Status = t) := by
  refine ⟨?_, ?_, ?_, ?_⟩
  · intro h0 hact
    obtain ⟨more, _, hcalls⟩ := Appsec.createAfterSubmit_calls env creq postresp a0 hlookup
    obtain ⟨next, hnext⟩ := Appsec.pollLoop_calls_head env.StatusActive
      (tools.MaxDuration env.ActivationPollInterval Appsec.ActivationPollMinimum)
      postresp.ActivationID act rest hact
    rw [hevents, Appsec.pollLoop_timer_ok _ _ _ a0 act rest h0, hnext] at hcalls
    exact ⟨next ++ more, by rw [hcalls]; simp⟩
  · intro h0 hact
    have hcalls := Appsec.deleteAfterSubmit_calls env rreq postresp a0 hlookup
    obtain ⟨next, hnext⟩ := Appsec.pollLoop_calls_head env.StatusDeactivated
      (tools.MaxDuration env.ActivationPollInterval Appsec.ActivationPollMinimum)
      postresp.ActivationID act rest hact
    rw [hevents, Appsec.pollLoop_timer_ok _ _ _ a0 act rest h0, hnext] at hcalls
    exact ⟨next, by rw [hcalls]; simp⟩
  · intro t w id err h
    exact (Appsec.pollLoop_exit_origin t w id a0 env.events).1 err h
  · intro t w id last h
    exact (Appsec.pollLoop_exit_origin t w id a0 env.events).2 last h

/-- Witness for C14 (amended): the first fetch answers `FAILED`; the calls of create
go on with a second wait. -/
theorem poll_only_terminal_status_stops_witness :
    ∃ more, (Appsec.createAfterSubmit
        (Appsec.ActivationsEnv.sample "PENDING" (.ok ⟨7, "IN_PROGRESS"⟩)
          [.timer (.ok ⟨7, "FAILED"⟩), .done (.other "deadline exceeded")])
        ⟨"ACTIVATE", "STAGING", ["ops@example.com"], [⟨1, 2⟩]⟩ ⟨7, "PENDING"⟩).calls
      = [.CreateActivations ⟨"ACTIVATE", "STAGING", ["ops@example.com"], [⟨1, 2⟩]⟩,
          .lookupActivation 7,
          .After (tools.MaxDuration 1000 Appsec.ActivationPollMinimum),
          .GetActivations 7,
          .After (tools.MaxDuration 1000 Appsec.ActivationPollMinimum)] ++ more :=
  (poll_only_terminal_status_stops
      (Appsec.ActivationsEnv.sample "PENDING" (.ok ⟨7, "IN_PROGRESS"⟩)
        [.timer (.ok ⟨7, "FAILED"⟩), .done (.other "deadline exceeded")])
      ⟨"ACTIVATE", "STAGING", ["ops@example.com"], [⟨1, 2⟩]⟩
      ⟨7, "DEACTIVATE", "STAGING", ["ops@example.com"], [⟨1, 2⟩]⟩
      ⟨7, "PENDING"⟩ ⟨7, "IN_PROGRESS"⟩ ⟨7, "FAILED"⟩ [.done (.other "deadline exceeded")]
      (by rfl) (by rfl)).1 (by decide) (by decide)

/-- C15, at the failing input: the `GetActivations` of `lookupActivation` fails
right after an accepted submission. Its error is never tested; the `nil`
activation is dereferenced by the loop condition, so create and delete stop with
a nil pointer dereference and return no error result. -/
theorem lookup_error_dereferenced :
    (Appsec.resourceActivationsCreate
        (Appsec.ActivationsEnv.sample "PENDING" (.error (.other "lookup failed")) [])).outcome
      = .panicked
    ∧ (Appsec.resourceActivationsDelete
        (Appsec.ActivationsEnv.sample "PENDING" (.error (.other "lookup failed")) [])).outcome
      = .panicked := by
  decide

namespace Appsec

theorem passes_snoc (w id : Int) (n : Nat) :
    passes w id n ++ [Call.After w, Call.GetActivations id] = passes w id (n + 1) := by
  induction n with
  | zero => rfl
  | succ n ih => simp only [passes, List.cons_append, ih]

/-- The loop run by answers none of which is terminal, followed by a failed
fetch. -/
theorem pollLoop_fetch_error (t : String) (w id : Int) (a0 : GetActivationsResponse)
    (answers : List GetActivationsResponse) (err : GoError) (rest : List PollEvent)
    (hall : ∀ a ∈ a0 :: answers, a.Status ≠ t) :
    pollLoop t w id a0
        (answers.map (fun a => PollEvent.timer (.ok a)) ++ .timer (.error err) :: rest)
      = ⟨.failed err, passes w id (answers.length + 1)⟩ := by
  have h0 : a0.Status ≠ t := hall a0 (List.mem_cons_self _ _)
  have hrest : ∀ a ∈ answers, a.Status ≠ t := fun a ha => hall a (List.mem_cons_of_mem _ ha)
  rw [pollLoop_skip t w id a0 answers _ h0 hrest,
    pollLoop_timer_error t w id _ err rest (getLastD_ne t a0 answers h0 hrest)]
  simp only [passes_snoc]

/-- The loop run by answers none of which is terminal, followed by
`ctx.Done()`. -/
theorem pollLoop_cancelled (t : String) (w id : Int) (a0 : GetActivationsResponse)
    (answers : List GetActivationsResponse) (cause : GoError) (rest : List PollEvent)
    (hall : ∀ a ∈ a0 :: answers, a.Status ≠ t) :
    pollLoop t w id a0
        (answers.map (fun a => PollEvent.timer (.ok a)) ++ .done cause :: rest)
      = ⟨.failed (.wrapped "activation context terminated: " cause),
          passes w id answers.length ++ [.After w]⟩ := by
  have h0 : a0.Status ≠ t := hall a0 (List.mem_cons_self _ _)
  have hrest : ∀ a ∈ answers, a.Status ≠ t := fun a ha => hall a (List.mem_cons_of_mem _ ha)
  rw [pollLoop_skip t w id a0 answers _ h0 hrest,
    pollLoop_done t w id _ cause rest (getLastD_ne t a0 answers h0 hrest)]

end Appsec

/-- C16: when a fetch of the loop fails (after any number of fetches answered with
non-terminal statuses), create and delete return the error of that fetch at
once: the failing fetch is the last call made, whatever events would follow. -/
theorem poll_fetch_error_returned (env : Appsec.ActivationsEnv)
    (creq : Appsec.CreateActivationsRequest) (rreq : Appsec.RemoveActivationsRequest)
    (postresp : Appsec.PostResponse) (a0 : Appsec.GetActivationsResponse)
    (answers : List Appsec.GetActivationsResponse) (err : Appsec.GoError)
    (rest : List Appsec.PollEvent)
    (hlookup : env.lookup postresp.ActivationID = .ok a0)
    (hevents : env.events
      = answers.map (fun a => Appsec.PollEvent.timer (.ok a)) ++ .timer (.error err) :: rest) :
    ((∀ a ∈ a0 :: answers, a.Status ≠ env.StatusActive) →
        Appsec.createAfterSubmit env creq postresp
          = { outcome := .returned (some err)
              calls := [.CreateActivations creq, .lookupActivation postresp.ActivationID]
                ++ Appsec.passes
                    (tools.MaxDuration env.ActivationPollInterval Appsec.ActivationPollMinimum)
                    postresp.ActivationID (answers.length + 1)
              id := some (toString postresp.ActivationID), status := some postresp.Status })
      ∧ ((∀ a ∈ a0 :: answers, a.Status ≠ env.StatusDeactivated) →
        Appsec.deleteAfterSubmit env rreq postresp
          = { outcome := .returned (some err)
              calls := [.RemoveActivations rreq, .lookupActivation postresp.ActivationID]
                ++ Appsec.passes
                    (tools.MaxDuration env.ActivationPollInterval Appsec.ActivationPollMinimum)
                    postresp.ActivationID (answers.length + 1)
              id := some (toString postresp.ActivationID), status := some postresp.Status }) := by
  constructor
  · intro hall
    have hloop := Appsec.pollLoop_fetch_error env.StatusActive
      (tools.MaxDuration env.ActivationPollInterval Appsec.ActivationPollMinimum)
      postresp.ActivationID a0 answers err rest hall
    rw [← hevents] at hloop
    have hrun := Appsec.createAfterSubmit_of_loop env creq postresp a0 _ hlookup hloop
    simpa using hrun
  · intro hall
    have hloop := Appsec.pollLoop_fetch_error env.StatusDeactivated
      (tools.MaxDuration env.ActivationPollInterval Appsec.ActivationPollMinimum)
      postresp.ActivationID a0 answers err rest hall
    rw [← hevents] at hloop
    have hrun := Appsec.deleteAfterSubmit_of_loop env rreq postresp a0 _ hlookup hloop
    simpa using hrun

/-- Witness for C16: the second fetch fails with `gateway timeout`; create returns
that error after two fetches although a further answer was available. -/
theorem poll_fetch_error_returned_witness :
    Appsec.createAfterSubmit
        (Appsec.ActivationsEnv.sample "PENDING" (.ok ⟨7, "IN_PROGRESS"⟩)
          [.timer (.ok ⟨7, "IN_PROGRESS"⟩), .timer (.error (.other "gateway timeout")),
            .timer (.ok ⟨7, "ACTIVE"⟩)])
        ⟨"ACTIVATE", "STAGING", ["ops@example.com"], [⟨1, 2⟩]⟩ ⟨7, "PENDING"⟩
      = { outcome := .returned (some (.other "gateway timeout"))
          calls := [.CreateActivations ⟨"ACTIVATE", "STAGING", ["ops@example.com"], [⟨1, 2⟩]⟩,
              .lookupActivation 7]
            ++ Appsec.passes (tools.MaxDuration 1000 Appsec.ActivationPollMinimum) 7 2
          id := some (toString (7 : Int)), status := some "PENDING" } :=
  (poll_fetch_error_returned
      (Appsec.ActivationsEnv.sample "PENDING" (.ok ⟨7, "IN_PROGRESS"⟩)
        [.timer (.ok ⟨7, "IN_PROGRESS"⟩), .timer (.error (.other "gateway timeout")),
          .timer (.ok ⟨7, "ACTIVE"⟩)])
      ⟨"ACTIVATE", "STAGING", ["ops@example.com"], [⟨1, 2⟩]⟩
      ⟨7, "DEACTIVATE", "STAGING", ["ops@example.com"], [⟨1, 2⟩]⟩
      ⟨7, "PENDING"⟩ ⟨7, "IN_PROGRESS"⟩ [⟨7, "IN_PROGRESS"⟩] (.other "gateway timeout")
      [.timer (.ok ⟨7, "ACTIVE"⟩)] (by rfl) (by rfl)).1 (by decide)

/-- C17: when `ctx.Done()` is taken at the `select` before any fetch answered the
terminal status, create and delete return an error that wraps `ctx.Err()`; the
wait of that pass is the last call made, so no fetch follows, and the result is
not a success. -/
theorem poll_cancelled_returns_wrapped (env : Appsec.ActivationsEnv)
    (creq : Appsec.CreateActivationsRequest) (rreq : Appsec.RemoveActivationsRequest)
    (postresp : Appsec.PostResponse) (a0 : Appsec.GetActivationsResponse)
    (answers : List Appsec.GetActivationsResponse) (cause : Appsec.GoError)
    (rest : List Appsec.PollEvent)
    (hlookup : env.lookup postresp.ActivationID = .ok a0)
    (hevents : env.events
      = answers.map (fun a => Appsec.PollEvent.timer (.ok a)) ++ .done cause :: rest) :
    ((∀ a ∈ a0 :: answers, a.Status ≠ env.StatusActive) →
        Appsec.createAfterSubmit env creq postresp
          = { outcome := .returned (some (.wrapped "activation context terminated: " cause))
              calls := [.CreateActivations creq, .lookupActivation postresp.ActivationID]
                ++ (Appsec.passes
                    (tools.MaxDuration env.ActivationPollInterval Appsec.ActivationPollMinimum)
                    postresp.ActivationID answers.length
                  ++ [.After (tools.MaxDuration env.ActivationPollInterval
                        Appsec.ActivationPollMinimum)])
              id := some (toString postresp.ActivationID), status := some postresp.Status })
      ∧ ((∀ a ∈ a0 :: answers, a.Status ≠ env.StatusDeactivated) →
        Appsec.deleteAfterSubmit env rreq postresp
          = { outcome := .returned (some (.wrapped "activation context terminated: " cause))
              calls := [.RemoveActivations rreq, .lookupActivation postresp.ActivationID]
                ++ (Appsec.passes
                    (tools.MaxDuration env.ActivationPollInterval Appsec.ActivationPollMinimum)
                    postresp.ActivationID answers.length
                  ++ [.After (tools.MaxDuration env.ActivationPollInterval
                        Appsec.ActivationPollMinimum)])
              id := some (toString postresp.ActivationID), status := some postresp.Status }) := by
  constructor
  · intro hall
    have hloop := Appsec.pollLoop_cancelled env.StatusActive
      (tools.MaxDuration env.ActivationPollInterval Appsec.ActivationPollMinimum)
      postresp.ActivationID a0 answers cause rest hall
    rw [← hevents] at hloop
    have hrun := Appsec.createAfterSubmit_of_loop env creq postresp a0 _ hlookup hloop
    simpa using hrun
  · intro hall
    have hloop := Appsec.pollLoop_cancelled env.StatusDeactivated
      (tools.MaxDuration env.ActivationPollInterval Appsec.ActivationPollMinimum)
      postresp.ActivationID a0 answers cause rest hall
    rw [← hevents] at hloop
    have hrun := Appsec.deleteAfterSubmit_of_loop env rreq postresp a0 _ hlookup hloop
    simpa using hrun

/-- Witness for C17: after one fetch answered `IN_PROGRESS` the context is
cancelled; create returns the wrapped `context canceled` and sends no second
fetch although an `ACTIVE` answer was available. -/
theorem poll_cancelled_returns_wrapped_witness :
    Appsec.createAfterSubmit
        (Appsec.ActivationsEnv.sample "PENDING" (.ok ⟨7, "IN_PROGRESS"⟩)
          [.timer (.ok ⟨7, "IN_PROGRESS"⟩), .done (.other "context canceled"),
            .timer (.ok ⟨7, "ACTIVE"⟩)])
        ⟨"ACTIVATE", "STAGING", ["ops@example.com"], [⟨1, 2⟩]⟩ ⟨7, "PENDING"⟩
      = { outcome := .returned
            (some (.wrapped "activation context terminated: " (.other "context canceled")))
          calls := [.CreateActivations ⟨"ACTIVATE", "STAGING", ["ops@example.com"], [⟨1, 2⟩]⟩,
              .lookupActivation 7]
            ++ (Appsec.passes (tools.MaxDuration 1000 Appsec.ActivationPollMinimum) 7 1
              ++ [.After (tools.MaxDuration 1000 Appsec.ActivationPollMinimum)])
          id := some (toString (7 : Int)), status := some "PENDING" } :=
  (poll_cancelled_returns_wrapped
      (Appsec.ActivationsEnv.sample "PENDING" (.ok ⟨7, "IN_PROGRESS"⟩)
        [.timer (.ok ⟨7, "IN_PROGRESS"⟩), .done (.other "context canceled"),
          .timer (.ok ⟨7, "ACTIVE"⟩)])
      ⟨"ACTIVATE", "STAGING", ["ops@example.com"], [⟨1, 2⟩]⟩
      ⟨7, "DEACTIVATE", "STAGING", ["ops@example.com"], [⟨1, 2⟩]⟩
      ⟨7, "PENDING"⟩ ⟨7, "IN_PROGRESS"⟩ [⟨7, "IN_PROGRESS"⟩] (.other "context canceled")
      [.timer (.ok ⟨7, "ACTIVE"⟩)] (by rfl) (by rfl)).1 (by decide)

namespace Appsec

theorem waits_nil (w : Int) : WaitsBeforeFetches w [] := by
  constructor
  · intro d hd
    simp at hd
  · intro i id hi
    simp at hi

theorem waits_cons_other (w : Int) (c : Call) (l : List Call)
    (hA : ∀ d, c ≠ Call.After d) (hG : ∀ id, c ≠ Call.GetActivations id)
    (h : WaitsBeforeFetches w l) : WaitsBeforeFetches w (c :: l) := by
  constructor
  · intro d hd
    rcases List.mem_cons.1 hd with h1 | h1
    · exact absurd h1.symm (hA d)
    · exact h.1 d h1
  · intro i id hi
    cases i with
    | zero =>
      have hc : c = Call.GetActivations id := by simpa using hi
      exact absurd hc (hG id)
    | succ k =>
      have hk : l[k]? = some (Call.GetActivations id) := by simpa using hi
      obtain ⟨j, hj, hw⟩ := h.2 k id hk
      exact ⟨j + 1, by rw [hj], by simpa using hw⟩

theorem waits_single (w : Int) : WaitsBeforeFetches w [Call.After w] := by
  constructor
  · intro d hd
    have hd2 : Call.After d = Call.After w := by simpa using hd
    exact Call.After.inj hd2
  · intro i id hi
    cases i with
    | zero => simp at hi
    | succ k => simp at hi

theorem waits_pass (w id : Int) (l : List Call) (h : WaitsBeforeFetches w l) :
    WaitsBeforeFetches w (Call.After w :: Call.GetActivations id :: l) := by
  constructor
  · intro d hd
    rcases List.mem_cons.1 hd with h1 | h1
    · exact Call.After.inj h1
    · rcases List.mem_cons.1 h1 with h2 | h2
      · cases h2
      · exact h.1 d h2
  · intro i id2 hi
    cases i with
    | zero => simp at hi
    | succ k =>
      cases k with
      | zero => exact ⟨0, rfl, rfl⟩
      | succ m =>
        have hm : l[m]? = some (Call.GetActivations id2) := by simpa using hi
        obtain ⟨j, hj, hw⟩ := h.2 m id2 hm
        exact ⟨j + 2, by rw [hj], by simpa using hw⟩

theorem waits_append_other (w : Int) (c : Call) (l : List Call)
    (hA : ∀ d, c ≠ Call.After d) (hG : ∀ id, c ≠ Call.GetActivations id)
    (h : WaitsBeforeFetches w l) : WaitsBeforeFetches w (l ++ [c]) := by
  constructor
  · intro d hd
    rcases List.mem_append.1 hd with h1 | h1
    · exact h.1 d h1
    · have hc : Call.After d = c := by simpa using h1
      exact absurd hc.symm (hA d)
  · intro i id hi
    by_cases hlt : i < l.length
    · rw [List.getElem?_append_left hlt] at hi
      obtain ⟨j, hj, hw⟩ := h.2 i id hi
      refine ⟨j, hj, ?_⟩
      rw [List.getElem?_append_left (by omega)]
      exact hw
    · rw [List.getElem?_append_right (by omega)] at hi
      cases hk : i - l.length with
      | zero =>
        rw [hk] at hi
        have hc : c = Call.GetActivations id := by simpa using hi
        exact absurd hc (hG id)
      | succ m =>
        rw [hk] at hi
        simp at hi

theorem pollLoop_waits (t : String) (w id : Int) (a : GetActivationsResponse)
    (events : List PollEvent) : WaitsBeforeFetches w (pollLoop t w id a events).calls := by
  induction events generalizing a with
  | nil =>
    by_cases ha : a.Status = t
    · rw [pollLoop_terminal t w id a [] ha]
      exact waits_nil w
    · rw [pollLoop_nil t w id a ha]
      exact waits_single w
  | cons e rest ih =>
    by_cases ha : a.Status = t
    · rw [pollLoop_terminal t w id a _ ha]
      exact waits_nil w
    · cases e with
      | timer resp =>
        cases resp with
        | error err =>
          rw [pollLoop_timer_error t w id a err rest ha]
          exact waits_pass w id [] (waits_nil w)
        | ok act =>
          rw [pollLoop_timer_ok t w id a act rest ha]
          exact waits_pass w id _ (ih act)
      | done cause =>
        rw [pollLoop_done t w id a cause rest ha]
        exact waits_single w

theorem createAfterSubmit_waits (env : ActivationsEnv) (req : CreateActivationsRequest)
    (postresp : PostResponse) :
    WaitsBeforeFetches (tools.MaxDuration env.ActivationPollInterval ActivationPollMinimum)
      (createAfterSubmit env req postresp).calls := by
  cases hlookup : env.lookup postresp.ActivationID with
  | error err =>
    have hcalls : (createAfterSubmit env req postresp).calls
        = [.CreateActivations req, .lookupActivation postresp.ActivationID] := by
      simp only [createAfterSubmit, hlookup]
    rw [hcalls]
    exact waits_cons_other _ _ _ (fun d => by simp) (fun id => by simp)
      (waits_cons_other _ _ _ (fun d => by simp) (fun id => by simp) (waits_nil _))
  | ok a0 =>
    obtain ⟨more, hmore, hcalls⟩ := createAfterSubmit_calls env req postresp a0 hlookup
    rw [hcalls]
    have hloop := pollLoop_waits env.StatusActive
      (tools.MaxDuration env.ActivationPollInterval ActivationPollMinimum)
      postresp.ActivationID a0 env.events
    have hfront := waits_cons_other _ (Call.CreateActivations req) _ (fun d => by simp)
      (fun id => by simp)
      (waits_cons_other _ (Call.lookupActivation postresp.ActivationID) _ (fun d => by simp)
        (fun id => by simp) hloop)
    rcases hmore with hnil | ⟨x, hx⟩
    · rw [hnil, List.append_nil]
      exact hfront
    · rw [hx]
      exact waits_append_other _ (Call.Read x) _ (fun d => by simp) (fun id => by simp) hfront

theorem deleteAfterSubmit_waits (env : ActivationsEnv) (req : RemoveActivationsRequest)
    (postresp : PostResponse) :
    WaitsBeforeFetches (tools.MaxDuration env.ActivationPollInterval ActivationPollMinimum)
      (deleteAfterSubmit env req postresp).calls := by
  cases hlookup : env.lookup postresp.ActivationID with
  | error err =>
    have hcalls : (deleteAfterSubmit env req postresp).calls
        = [.RemoveActivations req, .lookupActivation postresp.ActivationID] := by
      simp only [deleteAfterSubmit, hlookup]
    rw [hcalls]
    exact waits_cons_other _ _ _ (fun d => by simp) (fun id => by simp)
      (waits_cons_other _ _ _ (fun d => by simp) (fun id => by simp) (waits_nil _))
  | ok a0 =>
    rw [deleteAfterSubmit_calls env req postresp a0 hlookup]
    have hloop := pollLoop_waits env.StatusDeactivated
      (tools.MaxDuration env.ActivationPollInterval ActivationPollMinimum)
      postresp.ActivationID a0 env.events
    exact waits_cons_other _ (Call.RemoveActivations req) _ (fun d => by simp)
      (fun id => by simp)
      (waits_cons_other _ (Call.lookupActivation postresp.ActivationID) _ (fun d => by simp)
        (fun id => by simp) hloop)

theorem create_waits (env : ActivationsEnv) :
    WaitsBeforeFetches (tools.MaxDuration env.ActivationPollInterval ActivationPollMinimum)
      (resourceActivationsCreate env).calls := by
  unfold resourceActivationsCreate
  split
  · exact waits_nil _
  · exact waits_nil _
  · split
    · exact waits_nil _
    · split
      · exact waits_nil _
      · split
        · exact waits_nil _
        · simp only
          split
          · exact waits_cons_other _ _ _ (fun d => by simp) (fun id => by simp) (waits_nil _)
          · exact createAfterSubmit_waits env _ _

theorem delete_waits (env : ActivationsEnv) :
    WaitsBeforeFetches (tools.MaxDuration env.ActivationPollInterval ActivationPollMinimum)
      (resourceActivationsDelete env).calls := by
  unfold resourceActivationsDelete
  split
  · exact waits_nil _
  · exact waits_nil _
  · split
    · exact waits_nil _
    · split
      · exact waits_nil _
      · split
        · exact waits_nil _
        · split
          · exact waits_nil _
          · simp only
            split
            · exact waits_cons_other _ _ _ (fun d => by simp) (fun id => by simp) (waits_nil _)
            · exact deleteAfterSubmit_waits env _ _

theorem maxDuration_ge (x y : Int) :
    y ≤ tools.MaxDuration x y ∧ x ≤ tools.MaxDuration x y
      ∧ (tools.MaxDuration x y = x ∨ tools.MaxDuration x y = y) := by
  unfold tools.MaxDuration
  split
  · exact ⟨by omega, le_refl _, Or.inl rfl⟩
  · exact ⟨le_refl _, by omega, Or.inr rfl⟩

end Appsec

/-- C18: for every value of `ActivationPollInterval`, in every run of create and of
delete each wait armed by the poller lasts
`MaxDuration(ActivationPollInterval, ActivationPollMinimum)`, each polling fetch
comes directly after such a wait, and that duration is the larger of the two
and so at least `ActivationPollMinimum`, one minute. -/
theorem poll_wait_at_least_minimum (env : Appsec.ActivationsEnv) :
    Appsec.ActivationPollMinimum = 60 * 1000000000
      ∧ Appsec.ActivationPollMinimum
          ≤ tools.MaxDuration env.ActivationPollInterval Appsec.ActivationPollMinimum
      ∧ env.ActivationPollInterval
          ≤ tools.MaxDuration env.ActivationPollInterval Appsec.ActivationPollMinimum
      ∧ (tools.MaxDuration env.ActivationPollInterval Appsec.ActivationPollMinimum
            = env.ActivationPollInterval
          ∨ tools.MaxDuration env.ActivationPollInterval Appsec.ActivationPollMinimum
            = Appsec.ActivationPollMinimum)
      ∧ (∀ d, Appsec.Call.After d ∈ (Appsec.resourceActivationsCreate env).calls →
          d = tools.MaxDuration env.ActivationPollInterval Appsec.ActivationPollMinimum)
      ∧ (∀ i id, (Appsec.resourceActivationsCreate env).calls[i]?
            = some (Appsec.Call.GetActivations id) →
          ∃ j, i = j + 1 ∧ (Appsec.resourceActivationsCreate env).calls[j]?
            = some (Appsec.Call.After
                (tools.MaxDuration env.ActivationPollInterval Appsec.ActivationPollMinimum)))
      ∧ (∀ d, Appsec.Call.After d ∈ (Appsec.resourceActivationsDelete env).calls →
          d = tools.MaxDuration env.ActivationPollInterval Appsec.ActivationPollMinimum)
      ∧ (∀ i id, (Appsec.resourceActivationsDelete env).calls[i]?
            = some (Appsec.Call.GetActivations id) →
          ∃ j, i = j + 1 ∧ (Appsec.resourceActivationsDelete env).calls[j]?
            = some (Appsec.Call.After
                (tools.MaxDuration env.ActivationPollInterval Appsec.ActivationPollMinimum))) := by
  have hmax := Appsec.maxDuration_ge env.ActivationPollInterval Appsec.ActivationPollMinimum
  have hc := Appsec.create_waits env
  have hd := Appsec.delete_waits env
  exact ⟨by decide, hmax.1, hmax.2.1, hmax.2.2, hc.1, hc.2, hd.1, hd.2⟩

/-- Witness for C18: the interval is set to 1000 ns; the fetch at position 3 of the
calls of create comes directly after a wait of one minute. -/
theorem poll_wait_at_least_minimum_witness :
    ∃ j, 3 = j + 1 ∧
      (Appsec.resourceActivationsCreate
        (Appsec.ActivationsEnv.sample "PENDING" (.ok ⟨7, "IN_PROGRESS"⟩)
          [.timer (.ok ⟨7, "ACTIVE"⟩)])).calls[j]?
        = some (Appsec.Call.After 60000000000) :=
  (poll_wait_at_least_minimum
      (Appsec.ActivationsEnv.sample "PENDING" (.ok ⟨7, "IN_PROGRESS"⟩)
        [.timer (.ok ⟨7, "ACTIVE"⟩)])).2.2.2.2.2.1 3 7 (by decide)

/-! ## Two fetched edge hostnames with the declared pair -/

/-- C11, as stated, fails: `ehn_2` and `ehn_3` both carry the declared pair and
`ehn_3` has the larger index, yet the resource id is `ehn_2`. -/
theorem create_lookup_not_last :
    (Property.resourceSecureEdgeHostNameCreate
        (Property.CreateEnv.sample "www.example.com.edgesuite.net"
          [⟨"ehn_2", "www.example.com.edgesuite.net", "www.example.com", "edgesuite.net"⟩,
            ⟨"ehn_3", "www.example.com.edgesuite.net", "www.example.com",
              "edgesuite.net"⟩])).id = some "ehn_2"
    ∧ (Property.resourceSecureEdgeHostNameCreate
        (Property.CreateEnv.sample "www.example.com.edgesuite.net"
          [⟨"ehn_2", "www.example.com.edgesuite.net", "www.example.com", "edgesuite.net"⟩,
            ⟨"ehn_3", "www.example.com.edgesuite.net", "www.example.com",
              "edgesuite.net"⟩])).id ≠ some "ehn_3" := by
  decide

/-- C11, amended: when two items of the fetched collection carry the derived
`DomainPrefix` and `DomainSuffix`, the lookup returns the `ID` of the one with
the smaller index, provided no item before it carries the pair; the later one
is never reached. -/
theorem create_lookup_two_matches (env : Property.CreateEnv)
    (groupID contractID productID edgeHostname : String)
    (pre : List Property.EdgeHostnameGetItem) (x : Property.EdgeHostnameGetItem)
    (mid : List Property.EdgeHostnameGetItem) (y : Property.EdgeHostnameGetItem)
    (post : List Property.EdgeHostnameGetItem)
    (hg : env.getGroup = .ok groupID) (hc : env.getContract = .ok contractID)
    (hp : env.getProduct contractID = .ok productID)
    (hi : env.GetEdgeHostnames contractID groupID = .ok (pre ++ x :: (mid ++ y :: post)))
    (he : env.edge_hostname = .ok edgeHostname)
    (hpre : ∀ z ∈ pre,
      ¬ (z.DomainPrefix = (Property.deriveHostname productID edgeHostname).DomainPrefix
          ∧ z.DomainSuffix = (Property.deriveHostname productID edgeHostname).DomainSuffix))
    (hx : x.DomainPrefix = (Property.deriveHostname productID edgeHostname).DomainPrefix
      ∧ x.DomainSuffix = (Property.deriveHostname productID edgeHostname).DomainSuffix)
    (_hy : y.DomainPrefix = (Property.deriveHostname productID edgeHostname).DomainPrefix
      ∧ y.DomainSuffix = (Property.deriveHostname productID edgeHostname).DomainSuffix) :
    Property.resourceSecureEdgeHostNameCreate env = { id := some x.ID }
      ∧ (x.ID ≠ y.ID → (Property.resourceSecureEdgeHostNameCreate env).id ≠ some y.ID) := by
  have hl := Property.lookupExisting_first _ pre x (mid ++ y :: post) hpre hx
  have hrun : Property.resourceSecureEdgeHostNameCreate env = { id := some x.ID } := by
    rw [Property.create_unfold env groupID contractID productID edgeHostname _ hg hc hp hi he, hl]
  refine ⟨hrun, ?_⟩
  intro hne hid
  rw [hrun] at hid
  exact hne (Option.some.inj hid)

/-- Witness for C11 (amended): of `ehn_2` and `ehn_3`, the id `ehn_2` is taken. -/
theorem create_lookup_two_matches_witness :
    Property.resourceSecureEdgeHostNameCreate
        (Property.CreateEnv.sample "www.example.com.edgesuite.net"
          (([⟨"ehn_1", "a.edgesuite.net", "a", "edgesuite.net"⟩] :
              List Property.EdgeHostnameGetItem)
            ++ ⟨"ehn_2", "www.example.com.edgesuite.net", "www.example.com", "edgesuite.net"⟩
              :: ([] ++ ⟨"ehn_3", "www.example.com.edgesuite.net", "www.example.com",
                    "edgesuite.net"⟩ :: [])))
      = { id := some "ehn_2" } :=
  (create_lookup_two_matches
    (Property.CreateEnv.sample "www.example.com.edgesuite.net"
      (([⟨"ehn_1", "a.edgesuite.net", "a", "edgesuite.net"⟩] :
          List Property.EdgeHostnameGetItem)
        ++ ⟨"ehn_2", "www.example.com.edgesuite.net", "www.example.com", "edgesuite.net"⟩
          :: ([] ++ ⟨"ehn_3", "www.example.com.edgesuite.net", "www.example.com",
                "edgesuite.net"⟩ :: [])))
    "grp_1" "ctr_1" "prd_1" "www.example.com.edgesuite.net"
    [⟨"ehn_1", "a.edgesuite.net", "a", "edgesuite.net"⟩]
    ⟨"ehn_2", "www.example.com.edgesuite.net", "www.example.com", "edgesuite.net"⟩
    []
    ⟨"ehn_3", "www.example.com.edgesuite.net", "www.example.com", "edgesuite.net"⟩
    []
    (by rfl) (by rfl) (by rfl) (by rfl) (by rfl) (by decide) (by decide) (by decide)).1

/-! ## The AS map operations: denied submissions and the convergence wait -/

namespace fmt

/-- A format without `%` is copied as it is. -/
theorem Errorf_of_no_percent (format : String) (h : '%' ∉ format.data) :
    Errorf format = format := by
  have hall : ∀ c ∈ format.data, (decide (c ≠ '%')) = true := by
    intro c hc
    have hne : c ≠ '%' := fun heq => h (heq ▸ hc)
    simpa using hne
  have hd : format.data.dropWhile (fun c => decide (c ≠ '%')) = [] := by
    rw [List.dropWhile_eq_nil_iff]
    exact hall
  have ht : format.data.takeWhile (fun c => decide (c ≠ '%')) = format.data := by
    rw [List.takeWhile_eq_self_iff]
    exact hall
  unfold Errorf
  rw [doPrintf, hd]
  simp only [ht]

end fmt

/-- C19, at the failing input: a delete, an update and a create are each answered
`DENIED` with the message `quota at 100%`. The message is handed to
`fmt.Errorf` as its format, so the text of the returned error is
`quota at 100%!(NOVERB)`, not the message. -/
theorem asmap_denied_message_reformatted :
    (Gtm.resourceGTMv1ASmapCreate (Gtm.GtmApi.sample ⟨"DENIED", "quota at 100%"⟩ (true, none))
        (Gtm.ResourceData.sample true)).outcome
      = .returned (some "quota at 100%!(NOVERB)")
    ∧ (Gtm.resourceGTMv1ASmapUpdate (Gtm.GtmApi.sample ⟨"DENIED", "quota at 100%"⟩ (true, none))
        (Gtm.ResourceData.sample true)).outcome
      = .returned (some "quota at 100%!(NOVERB)")
    ∧ (Gtm.resourceGTMv1ASmapDelete (Gtm.GtmApi.sample ⟨"DENIED", "quota at 100%"⟩ (true, none))
        (Gtm.ResourceData.sample true)).outcome
      = .returned (some "quota at 100%!(NOVERB)")
    ∧ fmt.Errorf "quota at 100%" ≠ "quota at 100%" := by
  decide

namespace Gtm

theorem read_waited (api : GtmApi) (d : ResourceData) (waited : List String) (id : String) :
    (resourceGTMv1ASmapRead api d waited id).waited = waited := by
  unfold resourceGTMv1ASmapRead
  split
  · rfl
  · split
    · rfl
    · simp only
      split <;> rfl

theorem create_opted_out (api : GtmApi) (d : ResourceData) (hwait : d.wait_on_complete = false) :
    resourceGTMv1ASmapCreate api d
      = match validateDefaultDC api d.default_datacenter d.domain with
        | some err => { outcome := .returned (some err) }
        | none =>
          match api.Create (populateNewASmapObject d) d.domain with
          | .error text => { outcome := .returned (some text) }
          | .ok cStatus =>
            if cStatus.Status.PropagationStatus = "DENIED" then
              { outcome := .returned (some (fmt.Errorf cStatus.Status.Message)) }
            else resourceGTMv1ASmapRead api d [] (d.domain ++ ":" ++ cStatus.Resource.Name) := by
  simp only [resourceGTMv1ASmapCreate, hwait, Bool.false_eq_true, if_false]

theorem update_opted_out (api : GtmApi) (d : ResourceData) (hwait : d.wait_on_complete = false) :
    resourceGTMv1ASmapUpdate api d
      = match api.parseResourceStringId d.Id with
        | .error _ => { outcome := .returned (some "invalid asMap Id") }
        | .ok (domain, asMap) =>
          match api.GetAsMap asMap domain with
          | .error text => { outcome := .returned (some text) }
          | .ok existAs =>
            match api.Update (populateASmapObject d existAs) domain with
            | .error text => { outcome := .returned (some text) }
            | .ok uStat =>
              if uStat.PropagationStatus = "DENIED" then
                { outcome := .returned (some (fmt.Errorf uStat.Message)) }
              else resourceGTMv1ASmapRead api d [] d.Id := by
  simp only [resourceGTMv1ASmapUpdate, hwait, Bool.false_eq_true, if_false]

theorem delete_opted_out (api : GtmApi) (d : ResourceData) (hwait : d.wait_on_complete = false) :
    resourceGTMv1ASmapDelete api d
      = match api.parseResourceStringId d.Id with
        | .error _ => { outcome := .returned (some "invalid asMap Id") }
        | .ok (domain, asMap) =>
          match api.GetAsMap asMap domain with
          | .error text => { outcome := .returned (some text) }
          | .ok existAs =>
            match api.Delete existAs domain with
            | .error text => { outcome := .returned (some text) }
            | .ok uStat =>
              if uStat.PropagationStatus = "DENIED" then
                { outcome := .returned (some (fmt.Errorf uStat.Message)) }
              else { outcome := .returned none, id := some "" } := by
  simp only [resourceGTMv1ASmapDelete, hwait, Bool.false_eq_true, if_false]

end Gtm

/-- C20: with `wait_on_complete` false, create, update and delete never call
`waitForCompletion`, and what they do is the same whatever `waitForCompletion`
would have answered. An accepted submission (not `DENIED`) is followed directly
by the final read in create and update, and by `nil` in delete. -/
theorem asmap_no_wait_when_opted_out (api : Gtm.GtmApi) (d : Gtm.ResourceData)
    (hwait : d.wait_on_complete = false) :
    ((Gtm.resourceGTMv1ASmapCreate api d).waited = []
        ∧ (Gtm.resourceGTMv1ASmapUpdate api d).waited = []
        ∧ (Gtm.resourceGTMv1ASmapDelete api d).waited = [])
      ∧ (∀ w : String → Bool × Option String,
          Gtm.resourceGTMv1ASmapCreate { api with waitForCompletion := w } d
              = Gtm.resourceGTMv1ASmapCreate api d
            ∧ Gtm.resourceGTMv1ASmapUpdate { api with waitForCompletion := w } d
              = Gtm.resourceGTMv1ASmapUpdate api d
            ∧ Gtm.resourceGTMv1ASmapDelete { api with waitForCompletion := w } d
              = Gtm.resourceGTMv1ASmapDelete api d)
      ∧ (∀ cStatus, Gtm.validateDefaultDC api d.default_datacenter d.domain = none →
          api.Create (Gtm.populateNewASmapObject d) d.domain = .ok cStatus →
          cStatus.Status.PropagationStatus ≠ "DENIED" →
          Gtm.resourceGTMv1ASmapCreate api d
            = Gtm.resourceGTMv1ASmapRead api d [] (d.domain ++ ":" ++ cStatus.Resource.Name))
      ∧ (∀ domain asMap existAs uStat, api.parseResourceStringId d.Id = .ok (domain, asMap) →
          api.GetAsMap asMap domain = .ok existAs →
          api.Update (Gtm.populateASmapObject d existAs) domain = .ok uStat →
          uStat.PropagationStatus ≠ "DENIED" →
          Gtm.resourceGTMv1ASmapUpdate api d = Gtm.resourceGTMv1ASmapRead api d [] d.Id)
      ∧ (∀ domain asMap existAs uStat, api.parseResourceStringId d.Id = .ok (domain, asMap) →
          api.GetAsMap asMap domain = .ok existAs →
          api.Delete existAs domain = .ok uStat →
          uStat.PropagationStatus ≠ "DENIED" →
          Gtm.resourceGTMv1ASmapDelete api d = { outcome := .returned none, id := some "" }) := by
  refine ⟨⟨?_, ?_, ?_⟩, ?_, ?_, ?_, ?_⟩
  · rw [Gtm.create_opted_out api d hwait]
    split
    · rfl
    · split
      · rfl
      · split
        · rfl
        · exact Gtm.read_waited _ _ _ _
  · rw [Gtm.update_opted_out api d hwait]
    split
    · rfl
    · split
      · rfl
      · split
        · rfl
        · split
          · rfl
          · exact Gtm.read_waited _ _ _ _
  · rw [Gtm.delete_opted_out api d hwait]
    split
    · rfl
    · split
      · rfl
      · split
        · rfl
        · split <;> rfl
  · intro w
    refine ⟨?_, ?_, ?_⟩
    · rw [Gtm.create_opted_out api d hwait, Gtm.create_opted_out _ d hwait]
      rfl
    · rw [Gtm.update_opted_out api d hwait, Gtm.update_opted_out _ d hwait]
      rfl
    · rw [Gtm.delete_opted_out api d hwait, Gtm.delete_opted_out _ d hwait]
  · intro cStatus hv hcreate hden
    rw [Gtm.create_opted_out api d hwait]
    simp only [hv, hcreate, hden, if_false]
  · intro domain asMap existAs uStat hparse hget hupd hden
    rw [Gtm.update_opted_out api d hwait]
    simp only [hparse, hget, hupd, hden, if_false]
  · intro domain asMap existAs uStat hparse hget hdel hden
    rw [Gtm.delete_opted_out api d hwait]
    simp only [hparse, hget, hdel, hden, if_false]

/-- Witness for C20: the sample map is created without waiting although
`waitForCompletion` would have failed with `timeout`. -/
theorem asmap_no_wait_when_opted_out_witness :
    (Gtm.resourceGTMv1ASmapCreate (Gtm.GtmApi.sample ⟨"PENDING", ""⟩ (false, some "timeout"))
        (Gtm.ResourceData.sample false)).waited = []
      ∧ (Gtm.resourceGTMv1ASmapUpdate (Gtm.GtmApi.sample ⟨"PENDING", ""⟩ (false, some "timeout"))
        (Gtm.ResourceData.sample false)).waited = []
      ∧ (Gtm.resourceGTMv1ASmapDelete (Gtm.GtmApi.sample ⟨"PENDING", ""⟩ (false, some "timeout"))
        (Gtm.ResourceData.sample false)).waited = [] :=
  (asmap_no_wait_when_opted_out (Gtm.GtmApi.sample ⟨"PENDING", ""⟩ (false, some "timeout"))
    (Gtm.ResourceData.sample false) (by rfl)).1

/-! ## The key derived from the declared edge hostname -/

namespace strings

theorem HasSuffix_iff (s suffix : String) :
    HasSuffix s suffix = true ↔ suffix.data <:+ s.data := by
  simp [HasSuffix]

theorem TrimSuffix_append (s suffix : String) (h : HasSuffix s suffix = true) :
    TrimSuffix s suffix ++ suffix = s := by
  have hsuf := (HasSuffix_iff s suffix).1 h
  apply String.ext
  rw [String.data_append, TrimSuffix, if_pos h]
  exact List.suffix_iff_eq_append.1 hsuf

theorem TrimSuffix_of_not (s suffix : String) (h : HasSuffix s suffix = false) :
    TrimSuffix s suffix = s := by
  simp [TrimSuffix, h]

/-- Of two suffixes of one string the shorter is a suffix of the longer. -/
theorem suffix_of_both (s a b : String) (ha : HasSuffix s a = true)
    (hb : HasSuffix s b = true) (hlen : a.data.length ≤ b.data.length) :
    a.data <:+ b.data :=
  List.suffix_of_suffix_length_le ((HasSuffix_iff s a).1 ha) ((HasSuffix_iff s b).1 hb) hlen

end strings

namespace Property

theorem not_edgesuite_of_edgekey (h : String)
    (hk : strings.HasSuffix h ".edgekey.net" = true) :
    strings.HasSuffix h ".edgesuite.net" = false := by
  cases hs : strings.HasSuffix h ".edgesuite.net" with
  | false => rfl
  | true =>
    exfalso
    have hsub := strings.suffix_of_both h ".edgekey.net" ".edgesuite.net" hk hs (by decide)
    revert hsub
    decide

theorem not_edgesuite_of_akamaized (h : String)
    (ha : strings.HasSuffix h ".akamaized.net" = true) :
    strings.HasSuffix h ".edgesuite.net" = false := by
  cases hs : strings.HasSuffix h ".edgesuite.net" with
  | false => rfl
  | true =>
    exfalso
    have hsub := strings.suffix_of_both h ".akamaized.net" ".edgesuite.net" ha hs (by decide)
    revert hsub
    decide

theorem not_edgekey_of_akamaized (h : String)
    (ha : strings.HasSuffix h ".akamaized.net" = true) :
    strings.HasSuffix h ".edgekey.net" = false := by
  cases hk : strings.HasSuffix h ".edgekey.net" with
  | false => rfl
  | true =>
    exfalso
    have hsub := strings.suffix_of_both h ".edgekey.net" ".akamaized.net" hk ha (by decide)
    revert hsub
    decide

theorem derive_edgesuite (p h : String) (hs : strings.HasSuffix h ".edgesuite.net" = true) :
    deriveHostname p h
      = { ProductID := p
          DomainPrefix := strings.TrimSuffix h ".edgesuite.net"
          DomainSuffix := "edgesuite.net"
          SecureNetwork := "STANDARD_TLS" } := by
  have hdot : ("." ++ "edgesuite.net" : String) = ".edgesuite.net" := by decide
  have hne : ("edgesuite.net" : String) ≠ "" := by decide
  simp only [deriveHostname, hs, if_true, hne, false_and, if_false]
  split
  · rename_i hcond
    rw [hdot]
  · rfl

theorem derive_edgekey (p h : String) (hk : strings.HasSuffix h ".edgekey.net" = true) :
    deriveHostname p h
      = { ProductID := p
          DomainPrefix := strings.TrimSuffix h ".edgekey.net"
          DomainSuffix := "edgekey.net"
          SecureNetwork := "ENHANCED_TLS" } := by
  have hdot : ("." ++ "edgekey.net" : String) = ".edgekey.net" := by decide
  have hne : ("edgekey.net" : String) ≠ "" := by decide
  have hs := not_edgesuite_of_edgekey h hk
  simp only [deriveHostname, hs, hk, if_true, hne, false_and, if_false, Bool.false_eq_true]
  split
  · rename_i hcond
    rw [hdot]
  · rfl

theorem derive_akamaized (p h : String) (ha : strings.HasSuffix h ".akamaized.net" = true) :
    deriveHostname p h
      = { ProductID := p
          DomainPrefix := strings.TrimSuffix h ".akamaized.net"
          DomainSuffix := "akamaized.net"
          SecureNetwork := "SHARED_CERT" } := by
  have hdot : ("." ++ "akamaized.net" : String) = ".akamaized.net" := by decide
  have hne : ("akamaized.net" : String) ≠ "" := by decide
  have hs := not_edgesuite_of_akamaized h ha
  have hk := not_edgekey_of_akamaized h ha
  simp only [deriveHostname, hs, hk, ha, if_true, hne, false_and, if_false, Bool.false_eq_true]
  split
  · rename_i hcond
    rw [hdot]
  · rfl

end Property

namespace Property

theorem derive_other (p h : String) (hne : h ≠ "")
    (h1 : strings.HasSuffix h ".edgesuite.net" = false)
    (h2 : strings.HasSuffix h ".edgekey.net" = false)
    (h3 : strings.HasSuffix h ".akamaized.net" = false) :
    deriveHostname p h
      = { ProductID := p
          DomainPrefix := h
          DomainSuffix :=
            if strings.HasSuffix h "edgekey.net" then "edgekey.net" else "edgesuite.net"
          SecureNetwork := "" } := by
  have hdotk : ("." ++ "edgekey.net" : String) = ".edgekey.net" := by decide
  have hdots : ("." ++ "edgesuite.net" : String) = ".edgesuite.net" := by decide
  simp only [deriveHostname, h1, h2, h3, Bool.false_eq_true, if_false, hne, ne_eq,
    not_false_eq_true, and_self, if_true]
  cases hk : strings.HasSuffix h "edgekey.net" with
  | true =>
    simp only [if_true, hdotk, strings.TrimSuffix_of_not h _ h2]
  | false =>
    simp only [Bool.false_eq_true, if_false, hdots, strings.TrimSuffix_of_not h _ h1]

theorem derive_secure_of_none (p h : String)
    (h1 : strings.HasSuffix h ".edgesuite.net" = false)
    (h2 : strings.HasSuffix h ".edgekey.net" = false)
    (h3 : strings.HasSuffix h ".akamaized.net" = false) :
    (deriveHostname p h).SecureNetwork = "" := by
  simp only [deriveHostname, h1, h2, h3, Bool.false_eq_true, if_false]
  split_ifs <;> rfl

theorem derive_ip_empty (p h : String) : (deriveHostname p h).IPVersionBehavior = "" := by
  simp only [deriveHostname]
  split_ifs <;> rfl

theorem secure_enhanced_iff (p h : String) :
    (deriveHostname p h).SecureNetwork = "ENHANCED_TLS"
      ↔ strings.HasSuffix h ".edgekey.net" = true := by
  constructor
  · intro hsec
    cases hk : strings.HasSuffix h ".edgekey.net" with
    | true => rfl
    | false =>
      exfalso
      cases hs : strings.HasSuffix h ".edgesuite.net" with
      | true =>
        rw [derive_edgesuite p h hs] at hsec
        have hsec2 : ("STANDARD_TLS" : String) = "ENHANCED_TLS" := hsec
        revert hsec2
        decide
      | false =>
        cases ha : strings.HasSuffix h ".akamaized.net" with
        | true =>
          rw [derive_akamaized p h ha] at hsec
          have hsec2 : ("SHARED_CERT" : String) = "ENHANCED_TLS" := hsec
          revert hsec2
          decide
        | false =>
          rw [derive_secure_of_none p h hs hk ha] at hsec
          revert hsec
          decide
  · intro hk
    rw [derive_edgekey p h hk]

end Property

/-- C21: for a declared `edge_hostname` that ends in `.edgesuite.net`,
`.edgekey.net` or `.akamaized.net`, the derived `DomainPrefix`, a dot and the
derived `DomainSuffix` spell the hostname again, `DomainSuffix` is the matched
suffix without its dot, and `SecureNetwork` is `STANDARD_TLS`, `ENHANCED_TLS`
or `SHARED_CERT` respectively. -/
theorem derive_known_suffix (productID edgeHostname : String) :
    (strings.HasSuffix edgeHostname ".edgesuite.net" = true →
        (Property.deriveHostname productID edgeHostname).DomainPrefix ++ "."
            ++ (Property.deriveHostname productID edgeHostname).DomainSuffix = edgeHostname
          ∧ (Property.deriveHostname productID edgeHostname).DomainSuffix = "edgesuite.net"
          ∧ (Property.deriveHostname productID edgeHostname).SecureNetwork = "STANDARD_TLS")
      ∧ (strings.HasSuffix edgeHostname ".edgekey.net" = true →
        (Property.deriveHostname productID edgeHostname).DomainPrefix ++ "."
            ++ (Property.deriveHostname productID edgeHostname).DomainSuffix = edgeHostname
          ∧ (Property.deriveHostname productID edgeHostname).DomainSuffix = "edgekey.net"
          ∧ (Property.deriveHostname productID edgeHostname).SecureNetwork = "ENHANCED_TLS")
      ∧ (strings.HasSuffix edgeHostname ".akamaized.net" = true →
        (Property.deriveHostname productID edgeHostname).DomainPrefix ++ "."
            ++ (Property.deriveHostname productID edgeHostname).DomainSuffix = edgeHostname
          ∧ (Property.deriveHostname productID edgeHostname).DomainSuffix = "akamaized.net"
          ∧ (Property.deriveHostname productID edgeHostname).SecureNetwork = "SHARED_CERT") := by
  refine ⟨?_, ?_, ?_⟩
  · intro hs
    rw [Property.derive_edgesuite productID edgeHostname hs]
    refine ⟨?_, rfl, rfl⟩
    have hdot : ("." ++ "edgesuite.net" : String) = ".edgesuite.net" := by decide
    show strings.TrimSuffix edgeHostname ".edgesuite.net" ++ "." ++ "edgesuite.net" = edgeHostname
    rw [String.append_assoc, hdot]
    exact strings.TrimSuffix_append edgeHostname ".edgesuite.net" hs
  · intro hk
    rw [Property.derive_edgekey productID edgeHostname hk]
    refine ⟨?_, rfl, rfl⟩
    have hdot : ("." ++ "edgekey.net" : String) = ".edgekey.net" := by decide
    show strings.TrimSuffix edgeHostname ".edgekey.net" ++ "." ++ "edgekey.net" = edgeHostname
    rw [String.append_assoc, hdot]
    exact strings.TrimSuffix_append edgeHostname ".edgekey.net" hk
  · intro ha
    rw [Property.derive_akamaized productID edgeHostname ha]
    refine ⟨?_, rfl, rfl⟩
    have hdot : ("." ++ "akamaized.net" : String) = ".akamaized.net" := by decide
    show strings.TrimSuffix edgeHostname ".akamaized.net" ++ "." ++ "akamaized.net"
      = edgeHostname
    rw [String.append_assoc, hdot]
    exact strings.TrimSuffix_append edgeHostname ".akamaized.net" ha

/-- Witness for C21: `www.example.com.edgekey.net` gives the prefix
`www.example.com`, the suffix `edgekey.net` and `ENHANCED_TLS`. -/
theorem derive_known_suffix_witness :
    (Property.deriveHostname "prd_1" "www.example.com.edgekey.net").DomainPrefix ++ "."
        ++ (Property.deriveHostname "prd_1" "www.example.com.edgekey.net").DomainSuffix
        = "www.example.com.edgekey.net"
      ∧ (Property.deriveHostname "prd_1" "www.example.com.edgekey.net").DomainSuffix
        = "edgekey.net"
      ∧ (Property.deriveHostname "prd_1" "www.example.com.edgekey.net").SecureNetwork
        = "ENHANCED_TLS" :=
  (derive_known_suffix "prd_1" "www.example.com.edgekey.net").2.1 (by decide)

/-- C22: for a non-empty declared `edge_hostname` that ends in none of
`.edgesuite.net`, `.edgekey.net` and `.akamaized.net`, the derived `DomainSuffix`
is `edgekey.net` if the hostname ends in `edgekey.net` and `edgesuite.net`
otherwise, the derived `DomainPrefix` is the whole hostname, and `SecureNetwork`
stays empty. -/
theorem derive_unknown_suffix (productID edgeHostname : String)
    (hne : edgeHostname ≠ "")
    (h1 : strings.HasSuffix edgeHostname ".edgesuite.net" = false)
    (h2 : strings.HasSuffix edgeHostname ".edgekey.net" = false)
    (h3 : strings.HasSuffix edgeHostname ".akamaized.net" = false) :
    (Property.deriveHostname productID edgeHostname).DomainSuffix
        = (if strings.HasSuffix edgeHostname "edgekey.net" then "edgekey.net"
            else "edgesuite.net")
      ∧ (Property.deriveHostname productID edgeHostname).DomainPrefix = edgeHostname
      ∧ (Property.deriveHostname productID edgeHostname).SecureNetwork = "" := by
  rw [Property.derive_other productID edgeHostname hne h1 h2 h3]
  exact ⟨rfl, rfl, rfl⟩

/-- Witness for C22: `fooedgekey.net` ends in `edgekey.net` but not in
`.edgekey.net`. -/
theorem derive_unknown_suffix_witness :
    (Property.deriveHostname "prd_1" "fooedgekey.net").DomainSuffix
        = (if strings.HasSuffix "fooedgekey.net" "edgekey.net" then "edgekey.net"
            else "edgesuite.net")
      ∧ (Property.deriveHostname "prd_1" "fooedgekey.net").DomainPrefix = "fooedgekey.net"
      ∧ (Property.deriveHostname "prd_1" "fooedgekey.net").SecureNetwork = "" :=
  derive_unknown_suffix "prd_1" "fooedgekey.net" (by decide) (by decide) (by decide)
    (by decide)

/-! ## The creation request of `resourceSecureEdgeHostNameCreate` -/

namespace Property

theorem createNew_neither (env : CreateEnv) (contractID groupID : String)
    (n : EdgeHostnameCreate) (h4 : env.ipv4 = false) (h6 : env.ipv6 = false) :
    createNew env contractID groupID n
      = { diags := some
            (.other "ipv4 or ipv6 must be specified to create a new Edge Hostname") } := by
  simp [createNew, h4, h6]

/-- The only request `createNew` can send. -/
theorem createNew_requests (env : CreateEnv) (contractID groupID : String)
    (n : EdgeHostnameCreate) :
    (createNew env contractID groupID n).requests = []
      ∨ (createNew env contractID groupID n).requests
          = [{ EdgeHostname :=
                { n with
                  IPVersionBehavior := ipVersionBehavior env.ipv4 env.ipv6 n.IPVersionBehavior
                  CertEnrollmentID := env.certificate.1
                  SlotNumber := env.certificate.1 }
               ContractID := contractID
               GroupID := groupID }] := by
  unfold createNew
  simp only
  split
  · exact Or.inl rfl
  · split
    · exact Or.inl rfl
    · split
      · exact Or.inl rfl
      · split
        · exact Or.inr rfl
        · exact Or.inr rfl

theorem createNew_sent (env : CreateEnv) (contractID groupID : String)
    (n : EdgeHostnameCreate) (hflag : env.ipv4 = true ∨ env.ipv6 = true)
    (hset : ∀ v, env.setIpBehavior v = none)
    (hcert : env.certificate.2 = none
      ∨ (env.certificate.2 = some GoError.ErrNotFound ∧ n.SecureNetwork ≠ "ENHANCED_TLS")) :
    (createNew env contractID groupID n).requests
      = [{ EdgeHostname :=
            { n with
              IPVersionBehavior := ipVersionBehavior env.ipv4 env.ipv6 n.IPVersionBehavior
              CertEnrollmentID := env.certificate.1
              SlotNumber := env.certificate.1 }
           ContractID := contractID
           GroupID := groupID }] := by
  have hor : (!(env.ipv4 || env.ipv6)) = false := by
    rcases hflag with h | h <;> simp [h]
  unfold createNew
  simp only [hor, hset, Bool.false_eq_true, if_false]
  rcases hcert with hc | ⟨hc, hsec⟩
  · simp only [hc]
    split <;> rfl
  · simp only [hc, hsec, if_false]
    split <;> rfl

theorem createNew_certificate_missing (env : CreateEnv) (contractID groupID : String)
    (n : EdgeHostnameCreate) (hflag : env.ipv4 = true ∨ env.ipv6 = true)
    (hset : ∀ v, env.setIpBehavior v = none)
    (hcert : env.certificate.2 = some GoError.ErrNotFound)
    (hsec : n.SecureNetwork = "ENHANCED_TLS") :
    createNew env contractID groupID n
      = { diags := some (.other ("A certificate enrollment ID is required for Enhanced TLS "
            ++ "(edgekey.net) edge hostnames"))
          ip_behavior := some (ipVersionBehavior env.ipv4 env.ipv6 n.IPVersionBehavior) } := by
  have hor : (!(env.ipv4 || env.ipv6)) = false := by
    rcases hflag with h | h <;> simp [h]
  unfold createNew
  simp only [hor, hset, hcert, hsec, Bool.false_eq_true, if_false, if_true]

theorem create_of_no_match (env : CreateEnv)
    (groupID contractID productID edgeHostname : String) (items : List EdgeHostnameGetItem)
    (hg : env.getGroup = .ok groupID) (hc : env.getContract = .ok contractID)
    (hp : env.getProduct contractID = .ok productID)
    (hi : env.GetEdgeHostnames contractID groupID = .ok items)
    (he : env.edge_hostname = .ok edgeHostname)
    (hnone : ∀ x ∈ items,
      ¬ (x.DomainPrefix = (deriveHostname productID edgeHostname).DomainPrefix
          ∧ x.DomainSuffix = (deriveHostname productID edgeHostname).DomainSuffix)) :
    resourceSecureEdgeHostNameCreate env
      = createNew env contractID groupID (deriveHostname productID edgeHostname) := by
  rw [create_unfold env groupID contractID productID edgeHostname items hg hc hp hi he,
    (lookupExisting_eq_none_iff _ _).2 hnone]

end Property

/-- C23: when no fetched item matches, a request that is sent carries `IPV4` for
(ipv4, not ipv6), `IPV6` for (ipv6, not ipv4) and `IPV6_COMPLIANCE` for both;
with neither flag create returns an error, sets no id and sends no request. When
a flag is set, `ip_behavior` is stored and a certificate is configured, the
request is sent. -/
theorem create_ip_version_behaviour (env : Property.CreateEnv)
    (groupID contractID productID edgeHostname : String)
    (items : List Property.EdgeHostnameGetItem)
    (hg : env.getGroup = .ok groupID) (hc : env.getContract = .ok contractID)
    (hp : env.getProduct contractID = .ok productID)
    (hi : env.GetEdgeHostnames contractID groupID = .ok items)
    (he : env.edge_hostname = .ok edgeHostname)
    (hnone : ∀ x ∈ items,
      ¬ (x.DomainPrefix = (Property.deriveHostname productID edgeHostname).DomainPrefix
          ∧ x.DomainSuffix = (Property.deriveHostname productID edgeHostname).DomainSuffix)) :
    (env.ipv4 = true → env.ipv6 = false →
        ∀ request ∈ (Property.resourceSecureEdgeHostNameCreate env).requests,
          request.EdgeHostname.IPVersionBehavior = "IPV4")
      ∧ (env.ipv4 = false → env.ipv6 = true →
        ∀ request ∈ (Property.resourceSecureEdgeHostNameCreate env).requests,
          request.EdgeHostname.IPVersionBehavior = "IPV6")
      ∧ (env.ipv4 = true → env.ipv6 = true →
        ∀ request ∈ (Property.resourceSecureEdgeHostNameCreate env).requests,
          request.EdgeHostname.IPVersionBehavior = "IPV6_COMPLIANCE")
      ∧ (env.ipv4 = false → env.ipv6 = false →
        Property.resourceSecureEdgeHostNameCreate env
          = { diags := some
                (.other "ipv4 or ipv6 must be specified to create a new Edge Hostname") })
      ∧ ((env.ipv4 = true ∨ env.ipv6 = true) → (∀ v, env.setIpBehavior v = none) →
        env.certificate.2 = none →
        ∃ request, (Property.resourceSecureEdgeHostNameCreate env).requests = [request]) := by
  have hrun := Property.create_of_no_match env groupID contractID productID edgeHostname items
    hg hc hp hi he hnone
  have hreq := Property.createNew_requests env contractID groupID
    (Property.deriveHostname productID edgeHostname)
  rw [← hrun] at hreq
  have hvalue : ∀ (v : String), (Property.ipVersionBehavior env.ipv4 env.ipv6
      (Property.deriveHostname productID edgeHostname).IPVersionBehavior = v) →
      ∀ request ∈ (Property.resourceSecureEdgeHostNameCreate env).requests,
        request.EdgeHostname.IPVersionBehavior = v := by
    intro v hv request hmem
    rcases hreq with hnil | hone
    · rw [hnil] at hmem
      simp at hmem
    · rw [hone] at hmem
      have hr := List.mem_singleton.1 hmem
      rw [hr]
      exact hv
  refine ⟨?_, ?_, ?_, ?_, ?_⟩
  · intro h4 h6
    exact hvalue "IPV4" (by simp [Property.ipVersionBehavior, h4, h6])
  · intro h4 h6
    exact hvalue "IPV6" (by simp [Property.ipVersionBehavior, h4, h6])
  · intro h4 h6
    exact hvalue "IPV6_COMPLIANCE" (by simp [Property.ipVersionBehavior, h4, h6])
  · intro h4 h6
    rw [hrun]
    exact Property.createNew_neither env contractID groupID _ h4 h6
  · intro hflag hset hcert
    rw [hrun]
    exact ⟨_, Property.createNew_sent env contractID groupID _ hflag hset (Or.inl hcert)⟩

/-- Witness for C23: with ipv4 alone the request sent for
`www.example.com.edgesuite.net` carries `IPV4`. -/
theorem create_ip_version_behaviour_witness :
    (⟨⟨"prd_1", "www.example.com", "edgesuite.net", "STANDARD_TLS", "IPV4", 0, 0⟩,
        "ctr_1", "grp_1"⟩ : Property.CreateEdgeHostnameRequest)
      ∈ (Property.resourceSecureEdgeHostNameCreate
          (Property.CreateEnv.sample "www.example.com.edgesuite.net" [])).requests
    ∧ (⟨⟨"prd_1", "www.example.com", "edgesuite.net", "STANDARD_TLS", "IPV4", 0, 0⟩,
        "ctr_1", "grp_1"⟩ : Property.CreateEdgeHostnameRequest).EdgeHostname.IPVersionBehavior
      = "IPV4" :=
  ⟨by decide,
    (create_ip_version_behaviour
      (Property.CreateEnv.sample "www.example.com.edgesuite.net" [])
      "grp_1" "ctr_1" "prd_1" "www.example.com.edgesuite.net" []
      (by rfl) (by rfl) (by rfl) (by rfl) (by rfl) (by decide)).1 (by rfl) (by rfl)
      ⟨⟨"prd_1", "www.example.com", "edgesuite.net", "STANDARD_TLS", "IPV4", 0, 0⟩,
        "ctr_1", "grp_1"⟩ (by decide)⟩

/-- C24, as stated, fails: for `www.example.com.edgesuite.net` with no certificate
configured, no matching item and neither ipv4 nor ipv6 set, create returns an
error and sends no request although `SecureNetwork` is `STANDARD_TLS`. -/
theorem create_fails_without_enhanced_tls :
    (Property.resourceSecureEdgeHostNameCreate
        { Property.CreateEnv.sample "www.example.com.edgesuite.net" [] with
          ipv4 := false }).diags
      = some (.other "ipv4 or ipv6 must be specified to create a new Edge Hostname")
    ∧ (Property.resourceSecureEdgeHostNameCreate
        { Property.CreateEnv.sample "www.example.com.edgesuite.net" [] with
          ipv4 := false }).requests = []
    ∧ (Property.CreateEnv.sample "www.example.com.edgesuite.net" []).certificate.2
      = some Property.GoError.ErrNotFound
    ∧ (Property.deriveHostname "prd_1" "www.example.com.edgesuite.net").SecureNetwork
      = "STANDARD_TLS" := by
  decide

/-- C24, amended: when no fetched item matches, at least one of ipv4 and ipv6 is set,
`ip_behavior` is stored, and the certificate getter reports `ErrNotFound`,
create returns an error without sending a request if and only if the derived
`SecureNetwork` is `ENHANCED_TLS`, that is, the hostname ends in `.edgekey.net`;
otherwise the request is sent with `CertEnrollmentID` and `SlotNumber` both
equal to the value the getter returned, zero when that value is zero. -/
theorem create_certificate_required (env : Property.CreateEnv)
    (groupID contractID productID edgeHostname : String)
    (items : List Property.EdgeHostnameGetItem)
    (hg : env.getGroup = .ok groupID) (hc : env.getContract = .ok contractID)
    (hp : env.getProduct contractID = .ok productID)
    (hi : env.GetEdgeHostnames contractID groupID = .ok items)
    (he : env.edge_hostname = .ok edgeHostname)
    (hnone : ∀ x ∈ items,
      ¬ (x.DomainPrefix = (Property.deriveHostname productID edgeHostname).DomainPrefix
          ∧ x.DomainSuffix = (Property.deriveHostname productID edgeHostname).DomainSuffix))
    (hflag : env.ipv4 = true ∨ env.ipv6 = true)
    (hset : ∀ v, env.setIpBehavior v = none)
    (hcert : env.certificate.2 = some Property.GoError.ErrNotFound) :
    (((Property.resourceSecureEdgeHostNameCreate env).diags ≠ none
          ∧ (Property.resourceSecureEdgeHostNameCreate env).requests = [])
        ↔ (Property.deriveHostname productID edgeHostname).SecureNetwork = "ENHANCED_TLS")
      ∧ ((Property.deriveHostname productID edgeHostname).SecureNetwork = "ENHANCED_TLS"
        ↔ strings.HasSuffix edgeHostname ".edgekey.net" = true)
      ∧ ((Property.deriveHostname productID edgeHostname).SecureNetwork ≠ "ENHANCED_TLS" →
        ∃ request, (Property.resourceSecureEdgeHostNameCreate env).requests = [request]
          ∧ request.EdgeHostname.CertEnrollmentID = env.certificate.1
          ∧ request.EdgeHostname.SlotNumber = env.certificate.1
          ∧ (env.certificate.1 = 0 →
              request.EdgeHostname.CertEnrollmentID = 0
                ∧ request.EdgeHostname.SlotNumber = 0)) := by
  have hrun := Property.create_of_no_match env groupID contractID productID edgeHostname items
    hg hc hp hi he hnone
  have hsent : (Property.deriveHostname productID edgeHostname).SecureNetwork ≠ "ENHANCED_TLS" →
      (Property.resourceSecureEdgeHostNameCreate env).requests
        = [{ EdgeHostname :=
              { Property.deriveHostname productID edgeHostname with
                IPVersionBehavior := Property.ipVersionBehavior env.ipv4 env.ipv6
                  (Property.deriveHostname productID edgeHostname).IPVersionBehavior
                CertEnrollmentID := env.certificate.1
                SlotNumber := env.certificate.1 }
             ContractID := contractID
             GroupID := groupID }] := by
    intro hsec
    rw [hrun]
    exact Property.createNew_sent env contractID groupID _ hflag hset (Or.inr ⟨hcert, hsec⟩)
  refine ⟨?_, Property.secure_enhanced_iff productID edgeHostname, ?_⟩
  · constructor
    · rintro ⟨_, hnoreq⟩
      by_contra hsec
      rw [hsent hsec] at hnoreq
      simp at hnoreq
    · intro hsec
      rw [hrun, Property.createNew_certificate_missing env contractID groupID _ hflag hset
        hcert hsec]
      exact ⟨by simp, rfl⟩
  · intro hsec
    exact ⟨_, hsent hsec, rfl, rfl, fun hzero => ⟨hzero, hzero⟩⟩

/-- Witness for C24 (amended): with ipv4 set and no certificate, the request for
`www.example.com.edgesuite.net` is sent with both certificate fields zero. -/
theorem create_certificate_required_witness :
    ∃ request,
      (Property.resourceSecureEdgeHostNameCreate
        (Property.CreateEnv.sample "www.example.com.edgesuite.net" [])).requests = [request]
        ∧ request.EdgeHostname.CertEnrollmentID
          = (Property.CreateEnv.sample "www.example.com.edgesuite.net" []).certificate.1
        ∧ request.EdgeHostname.SlotNumber
          = (Property.CreateEnv.sample "www.example.com.edgesuite.net" []).certificate.1
        ∧ ((Property.CreateEnv.sample "www.example.com.edgesuite.net" []).certificate.1 = 0 →
            request.EdgeHostname.CertEnrollmentID = 0
              ∧ request.EdgeHostname.SlotNumber = 0) :=
  (create_certificate_required
      (Property.CreateEnv.sample "www.example.com.edgesuite.net" [])
      "grp_1" "ctr_1" "prd_1" "www.example.com.edgesuite.net" []
      (by rfl) (by rfl) (by rfl) (by rfl) (by rfl) (by decide) (Or.inl (by rfl))
      (fun _ => by rfl) (by rfl)).2.2 (by decide)

/-! ## Reading an edge hostname back from the fetched collection -/

namespace Property

/-- On an empty collection the read reaches line 284 and indexes `Items[0]`. -/
theorem read_empty (env : ReadEnv) (groupID contractID : String)
    (hg : env.getGroup = .ok groupID) (hc : env.getContract = .ok contractID)
    (hi : env.GetEdgeHostnames contractID groupID = .ok []) :
    resourceSecureEdgeHostNameRead env = { outcome := .indexOutOfRange } := by
  simp only [resourceSecureEdgeHostNameRead, hg, hc, hi]

end Property

/-- C25, at the failing input: the group and the contract are found and the fetched
collection has no items. The read takes `Items[0]` before it looks at the
declared hostname, so it stops with an index out of range, whether an
`edge_hostname` is declared or not; a collection with one item is read
normally. -/
theorem read_empty_collection_out_of_range :
    Property.resourceSecureEdgeHostNameRead
        (Property.ReadEnv.sample "www.example.com.edgesuite.net" [])
      = { outcome := .indexOutOfRange }
    ∧ Property.resourceSecureEdgeHostNameRead (Property.ReadEnv.sample "" [])
      = { outcome := .indexOutOfRange }
    ∧ Property.resourceSecureEdgeHostNameRead
        (Property.ReadEnv.sample ""
          [⟨"ehn_1", "a.edgesuite.net", "a", "edgesuite.net"⟩])
      = { outcome := .returned none, id := some "ehn_1"
          edge_hostname := some "a.edgesuite.net" } := by
  decide
